import Mathlib

/-!
# SPERR / SPECK: a shallow embedding of the set-partitioning coder and the
chunk orchestrator, with the properties of the specification checked on it.

Sources embedded here:
* `src/SPECK2D.cpp`  : `speck2d`, `m_process_S`, `m_code_S`, `m_partition_S`,
  `m_output_set_significance`, `m_output_pixel_sign`, `m_num_of_part_levels`,
  `m_calc_set_size`, `SPECKSet2D::is_pixel`;
* `src/SPECK3D.cpp`  : `assign_bit_budget`, `m_clean_LIS`,
  `m_decide_setS_significance`, `m_decide_setI_significance`,
  `m_output_set_significance`, `SPECKSet3D::is_pixel`, `SPECKSet3D::is_empty`;
* `src/SPERR3D_OMP_C.cpp` : `set_num_threads`, `set_bpp`, `copy_data`,
  `compress`, `get_encoded_bitstream`, `m_generate_header`.

Conventions of the embedding.
* The `long` coordinates, lengths and levels of a 2D set are natural numbers:
  every set the coder builds has non-negative fields (the partition only adds
  and halves), and signed overflow is undefined in the source anyway.
* `size_t` arithmetic that can wrap is written with an explicit `% 2 ^ 64`.
* A `std::vector` (or raw buffer) is a `List`; an access outside its bounds,
  which is undefined behaviour in the source, is the error `Err.outOfRange`.
* A failed `assert` is the error `Err.assertFailed`.
* The mutual recursion `m_process_S` / `m_code_S` is driven by a fuel counter
  that only bounds the number of nested `m_process_S` calls; running out of it
  is the error `Err.outOfFuel`.
* Coefficients are `double` in the source.  The embedding of the coder is
  generic in the coefficient type `R`; the only arithmetic it uses is the
  subtraction of the threshold.  `speck2d` takes rational coefficients, with
  `std::log2` and `std::pow` exact.  The orchestrator sees a `double` as not a
  number, an infinity or a finite value, and takes its arithmetic as a
  parameter.
* What the source prints to `std::cout` is appended to the field `cout`.
* The sizes of the vectors of the orchestrator are natural numbers: vectors
  that exist in memory hold fewer than `2 ^ 64` bytes together, so the sums of
  sizes that the source computes do not wrap.  A `memcpy` of a `uint32_t`
  stores its least significant byte first.
* Helpers and constants that the sources use but do not define are either
  parameters (`chunk_volume`, the build configuration) or modelled from the
  specification, and say so.
-/

namespace speck

/-- Ways in which a run of the embedded code can stop without a result. -/
inductive Err where
  | outOfRange
  | assertFailed
  | outOfFuel
  deriving DecidableEq, Repr

/-- Modelled from the spec: the enumeration `Significance`, whose declaration
(`SPECK2D.h`) is not part of the sources; section 3.3 lists its values. -/
inductive Significance where
  | Insig
  | Sig
  | NewlySig
  | Empty
  deriving DecidableEq, Repr

/-- Modelled from the spec: the enumeration `SPECKSetType` of the 2D coder
(section 3.3: a set is of type `S` or `I`). -/
inductive SPECKSetType where
  | TypeS
  | TypeI
  deriving DecidableEq, Repr

/-- What the 2D coder prints: a set significance bit or a pixel sign bit. -/
inductive Output where
  | set_significance (bit : Bool)
  | pixel_sign (bit : Bool)
  deriving DecidableEq, Repr

/-- Modelled from the spec: the class `SPECKSet2D` (section 3.3).  Its fields
are the ones the source reads and writes; the defaults are those of a set
fresh from the constructor `SPECKSet2D( SPECKSetType t )`, which only sets
`type`. -/
structure SPECKSet2D where
  start_x    : Nat := 0
  start_y    : Nat := 0
  length_x   : Nat := 0
  length_y   : Nat := 0
  part_level : Nat := 0
  signif     : Significance := Significance.Insig
  garbage    : Bool := false
  type       : SPECKSetType
  deriving DecidableEq, Repr

/-- The source: `SPECKSet2D::is_pixel`. -/
def SPECKSet2D.is_pixel (s : SPECKSet2D) : Bool :=
  s.length_x == 1 && s.length_y == 1

/-- The cell `(x, y)` lies in the rectangle of the set `s`. -/
def SPECKSet2D.contains (s : SPECKSet2D) (x y : Nat) : Prop :=
  s.start_x ≤ x ∧ x < s.start_x + s.length_x ∧
  s.start_y ≤ y ∧ y < s.start_y + s.length_y

instance (s : SPECKSet2D) (x y : Nat) : Decidable (s.contains x y) := by
  unfold SPECKSet2D.contains; infer_instance

/-- The members of the class `SPECK2D` that the embedded methods use. -/
structure SPECK2D (R : Type) where
  m_dim_x            : Nat
  m_dim_y            : Nat
  m_coeff_buf        : List R
  m_sign_array       : List Bool
  m_significance_map : List Bool
  m_threshold        : R
  m_LIS              : List (List SPECKSet2D)
  m_LSP              : List SPECKSet2D
  cout               : List Output
  m_I                : SPECKSet2D := { type := SPECKSetType.TypeI }
  deriving DecidableEq, Repr

namespace SPECK2D

/-- The source: `SPECK2D::m_partition_S`.  The list is returned in the order
of the four `push_back` calls: LR, LL, TR, TL. -/
def m_partition_S (set : SPECKSet2D) : List SPECKSet2D :=
  let bigger_x := set.length_x - (set.length_x / 2)
  let bigger_y := set.length_y - (set.length_y / 2)
  let TL : SPECKSet2D :=
    { type := SPECKSetType.TypeS
      part_level := set.part_level + 1
      start_x := set.start_x
      start_y := set.start_y
      length_x := bigger_x
      length_y := bigger_y }
  let TR : SPECKSet2D :=
    { type := SPECKSetType.TypeS
      part_level := set.part_level + 1
      start_x := set.start_x + bigger_x
      start_y := set.start_y
      length_x := set.length_x - bigger_x
      length_y := bigger_y }
  let LL : SPECKSet2D :=
    { type := SPECKSetType.TypeS
      part_level := set.part_level + 1
      start_x := set.start_x
      start_y := set.start_y + bigger_x
      length_x := set.length_x
      length_y := set.length_y - bigger_y }
  let LR : SPECKSet2D :=
    { type := SPECKSetType.TypeS
      part_level := set.part_level + 1
      start_x := set.start_x + bigger_x
      start_y := set.start_y + bigger_x
      length_x := set.length_x - bigger_x
      length_y := set.length_y - bigger_y }
  [LR, LL, TR, TL]

/-- The inner loop of `m_output_set_significance`: `n` cells of row `y`
from column `x` on; stops at the first marked cell. -/
def scan_row (map : List Bool) (dim_x y : Nat) : Nat → Nat → Except Err Bool
  | _, 0 => Except.ok false
  | x, n + 1 =>
    match map[y * dim_x + x]? with
    | none => Except.error Err.outOfRange
    | some true => Except.ok true
    | some false => scan_row map dim_x y (x + 1) n

/-- The outer loop of `m_output_set_significance`: `n` rows from row `y` on;
leaves as soon as a row has set the significance. -/
def scan_rows (map : List Bool) (dim_x start_x length_x : Nat) :
    Nat → Nat → Except Err Bool
  | _, 0 => Except.ok false
  | y, n + 1 =>
    match scan_row map dim_x y start_x length_x with
    | Except.error e => Except.error e
    | Except.ok true => Except.ok true
    | Except.ok false => scan_rows map dim_x start_x length_x (y + 1) n

/-- The source: `SPECK2D::m_output_set_significance`.  Returns the object
(with the printed bit appended to `cout`) and the set with `signif`
assigned. -/
def m_output_set_significance {R : Type} (st : SPECK2D R) (set : SPECKSet2D) :
    Except Err (SPECK2D R × SPECKSet2D) :=
  if set.type ≠ SPECKSetType.TypeS then Except.error Err.assertFailed
  else if st.m_significance_map.length ≠ st.m_dim_x * st.m_dim_y then
    Except.error Err.assertFailed
  else
    match scan_rows st.m_significance_map st.m_dim_x set.start_x set.length_x
        set.start_y set.length_y with
    | Except.error e => Except.error e
    | Except.ok hit =>
      Except.ok
        ({ st with cout := st.cout ++ [Output.set_significance hit] },
         { set with signif := if hit then Significance.Sig else Significance.Insig })

/-- The source: `SPECK2D::m_output_pixel_sign`.  The index is the one the
source computes, `y * m_dim_x * x`. -/
def m_output_pixel_sign {R : Type} [Sub R] (st : SPECK2D R) (pixel : SPECKSet2D) :
    Except Err (SPECK2D R) :=
  let x := pixel.start_x
  let y := pixel.start_y
  let idx := y * st.m_dim_x * x
  match st.m_sign_array[idx]?, st.m_coeff_buf[idx]? with
  | some sign, some c =>
    Except.ok
      { st with cout := st.cout ++ [Output.pixel_sign sign]
                m_coeff_buf := st.m_coeff_buf.set idx (c - st.m_threshold) }
  | _, _ => Except.error Err.outOfRange

/-- The statement `m_LIS[ level ].push_back( s )`. -/
def push_LIS (lis : List (List SPECKSet2D)) (level : Nat) (s : SPECKSet2D) :
    Except Err (List (List SPECKSet2D)) :=
  match lis[level]? with
  | none => Except.error Err.outOfRange
  | some v => Except.ok (lis.set level (v ++ [s]))

/-- The loop of `SPECK2D::m_code_S` over the local vector `subsets`, with the
callee `m_process_S` as a parameter.  Each element is first copied into the
LIS and then processed in place; the processed elements are returned with the
object. -/
def code_S_loop {R : Type}
    (process : SPECK2D R → SPECKSet2D → Except Err (SPECK2D R × SPECKSet2D)) :
    SPECK2D R → List SPECKSet2D → Except Err (SPECK2D R × List SPECKSet2D)
  | st, [] => Except.ok (st, [])
  | st, s :: rest =>
    match push_LIS st.m_LIS s.part_level s with
    | Except.error e => Except.error e
    | Except.ok lis =>
      match process { st with m_LIS := lis } s with
      | Except.error e => Except.error e
      | Except.ok (st1, s1) =>
        match code_S_loop process st1 rest with
        | Except.error e => Except.error e
        | Except.ok (st2, rest2) => Except.ok (st2, s1 :: rest2)

/-- The source: `SPECK2D::m_process_S`, with `fuel` bounding the depth of
the recursion through `m_code_S`.  The branches are those of the source: the
`else` belongs to the outer `if`. -/
def m_process_S {R : Type} [Sub R] :
    Nat → SPECK2D R → SPECKSet2D → Except Err (SPECK2D R × SPECKSet2D)
  | 0, _, _ => Except.error Err.outOfFuel
  | fuel + 1, st, set =>
    match m_output_set_significance st set with
    | Except.error e => Except.error e
    | Except.ok (st1, set1) =>
      if set1.signif = Significance.Sig ∨ set1.signif = Significance.NewlySig then
        if set1.is_pixel then
          let set2 := { set1 with signif := Significance.NewlySig }
          match m_output_pixel_sign st1 set2 with
          | Except.error e => Except.error e
          | Except.ok st2 =>
            Except.ok ({ st2 with m_LSP := st2.m_LSP ++ [set2] },
                       { set2 with garbage := true })
        else Except.ok (st1, set1)
      else
        match code_S_loop (m_process_S fuel) st1 (m_partition_S set1) with
        | Except.error e => Except.error e
        | Except.ok (st2, _) => Except.ok (st2, { set1 with garbage := true })

/-- The source: `SPECK2D::m_code_S`; the second component is the local vector
`subsets` as it stands when the method returns. -/
def m_code_S {R : Type} [Sub R] (fuel : Nat) (st : SPECK2D R) (set : SPECKSet2D) :
    Except Err (SPECK2D R × List SPECKSet2D) :=
  code_S_loop (m_process_S fuel) st (m_partition_S set)

end SPECK2D

/-- Modelled from the spec: the enumeration `SetType` of the 3D coder, whose
declaration (`SPECK3D.h`) is not part of the sources; `m_clean_LIS` compares a
set's type with `SetType::Garbage`. -/
inductive SetType where
  | TypeS
  | TypeI
  | Garbage
  deriving DecidableEq, Repr

/-- Modelled from the spec: the class `SPECKSet3D` (section 3.3), with the
fields the source reads and writes.  The unsigned coordinates are natural
numbers. -/
structure SPECKSet3D where
  start_x    : Nat := 0
  start_y    : Nat := 0
  start_z    : Nat := 0
  length_x   : Nat := 0
  length_y   : Nat := 0
  length_z   : Nat := 0
  part_level : Nat := 0
  signif     : Significance := Significance.Insig
  type       : SetType := SetType.TypeS
  deriving DecidableEq, Repr

/-- The source: `SPECKSet3D::is_pixel`. -/
def SPECKSet3D.is_pixel (s : SPECKSet3D) : Bool :=
  s.length_x == 1 && s.length_y == 1 && s.length_z == 1

/-- The source: `SPECKSet3D::is_empty`. -/
def SPECKSet3D.is_empty (s : SPECKSet3D) : Bool :=
  s.length_z == 0 || s.length_y == 0 || s.length_x == 0

/-- The members of the class `SPECK3D` that the embedded methods use. -/
structure SPECK3D where
  m_dim_x            : Nat := 0
  m_dim_y            : Nat := 0
  m_dim_z            : Nat := 0
  m_budget           : Nat := 0
  m_bit_buffer       : List Bool := []
  m_bit_idx          : Nat := 0
  m_encode_mode      : Bool := true
  m_significance_map : List Bool := []
  m_LIS              : List (List SPECKSet3D) := []
  m_LIS_garbage_cnt  : List Nat := []
  m_vec_init_capacity : Nat := 8
  deriving DecidableEq, Repr

namespace SPECK3D

/-- Addition of two `size_t` values: it wraps at `2 ^ 64`. -/
def size_t_add (a b : Nat) : Nat := (a + b) % 2 ^ 64

/-- Subtraction of two `size_t` values: it wraps at `2 ^ 64`. -/
def size_t_sub (a b : Nat) : Nat := (a + 2 ^ 64 - b % 2 ^ 64) % 2 ^ 64

/-- The source: `SPECK3D::assign_bit_budget`; `budget` is a `size_t`. -/
def assign_bit_budget (st : SPECK3D) (budget : Nat) : SPECK3D :=
  let mod := budget % 8
  if mod = 0 then { st with m_budget := budget }
  else { st with m_budget := size_t_sub (size_t_add budget 8) mod }

/-- The innermost loop of the encoding branch of `m_decide_setS_significance`:
`n` cells from column `x` on, in row `y` of slice `z`.  Returns what the loop
appends to `signif_idx`. -/
def scan_x (map : List Bool) (dim_x slice_size z y : Nat) :
    Nat → Nat → Except Err (List Nat)
  | _, 0 => Except.ok []
  | x, n + 1 =>
    match map[z * slice_size + y * dim_x + x]? with
    | none => Except.error Err.outOfRange
    | some bit =>
      match scan_x map dim_x slice_size z y (x + 1) n with
      | Except.error e => Except.error e
      | Except.ok found => Except.ok (if bit then x :: y :: z :: found else found)

/-- The middle loop of the encoding branch: `n` rows from row `y` on. -/
def scan_y (map : List Bool) (dim_x slice_size start_x length_x z : Nat) :
    Nat → Nat → Except Err (List Nat)
  | _, 0 => Except.ok []
  | y, n + 1 =>
    match scan_x map dim_x slice_size z y start_x length_x with
    | Except.error e => Except.error e
    | Except.ok row =>
      match scan_y map dim_x slice_size start_x length_x z (y + 1) n with
      | Except.error e => Except.error e
      | Except.ok found => Except.ok (row ++ found)

/-- The outer loop of the encoding branch: `n` slices from slice `z` on. -/
def scan_z (map : List Bool) (dim_x slice_size start_x length_x start_y length_y : Nat) :
    Nat → Nat → Except Err (List Nat)
  | _, 0 => Except.ok []
  | z, n + 1 =>
    match scan_y map dim_x slice_size start_x length_x z start_y length_y with
    | Except.error e => Except.error e
    | Except.ok slice =>
      match scan_z map dim_x slice_size start_x length_x start_y length_y (z + 1) n with
      | Except.error e => Except.error e
      | Except.ok found => Except.ok (slice ++ found)

/-- The decoding branch shared by `m_decide_setS_significance` and
`m_decide_setI_significance`: the guard on `m_bit_idx`, then one bit read. -/
def decode_significance {S : Type} (st : SPECK3D) (set : SPECKSet3D) (sigs : S) :
    Except Err (SPECK3D × SPECKSet3D × S × Int) :=
  if st.m_bit_idx ≥ st.m_budget ∨ st.m_bit_idx ≥ st.m_bit_buffer.length then
    Except.ok (st, set, sigs, 1)
  else
    match st.m_bit_buffer[st.m_bit_idx]? with
    | none => Except.error Err.outOfRange
    | some bit =>
      Except.ok ({ st with m_bit_idx := st.m_bit_idx + 1 },
                 { set with signif := if bit then Significance.Sig else Significance.Insig },
                 sigs, 0)

/-- The source: `SPECK3D::m_decide_setS_significance`.  Returns the object,
the set, the array `sigs` and the `int` the method returns. -/
def m_decide_setS_significance (st : SPECK3D) (set : SPECKSet3D)
    (sigs : List Significance) :
    Except Err (SPECK3D × SPECKSet3D × List Significance × Int) :=
  if st.m_encode_mode = false then decode_significance st set sigs
  else
    let slice_size := st.m_dim_x * st.m_dim_y
    match scan_z st.m_significance_map st.m_dim_x slice_size set.start_x set.length_x
        set.start_y set.length_y set.start_z set.length_z with
    | Except.error e => Except.error e
    | Except.ok signif_idx =>
      if signif_idx.isEmpty then
        Except.ok (st, { set with signif := Significance.Insig }, sigs, 0)
      else
        Except.ok (st, { set with signif := Significance.Sig },
                   sigs.map (fun _ => Significance.Insig), 0)

/-- The source: `SPECK3D::m_decide_setI_significance`. -/
def m_decide_setI_significance (st : SPECK3D) (set : SPECKSet3D)
    (sigs : List Significance) :
    Except Err (SPECK3D × SPECKSet3D × List Significance × Int) :=
  if st.m_encode_mode = false then decode_significance st set sigs
  else Except.ok (st, set, sigs, 0)

/-- The source: `SPECK3D::m_output_set_significance` (without `PRINT`).
Returns the object and the `int` the method returns. -/
def m_output_set_significance (st : SPECK3D) (set : SPECKSet3D) : SPECK3D × Int :=
  let bit := decide (set.signif = Significance.Sig)
  let st1 := { st with m_bit_buffer := st.m_bit_buffer ++ [bit] }
  if st1.m_bit_buffer.length ≥ st1.m_budget then (st1, 1) else (st1, 0)

/-- A run of the encoder over the sets `sets`: `m_output_set_significance` is
called on one set after the other and the run halts at the first call that
returns 1.  The result lists the object after each call that was made. -/
def output_run : SPECK3D → List SPECKSet3D → List SPECK3D
  | _, [] => []
  | st, s :: rest =>
    match m_output_set_significance st s with
    | (st1, rc) => if rc = 1 then [st1] else st1 :: output_run st1 rest

end SPECK3D

end speck

namespace sperr

/-- The type `sperr::dims_type`, a `std::array<size_t, 3>`. -/
abbrev dims_type := Fin 3 → Nat

/-- The type `sperr::vec8_type`, a `std::vector<uint8_t>`; a byte is a number
below 256. -/
abbrev vec8_type := List Nat

/-- A chunk descriptor `(x0, lx, y0, ly, z0, lz)`, a `std::array<size_t, 6>`. -/
abbrev chunk_type := Fin 6 → Nat

/-- The starts and lengths of the pieces of one axis of length `d` cut every
`c` cells, the last piece possibly shorter. -/
def axis_pieces (d c : Nat) : List (Nat × Nat) :=
  if c = 0 then []
  else (List.range ((d + c - 1) / c)).map (fun k => (k * c, min c (d - k * c)))

/-- Modelled from the spec: the helper `sperr::chunk_volume`, which is not part
of the sources.  Section 4.4: chunks tile the volume in row-major (x-fastest)
order with the last chunk in each dimension potentially shorter. -/
def chunk_volume (vol_dims chunk_dims : dims_type) : List chunk_type :=
  (axis_pieces (vol_dims 2) (chunk_dims 2)).flatMap fun z =>
    (axis_pieces (vol_dims 1) (chunk_dims 1)).flatMap fun y =>
      (axis_pieces (vol_dims 0) (chunk_dims 0)).map fun x =>
        ![x.1, x.2, y.1, y.2, z.1, z.2]

/-- Modelled from the spec: the helper `sperr::pack_8_booleans`, which is not
part of the sources.  Section 6.1: flag `i` is bit `i` of the byte. -/
def pack_8_booleans (b8 : List Bool) : Nat :=
  ((List.range 8).map (fun i => if b8.getD i false then 2 ^ i else 0)).sum

/-- The four bytes that `memcpy` stores for a `uint32_t` holding `v`
(truncated to 32 bits), least significant byte first as in section 6.1. -/
def u32_bytes (v : Nat) : List Nat :=
  let w := v % 2 ^ 32
  [w % 256, w / 2 ^ 8 % 256, w / 2 ^ 16 % 256, w / 2 ^ 24 % 256]

/-- A copy of `bytes` into the buffer `buf` from position `loc` on
(`memcpy`, `std::copy`); it must fit. -/
def write_at (buf : vec8_type) (loc : Nat) (bytes : vec8_type) :
    Except speck.Err vec8_type :=
  if loc + bytes.length ≤ buf.length then
    Except.ok (buf.take loc ++ bytes ++ buf.drop (loc + bytes.length))
  else Except.error speck.Err.outOfRange

/-- Modelled from the spec: the status type `RTNType`, whose declaration is
not part of the sources; `Good` and the error kinds of section 7. -/
inductive RTNType where
  | Good
  | InvalidParam
  | WrongDims
  | SetBPPBeforeDims
  | BudgetExhausted
  | EmptyStream
  | BitstreamTruncated
  | BitstreamCorrupt
  | Error
  deriving DecidableEq, Repr

/-- A `double`, as far as the orchestrator inspects one: not a number, an
infinity, or a finite value.  Finite values are held exactly; the arithmetic
on doubles is not fixed here, it is a parameter (`double_ops`). -/
inductive double where
  | nan
  | neg_inf
  | finite (q : ℚ)
  | pos_inf
  deriving DecidableEq

/-- The comparison `a < b` of two doubles; it is false when either side is
not a number. -/
def double.lt : double → double → Bool
  | double.nan, _ => false
  | _, double.nan => false
  | _, double.neg_inf => false
  | double.neg_inf, _ => true
  | double.pos_inf, _ => false
  | double.finite _, double.pos_inf => true
  | double.finite a, double.finite b => decide (a < b)

/-- The floating-point operations that `set_bpp` uses: the conversion of a
`size_t`, the product, the difference and the quotient of two doubles. -/
structure double_ops where
  of_size_t : Nat → double
  mul       : double → double → double
  sub       : double → double → double
  div       : double → double → double

end sperr

/-- What the build fixes for `SPERR3D_OMP_C.cpp`: the macro
`SPERR_VERSION_MAJOR` and whether `USE_ZSTD` and `QZ_TERM` are defined. -/
structure BuildConfig where
  SPERR_VERSION_MAJOR : Nat := 0
  USE_ZSTD            : Bool := false
  QZ_TERM             : Bool := false
  deriving DecidableEq, Repr

/-- The members of the class `SPERR3D_OMP_C` that the embedded methods use. -/
structure SPERR3D_OMP_C where
  m_dims            : sperr.dims_type := fun _ => 0
  m_chunk_dims      : sperr.dims_type := fun _ => 0
  m_encoded_streams : List sperr.vec8_type := []
  m_num_threads     : Nat := 1
  m_chunk_buffers   : List (List sperr.double) := []
  m_bpp             : sperr.double := sperr.double.finite 0

namespace SPERR3D_OMP_C

open sperr

/-- Modelled from the spec: the constant `m_header_magic`, declared in
`SPERR3D_OMP_C.h`, which is not part of the sources.  Section 6.1: the fixed
part of the header is 26 bytes (version, flags, six 4-byte dimensions). -/
def m_header_magic : Nat := 26

/-- The loop of `m_generate_header` that asserts that the size of each stream
fits a `uint32_t`, stores it at `loc` and advances `loc` by 4. -/
def write_lengths : vec8_type → Nat → List vec8_type → Except speck.Err (vec8_type × Nat)
  | header, loc, [] => Except.ok (header, loc)
  | header, loc, stream :: rest =>
    if ¬ (stream.length ≤ 2 ^ 32 - 1) then Except.error speck.Err.assertFailed
    else
      match write_at header loc (u32_bytes stream.length) with
      | Except.error e => Except.error e
      | Except.ok header1 => write_lengths header1 (loc + 4) rest

/-- The source: `SPERR3D_OMP_C::m_generate_header`.  The helper
`chunk_volume` is a parameter. -/
def m_generate_header (chunk_volume : dims_type → dims_type → List chunk_type)
    (cfg : BuildConfig) (st : SPERR3D_OMP_C) : Except speck.Err vec8_type :=
  let chunks := chunk_volume st.m_dims st.m_chunk_dims
  let num_chunks := chunks.length
  if num_chunks ≠ st.m_encoded_streams.length then Except.ok []
  else
    let header_size := m_header_magic + num_chunks * 4
    let header : vec8_type := List.replicate header_size 0
    match write_at header 0 [cfg.SPERR_VERSION_MAJOR % 256] with
    | Except.error e => Except.error e
    | Except.ok header1 =>
      let b8 := [cfg.USE_ZSTD, true, cfg.QZ_TERM, false, false, false, false, false]
      match write_at header1 1 [pack_8_booleans b8] with
      | Except.error e => Except.error e
      | Except.ok header2 =>
        let vcdim :=
          u32_bytes (st.m_dims 0) ++ u32_bytes (st.m_dims 1) ++ u32_bytes (st.m_dims 2) ++
          u32_bytes (st.m_chunk_dims 0) ++ u32_bytes (st.m_chunk_dims 1) ++
          u32_bytes (st.m_chunk_dims 2)
        match write_at header2 2 vcdim with
        | Except.error e => Except.error e
        | Except.ok header3 =>
          match write_lengths header3 (2 + 24) st.m_encoded_streams with
          | Except.error e => Except.error e
          | Except.ok (header4, loc) =>
            if loc ≠ header_size then Except.error speck.Err.assertFailed
            else Except.ok header4

/-- The loop of `get_encoded_bitstream` that copies each stream to `itr` and
advances `itr` by the stream's size. -/
def copy_streams : vec8_type → Nat → List vec8_type → Except speck.Err vec8_type
  | buf, _, [] => Except.ok buf
  | buf, itr, s :: rest =>
    match write_at buf itr s with
    | Except.error e => Except.error e
    | Except.ok buf1 => copy_streams buf1 (itr + s.length) rest

/-- The source: `SPERR3D_OMP_C::get_encoded_bitstream`. -/
def get_encoded_bitstream (chunk_volume : dims_type → dims_type → List chunk_type)
    (cfg : BuildConfig) (st : SPERR3D_OMP_C) : Except speck.Err vec8_type :=
  match m_generate_header chunk_volume cfg st with
  | Except.error e => Except.error e
  | Except.ok header =>
    if header.isEmpty then Except.ok []
    else
      let total_size :=
        st.m_encoded_streams.foldl (fun a b => a + b.length) header.length
      let buf : vec8_type := List.replicate total_size 0
      match write_at buf 0 header with
      | Except.error e => Except.error e
      | Except.ok buf1 => copy_streams buf1 header.length st.m_encoded_streams

end SPERR3D_OMP_C

/-! ## Example inputs -/

namespace speck

namespace SPECK2D

/-- A 2D coder over integer coefficients, all equal to 10, with threshold 8,
all signs positive, an empty LSP and nothing printed yet. -/
def example_plane (dim_x dim_y : Nat) (map : List Bool)
    (lis : List (List SPECKSet2D)) : SPECK2D Int :=
  { m_dim_x := dim_x
    m_dim_y := dim_y
    m_coeff_buf := List.replicate (dim_x * dim_y) 10
    m_sign_array := List.replicate (dim_x * dim_y) false
    m_significance_map := map
    m_threshold := 8
    m_LIS := lis
    m_LSP := []
    cout := [] }

/-- An S-set with the given start, lengths and partition level. -/
def example_set (x y lx ly level : Nat) : SPECKSet2D :=
  { type := SPECKSetType.TypeS
    start_x := x
    start_y := y
    length_x := lx
    length_y := ly
    part_level := level }

/-- The children `children` cover `parent` exactly: a cell of the parent lies
in exactly one child and a cell outside the parent lies in none. -/
def covers_exactly (parent : SPECKSet2D) (children : List SPECKSet2D) : Prop :=
  ∀ x y : Nat,
    (children.filter (fun c => decide (c.contains x y))).length =
      if parent.contains x y then 1 else 0

/-- The plane two objects work on is the same: same dimensions and same
significance map. -/
def same_plane {R : Type} (st st1 : SPECK2D R) : Prop :=
  st1.m_dim_x = st.m_dim_x ∧ st1.m_dim_y = st.m_dim_y ∧
  st1.m_significance_map = st.m_significance_map

end SPECK2D

end speck

namespace sperr

/-- Modelled from the spec: how a reader of the container takes a
little-endian `u32` field at offset `off` (section 6.1). -/
def read_u32_le (buf : vec8_type) (off : Nat) : Option Nat :=
  match buf[off]?, buf[off + 1]?, buf[off + 2]?, buf[off + 3]? with
  | some b0, some b1, some b2, some b3 =>
    some (b0 + 2 ^ 8 * b1 + 2 ^ 16 * b2 + 2 ^ 24 * b3)
  | _, _, _, _ => none

/-- Modelled from the spec: the fields of the container header as section 6.1
lays them out, read from a header `buf` for `K` chunks: `Dx, Dy, Dz` at
offsets 2, 6, 10, `Cx, Cy, Cz` at 14, 18, 22 and the length of chunk `i` at
`26 + 4 * i`. -/
def parse_header (buf : vec8_type) (K : Nat) :
    List (Option Nat) × List (Option Nat) × List (Option Nat) :=
  ([read_u32_le buf 2, read_u32_le buf 6, read_u32_le buf 10],
   [read_u32_le buf 14, read_u32_le buf 18, read_u32_le buf 22],
   (List.range K).map (fun i => read_u32_le buf (26 + 4 * i)))

end sperr

namespace SPERR3D_OMP_C

open sperr

/-- The source: `SPERR3D_OMP_C::set_num_threads`. -/
def set_num_threads (st : SPERR3D_OMP_C) (n : Nat) : SPERR3D_OMP_C :=
  if n > 0 then { st with m_num_threads := n } else st

/-- The source: `SPERR3D_OMP_C::set_bpp` (the build without `QZ_TERM`).  The
products and sums of `size_t` values wrap at `2 ^ 64`; the helper
`chunk_volume` and the arithmetic on doubles are parameters. -/
def set_bpp (chunk_volume : dims_type → dims_type → List chunk_type) (ops : double_ops)
    (st : SPERR3D_OMP_C) (bpp : double) : SPERR3D_OMP_C × RTNType :=
  if double.lt bpp (double.finite 0) || double.lt (double.finite 64) bpp then
    (st, RTNType.InvalidParam)
  else if (List.ofFn st.m_dims).any (fun v => v == 0) ||
      (List.ofFn st.m_chunk_dims).any (fun v => v == 0) then
    (st, RTNType.SetBPPBeforeDims)
  else
    let total_vals_f := ops.of_size_t ((st.m_dims 0 * st.m_dims 1 * st.m_dims 2) % 2 ^ 64)
    let total_bits := ops.mul bpp total_vals_f
    let chunks := chunk_volume st.m_dims st.m_chunk_dims
    let header_bits := ((m_header_magic + chunks.length * 4) * 8) % 2 ^ 64
    let total_bits1 := ops.sub total_bits (ops.of_size_t header_bits)
    ({ st with m_bpp := ops.div total_bits1 total_vals_f }, RTNType.Good)

/-- The loop of `copy_data` that stores the chunk dimensions, one index after
the other. -/
def clamp_chunk_dims (chunk_dims vol_dims : dims_type) :
    List (Fin 3) → dims_type → dims_type
  | [], m_chunk_dims => m_chunk_dims
  | i :: rest, m_chunk_dims =>
    clamp_chunk_dims chunk_dims vol_dims rest
      (Function.update m_chunk_dims i (min (max 1 (chunk_dims i)) (vol_dims i)))

/-- The source: `SPERR3D_OMP_C::copy_data`.  The volume is the buffer `vol`
with the length `len` that the caller states; the helpers `chunk_volume` and
`gather_chunk` are parameters. -/
def copy_data {T : Type} (chunk_volume : dims_type → dims_type → List chunk_type)
    (gather_chunk : List T → dims_type → chunk_type → List double)
    (st : SPERR3D_OMP_C) (vol : List T) (len : Nat) (vol_dims chunk_dims : dims_type) :
    SPERR3D_OMP_C × RTNType :=
  if len ≠ (vol_dims 0 * vol_dims 1 * vol_dims 2) % 2 ^ 64 then (st, RTNType.WrongDims)
  else
    let m_chunk_dims := clamp_chunk_dims chunk_dims vol_dims (List.finRange 3) st.m_chunk_dims
    let chunks := chunk_volume vol_dims m_chunk_dims
    ({ st with m_dims := vol_dims
               m_chunk_dims := m_chunk_dims
               m_chunk_buffers := chunks.map (fun c => gather_chunk vol vol_dims c) },
     RTNType.Good)

/-- The loop of `compress` over the chunks, in index order (the execution
without `USE_OMP`, where every chunk uses `compressors[0]`).  One step of the
compressor, a parameter, stands for `take_data`, `toggle_conditioning`,
`set_bpp` (or the `QZ_TERM` setters), `compress` and
`release_encoded_bitstream`: from the state of the compressor, the chunk
buffer, the chunk dimensions and `m_bpp` it gives the next state of the
compressor, the status and the encoded stream. -/
def run_compressors {C : Type}
    (step : C → List double → Nat × Nat × Nat → double → C × RTNType × vec8_type)
    (bpp : double) : C → List (List double × chunk_type) → List (RTNType × vec8_type)
  | _, [] => []
  | c, (buf, chunk) :: rest =>
    match step c buf (chunk 1, chunk 3, chunk 5) bpp with
    | (c1, rtn, stream) => (rtn, stream) :: run_compressors step bpp c1 rest

/-- The source: `SPERR3D_OMP_C::compress`.  The chunk buffers are moved into
the compressor, which leaves them empty.  With `m_num_threads = 0` the vector
`compressors` is empty and `compressors[0]` is out of bounds. -/
def compress {C : Type} (chunk_volume : dims_type → dims_type → List chunk_type)
    (step : C → List double → Nat × Nat × Nat → double → C × RTNType × vec8_type)
    (fresh : C) (st : SPERR3D_OMP_C) : Except speck.Err (SPERR3D_OMP_C × RTNType) :=
  let chunks := chunk_volume st.m_dims st.m_chunk_dims
  let num_chunks := chunks.length
  if st.m_chunk_buffers.length ≠ num_chunks then Except.ok (st, RTNType.Error)
  else if st.m_chunk_buffers.any (fun v => v.isEmpty) then Except.ok (st, RTNType.Error)
  else if st.m_num_threads = 0 ∧ 0 < num_chunks then Except.error speck.Err.outOfRange
  else
    let results := run_compressors step st.m_bpp fresh (st.m_chunk_buffers.zip chunks)
    let chunk_rtn := results.map Prod.fst
    let st1 := { st with m_encoded_streams := results.map Prod.snd
                         m_chunk_buffers := st.m_chunk_buffers.map (fun _ => []) }
    match chunk_rtn.find? (fun r => r != RTNType.Good) with
    | some fail => Except.ok (st1, fail)
    | none =>
      if st1.m_encoded_streams.any (fun s => s.isEmpty) then
        Except.ok (st1, RTNType.EmptyStream)
      else Except.ok (st1, RTNType.Good)

/-- An example compressor step without state of its own: a chunk buffer that
starts with a negative value is refused with `InvalidParam`, a chunk buffer
of one value gives the empty stream, and any other buffer gives a stream of
one byte, its length. -/
def example_step (c : Unit) (buf : List double) (_dims : Nat × Nat × Nat) (_bpp : double) :
    Unit × RTNType × vec8_type :=
  match buf with
  | v :: _ =>
    if double.lt v (double.finite 0) then (c, RTNType.InvalidParam, [])
    else if buf.length = 1 then (c, RTNType.Good, [])
    else (c, RTNType.Good, [buf.length % 256])
  | [] => (c, RTNType.Error, [])

/-- Example arithmetic on doubles: exact on finite values, not a number
otherwise or when dividing by zero. -/
def example_ops : double_ops where
  of_size_t := fun n => double.finite n
  mul := fun a b =>
    match a, b with
    | double.finite x, double.finite y => double.finite (x * y)
    | _, _ => double.nan
  sub := fun a b =>
    match a, b with
    | double.finite x, double.finite y => double.finite (x - y)
    | _, _ => double.nan
  div := fun a b =>
    match a, b with
    | double.finite x, double.finite y => if y = 0 then double.nan else double.finite (x / y)
    | _, _ => double.nan

/-- An orchestrator holding a 6x1x1 volume cut into three chunks of two
values: the second chunk starts with a negative value. -/
def example_orchestrator : SPERR3D_OMP_C :=
  { m_dims := ![6, 1, 1]
    m_chunk_dims := ![2, 1, 1]
    m_chunk_buffers :=
      [[double.finite 1, double.finite 2], [double.finite (-1), double.finite 0],
       [double.finite 3, double.finite 4]] }

end SPERR3D_OMP_C

namespace speck

/-- The set `s` lies inside the plane of dimensions `dim_x` by `dim_y`. -/
def SPECKSet2D.inside (s : SPECKSet2D) (dim_x dim_y : Nat) : Prop :=
  s.start_x + s.length_x ≤ dim_x ∧ s.start_y + s.length_y ≤ dim_y

/-- The cell `(x, y, z)` lies in the cuboid of the set `s`. -/
def SPECKSet3D.contains (s : SPECKSet3D) (x y z : Nat) : Prop :=
  s.start_x ≤ x ∧ x < s.start_x + s.length_x ∧
  s.start_y ≤ y ∧ y < s.start_y + s.length_y ∧
  s.start_z ≤ z ∧ z < s.start_z + s.length_z

/-- The set `s` lies inside the volume of dimensions `dim_x`, `dim_y`,
`dim_z`. -/
def SPECKSet3D.inside (s : SPECKSet3D) (dim_x dim_y dim_z : Nat) : Prop :=
  s.start_x + s.length_x ≤ dim_x ∧ s.start_y + s.length_y ≤ dim_y ∧
  s.start_z + s.length_z ≤ dim_z

/-- A 3D coder in encode mode on a 2x2x2 volume in which only the cell
(1, 0, 1), at index 5, is marked. -/
def SPECK3D.example_volume : SPECK3D :=
  { m_dim_x := 2
    m_dim_y := 2
    m_dim_z := 2
    m_encode_mode := true
    m_significance_map := [false, false, false, false, false, true, false, false] }

end speck

namespace speck

namespace SPECK2D

/-- The loop of `m_num_of_part_levels` on its three local variables.  Each
round leaves `dim - dim / 2` of a dimension, which is smaller than the
dimension as long as it exceeds 1, so the loop ends. -/
def num_of_part_levels_loop (num_of_lev dim_x dim_y : Nat) : Nat :=
  if dim_x > 1 ∨ dim_y > 1 then
    num_of_part_levels_loop (num_of_lev + 1) (dim_x - dim_x / 2) (dim_y - dim_y / 2)
  else num_of_lev
termination_by dim_x + dim_y
decreasing_by omega

/-- The source: `SPECK2D::m_num_of_part_levels`. -/
def m_num_of_part_levels {R : Type} (st : SPECK2D R) : Nat :=
  num_of_part_levels_loop 1 st.m_dim_x st.m_dim_y

end SPECK2D

end speck

namespace speck

namespace SPECK3D

/-- One round of the loop of `m_clean_LIS`, for the level `i`.  The test reads
`m_LIS[i]` only when the count exceeds `m_vec_init_capacity` (`&&`). -/
def clean_level (cap : Nat) (lis : List (List SPECKSet3D)) (cnt : List Nat) (i : Nat) :
    Except Err (List (List SPECKSet3D) × List Nat) :=
  match cnt[i]? with
  | none => Except.error Err.outOfRange
  | some garbage =>
    if garbage > cap then
      match lis[i]? with
      | none => Except.error Err.outOfRange
      | some level =>
        if garbage ≥ level.length / 2 then
          Except.ok (lis.set i (level.filter (fun s => s.type != SetType.Garbage)),
                     cnt.set i 0)
        else Except.ok (lis, cnt)
    else Except.ok (lis, cnt)

/-- The loop of `m_clean_LIS` over the levels `levels`, in order. -/
def clean_levels (cap : Nat) :
    List Nat → List (List SPECKSet3D) → List Nat →
      Except Err (List (List SPECKSet3D) × List Nat)
  | [], lis, cnt => Except.ok (lis, cnt)
  | i :: rest, lis, cnt =>
    match clean_level cap lis cnt i with
    | Except.error e => Except.error e
    | Except.ok (lis1, cnt1) => clean_levels cap rest lis1 cnt1

/-- The source: `SPECK3D::m_clean_LIS`. -/
def m_clean_LIS (st : SPECK3D) : Except Err SPECK3D :=
  match clean_levels st.m_vec_init_capacity (List.range st.m_LIS_garbage_cnt.length)
      st.m_LIS st.m_LIS_garbage_cnt with
  | Except.error e => Except.error e
  | Except.ok (lis, cnt) => Except.ok { st with m_LIS := lis, m_LIS_garbage_cnt := cnt }

/-- What `m_clean_LIS` does to the level `i` that held `level` with the count
`garbage`: when the count exceeds `cap` and is at least half the length of the
level, the level is compacted (its sets of type `Garbage` are dropped) and
its count is reset; otherwise level and count are as before. -/
def level_cleaned (cap : Nat) (level : List SPECKSet3D) (garbage : Nat)
    (lis1 : List (List SPECKSet3D)) (cnt1 : List Nat) (i : Nat) : Prop :=
  if garbage > cap ∧ garbage ≥ level.length / 2 then
    lis1[i]? = some (level.filter (fun s => s.type != SetType.Garbage)) ∧ cnt1[i]? = some 0
  else lis1[i]? = some level ∧ cnt1[i]? = some garbage

/-- A 3D coder with one LIS level of 18 sets, of which the first 9 are of type
`Garbage`, the garbage count 9 and the initial capacity 8. -/
def example_LIS : SPECK3D :=
  { m_LIS := [List.replicate 9 { type := SetType.Garbage } ++ List.replicate 9 {}]
    m_LIS_garbage_cnt := [9]
    m_vec_init_capacity := 8 }

end SPECK3D

end speck

namespace speck

namespace SPECK2D

/-- The helpers of `speck_helper` that `speck2d` and `m_calc_set_size` call
and the sources do not define.  `make_positive` gets the coefficient buffer
and its length and gives the buffer of magnitudes, the sign array and the
largest magnitude; `calc_approx_detail_len` gets a length and a level and
gives the lengths of the approximation and of the detail part. -/
structure helpers where
  make_positive            : List ℚ → Nat → List ℚ × List Bool × ℚ
  calc_num_of_xform_levels : Nat → Nat
  calc_approx_detail_len   : Nat → Nat → Nat × Nat

/-- The expression `long(std::log2(max_coeff))` in exact arithmetic.  The
conversion to `long` drops the fractional part, so it rounds toward zero: it
is the floor of the logarithm for `max_coeff >= 1` and its ceiling for
`max_coeff < 1`.  For `max_coeff <= 0` the logarithm is minus infinity or not
a number, which `long` cannot hold. -/
def log2_to_long (max_coeff : ℚ) : Except Err Int :=
  if max_coeff ≤ 0 then Except.error Err.outOfRange
  else if 1 ≤ max_coeff then Except.ok (Int.log 2 max_coeff)
  else Except.ok (Int.clog 2 max_coeff)

/-- The source: `SPECK2D::m_calc_set_size`. -/
def m_calc_set_size (h : helpers) (st : SPECK2D ℚ) (set : SPECKSet2D) (subband : Nat) :
    Except Err SPECKSet2D :=
  if ¬ (subband ≤ 3) then Except.error Err.assertFailed
  else
    let part_level := set.part_level
    let lens_x := h.calc_approx_detail_len st.m_dim_x part_level
    let lens_y := h.calc_approx_detail_len st.m_dim_y part_level
    if subband = 0 then
      Except.ok { set with start_x := 0, length_x := lens_x.1, start_y := 0, length_y := lens_y.1 }
    else if subband = 1 then
      Except.ok { set with start_x := 0, length_x := lens_x.1,
                           start_y := lens_y.1, length_y := lens_y.2 }
    else if subband = 2 then
      Except.ok { set with start_x := lens_x.1, length_x := lens_x.2,
                           start_y := 0, length_y := lens_y.1 }
    else
      Except.ok { set with start_x := lens_x.1, length_x := lens_x.2,
                           start_y := lens_y.1, length_y := lens_y.2 }

/-- The source: `SPECK2D::speck2d`, on rational coefficients.  The level of
the root, `num_of_xform_levels - 1`, is an index into the LIS and must not be
negative. -/
def speck2d (h : helpers) (st : SPECK2D ℚ) : Except Err (SPECK2D ℚ × Int) :=
  if ¬ (st.m_dim_x > 0 ∧ st.m_dim_y > 0) then Except.error Err.assertFailed
  else
    let num_of_vals := st.m_dim_x * st.m_dim_y
    let made := h.make_positive st.m_coeff_buf num_of_vals
    let max_coeff := made.2.2
    match log2_to_long max_coeff with
    | Except.error e => Except.error e
    | Except.ok max_coefficient_bits =>
      let num_of_part_levels := m_num_of_part_levels st
      let num_of_xform_levels := h.calc_num_of_xform_levels (min st.m_dim_x st.m_dim_y)
      if num_of_xform_levels = 0 then Except.error Err.outOfRange
      else
        let root0 : SPECKSet2D :=
          { type := SPECKSetType.TypeS, part_level := num_of_xform_levels - 1 }
        match m_calc_set_size h st root0 0 with
        | Except.error e => Except.error e
        | Except.ok root =>
          match push_LIS (List.replicate num_of_part_levels []) root.part_level root with
          | Except.error e => Except.error e
          | Except.ok lis =>
            Except.ok
              ({ st with m_coeff_buf := made.1
                         m_sign_array := made.2.1
                         m_LIS := lis
                         m_I := { st.m_I with part_level := num_of_xform_levels - 1
                                              start_x := root.length_x
                                              start_y := root.length_y
                                              length_x := st.m_dim_x
                                              length_y := st.m_dim_y }
                         m_threshold := (2 : ℚ) ^ max_coefficient_bits }, 0)

/-- Example helpers: the magnitudes with their largest value (signs: whether
the value is negative), one transform level, and for the level 0 the full
length as approximation part. -/
def example_helpers : helpers where
  make_positive := fun buf _ =>
    (buf.map (fun v => |v|), buf.map (fun v => decide (v < 0)),
     (buf.map (fun v => |v|)).foldl max 0)
  calc_num_of_xform_levels := fun _ => 1
  calc_approx_detail_len := fun len _ => (len, 0)

/-- A 2x2 plane of rational coefficients whose largest magnitude is 3/10. -/
def example_small_plane : SPECK2D ℚ :=
  { m_dim_x := 2
    m_dim_y := 2
    m_coeff_buf := [3 / 10, -1 / 10, 0, 1 / 5]
    m_sign_array := []
    m_significance_map := [false, false, false, false]
    m_threshold := 0
    m_LIS := []
    m_LSP := []
    cout := [] }

end SPECK2D

end speck

namespace speck

namespace SPECK2D

/-- The four quadrants of a 2D set as section 4.1 of the specification words
them, to compare `m_partition_S` with: with `big = n - n / 2` in each dimension
the top-left quadrant receives `big` in each dimension and the remainders
receive `n - big`. The quadrants come in the order lower-right, lower-left,
top-right, top-left (lower-indexed children last), each one level above the
parent. -/
def spec_quadrants (set : SPECKSet2D) : List SPECKSet2D :=
  let big_x := set.length_x - set.length_x / 2
  let big_y := set.length_y - set.length_y / 2
  let lower_right : SPECKSet2D :=
    { type := SPECKSetType.TypeS, part_level := set.part_level + 1,
      start_x := set.start_x + big_x, start_y := set.start_y + big_y,
      length_x := set.length_x - big_x, length_y := set.length_y - big_y }
  let lower_left : SPECKSet2D :=
    { type := SPECKSetType.TypeS, part_level := set.part_level + 1,
      start_x := set.start_x, start_y := set.start_y + big_y,
      length_x := big_x, length_y := set.length_y - big_y }
  let top_right : SPECKSet2D :=
    { type := SPECKSetType.TypeS, part_level := set.part_level + 1,
      start_x := set.start_x + big_x, start_y := set.start_y,
      length_x := set.length_x - big_x, length_y := big_y }
  let top_left : SPECKSet2D :=
    { type := SPECKSetType.TypeS, part_level := set.part_level + 1,
      start_x := set.start_x, start_y := set.start_y,
      length_x := big_x, length_y := big_y }
  [lower_right, lower_left, top_right, top_left]

/-- The S-partition of a 2D set as section 4.1 of the specification words it:
the quadrants of `spec_quadrants` in their order, those with a zero-length
dimension omitted. -/
def spec_partition_S (set : SPECKSet2D) : List SPECKSet2D :=
  (spec_quadrants set).filter (fun c => !(c.length_x == 0 || c.length_y == 0))

end SPECK2D

end speck

namespace SPERR3D_OMP_C

open sperr

/-- The state of the compressor when the loop of `compress` takes chunk `i`:
the fresh compressor after its steps on the chunks `0 .. i - 1`, in index
order. -/
def compressor_before {C : Type}
    (step : C → List double → Nat × Nat × Nat → double → C × RTNType × vec8_type)
    (bpp : double) (fresh : C) (chunks : List (List double × chunk_type)) (i : Nat) : C :=
  (chunks.take i).foldl (fun c bc => (step c bc.1 (bc.2 1, bc.2 3, bc.2 5) bpp).1) fresh

end SPERR3D_OMP_C

/-! ## Theorems -/

namespace speck

namespace SPECK2D

/-- One step of `m_process_S`: the body of the method with one unit of fuel
spent. -/
theorem m_process_S_succ {R : Type} [Sub R] (fuel : Nat) (st : SPECK2D R)
    (set : SPECKSet2D) :
    m_process_S (fuel + 1) st set =
      (match m_output_set_significance st set with
      | Except.error e => Except.error e
      | Except.ok (st1, set1) =>
        if set1.signif = Significance.Sig ∨ set1.signif = Significance.NewlySig then
          if set1.is_pixel then
            match m_output_pixel_sign st1 { set1 with signif := Significance.NewlySig } with
            | Except.error e => Except.error e
            | Except.ok st2 =>
              Except.ok
                ({ st2 with m_LSP := st2.m_LSP ++ [{ set1 with signif := Significance.NewlySig }] },
                 { set1 with signif := Significance.NewlySig, garbage := true })
          else Except.ok (st1, set1)
        else
          match code_S_loop (m_process_S fuel) st1 (m_partition_S set1) with
          | Except.error e => Except.error e
          | Except.ok (st2, _) => Except.ok (st2, { set1 with garbage := true })) := by
  rfl

/-- What `m_output_set_significance` changes when it returns: one entry is
appended to `cout` and `signif` is assigned; nothing else. -/
theorem m_output_set_significance_ok {R : Type} {st st1 : SPECK2D R}
    {set set1 : SPECKSet2D} (h : m_output_set_significance st set = Except.ok (st1, set1)) :
    ∃ hit : Bool,
      scan_rows st.m_significance_map st.m_dim_x set.start_x set.length_x
        set.start_y set.length_y = Except.ok hit ∧
      set.type = SPECKSetType.TypeS ∧
      st.m_significance_map.length = st.m_dim_x * st.m_dim_y ∧
      st1 = { st with cout := st.cout ++ [Output.set_significance hit] } ∧
      set1 = { set with signif := if hit then Significance.Sig else Significance.Insig } := by
  unfold m_output_set_significance at h
  split at h
  · exact absurd h (by simp)
  · split at h
    · exact absurd h (by simp)
    · split at h
      · exact absurd h (by simp)
      · rename_i ht hl _ hit hs
        simp only [Except.ok.injEq, Prod.mk.injEq] at h
        refine ⟨hit, hs, ?_, ?_, h.1.symm, h.2.symm⟩
        · simpa using ht
        · simpa using hl

/-- A set found significant that is not a pixel: `m_process_S` returns right
after the significance test, with the object and the set as the test left
them. -/
theorem m_process_S_significant_set {R : Type} [Sub R] (fuel : Nat)
    {st st1 : SPECK2D R} {set set1 : SPECKSet2D}
    (h : m_output_set_significance st set = Except.ok (st1, set1))
    (hsig : set1.signif = Significance.Sig) (hpix : set1.is_pixel = false) :
    m_process_S (fuel + 1) st set = Except.ok (st1, set1) := by
  rw [m_process_S_succ, h]
  simp [hsig, hpix]

/-- A pixel found significant whose index `y * m_dim_x * x` is inside the
sign array and the coefficient buffer: `m_process_S` marks it `NewlySig`,
appends one copy to the LSP, marks the processed set garbage and leaves the
LIS alone. -/
theorem m_process_S_significant_pixel {R : Type} [Sub R] (fuel : Nat)
    {st st1 : SPECK2D R} {set set1 : SPECKSet2D}
    (h : m_output_set_significance st set = Except.ok (st1, set1))
    (hsig : set1.signif = Significance.Sig) (hpix : set1.is_pixel = true)
    (hs : set.start_y * st.m_dim_x * set.start_x < st.m_sign_array.length)
    (hc : set.start_y * st.m_dim_x * set.start_x < st.m_coeff_buf.length) :
    ∃ st2, m_process_S (fuel + 1) st set =
        Except.ok (st2, { set with signif := Significance.NewlySig, garbage := true }) ∧
      st2.m_LSP = st.m_LSP ++ [{ set with signif := Significance.NewlySig }] ∧
      st2.m_LIS = st.m_LIS := by
  obtain ⟨hit, -, -, -, rfl, rfl⟩ := m_output_set_significance_ok h
  cases hit with
  | false => simp at hsig
  | true =>
    have hp : set.is_pixel = true := hpix
    have hq : ({ set with signif := Significance.Sig } : SPECKSet2D).is_pixel = true := hp
    rw [m_process_S_succ, h]
    simp only [true_or, if_true, hq]
    simp only [m_output_pixel_sign, List.getElem?_eq_getElem hs, List.getElem?_eq_getElem hc]
    exact ⟨_, rfl, rfl, rfl⟩

/-- The inner loop reports no hit exactly when every cell it visits is inside
the map and unmarked. -/
theorem scan_row_false_iff (map : List Bool) (dim_x y : Nat) (n x : Nat) :
    scan_row map dim_x y x n = Except.ok false ↔
      ∀ i, i < n → map[y * dim_x + (x + i)]? = some false := by
  induction n generalizing x with
  | zero => simp [scan_row]
  | succ n ih =>
    unfold scan_row
    constructor
    · intro h i hi
      split at h
      · exact absurd h (by simp)
      · exact absurd h (by simp)
      · rename_i hx
        rcases Nat.eq_zero_or_pos i with rfl | hpos
        · simpa using hx
        · have := (ih (x + 1)).1 h (i - 1) (by omega)
          have e : x + 1 + (i - 1) = x + i := by omega
          rwa [e] at this
    · intro h
      have h0 := h 0 (by omega)
      simp only [Nat.add_zero] at h0
      rw [h0]
      refine (ih (x + 1)).2 (fun i hi => ?_)
      have := h (i + 1) (by omega)
      have e : x + 1 + i = x + (i + 1) := by omega
      rwa [e]

/-- The two loops report no hit exactly when every cell of the rectangle is
inside the map and unmarked. -/
theorem scan_rows_false_iff (map : List Bool) (dim_x start_x length_x : Nat) (n y : Nat) :
    scan_rows map dim_x start_x length_x y n = Except.ok false ↔
      ∀ j, j < n → ∀ i, i < length_x → map[(y + j) * dim_x + (start_x + i)]? = some false := by
  induction n generalizing y with
  | zero => simp [scan_rows]
  | succ n ih =>
    unfold scan_rows
    constructor
    · intro h j hj
      split at h
      · exact absurd h (by simp)
      · exact absurd h (by simp)
      · rename_i hrow
        rcases Nat.eq_zero_or_pos j with rfl | hpos
        · simpa using (scan_row_false_iff map dim_x y length_x start_x).1 hrow
        · have := (ih (y + 1)).1 h (j - 1) (by omega)
          have e : y + 1 + (j - 1) = y + j := by omega
          rwa [e] at this
    · intro h
      have h0 : scan_row map dim_x y start_x length_x = Except.ok false :=
        (scan_row_false_iff map dim_x y length_x start_x).2 (by simpa using h 0 (by omega))
      rw [h0]
      refine (ih (y + 1)).2 (fun j hj => ?_)
      have := h (j + 1) (by omega)
      have e : y + 1 + j = y + (j + 1) := by omega
      rwa [e]

/-- `m_output_pixel_sign` leaves the dimensions and the significance map alone. -/
theorem m_output_pixel_sign_same_plane {R : Type} [Sub R] {st st1 : SPECK2D R}
    {pixel : SPECKSet2D} (h : m_output_pixel_sign st pixel = Except.ok st1) :
    same_plane st st1 := by
  unfold m_output_pixel_sign at h
  simp only at h
  split at h
  · simp only [Except.ok.injEq] at h
    subst h
    exact ⟨rfl, rfl, rfl⟩
  · exact absurd h (by simp)

/-- The loop of `m_code_S` leaves the plane alone when the callee does. -/
theorem code_S_loop_same_plane {R : Type}
    (process : SPECK2D R → SPECKSet2D → Except Err (SPECK2D R × SPECKSet2D))
    (hp : ∀ st s st1 s1, process st s = Except.ok (st1, s1) → same_plane st st1)
    (subsets : List SPECKSet2D) :
    ∀ (st st1 : SPECK2D R) (out : List SPECKSet2D),
      code_S_loop process st subsets = Except.ok (st1, out) → same_plane st st1 := by
  induction subsets with
  | nil =>
    intro st st1 out h
    simp only [code_S_loop, Except.ok.injEq, Prod.mk.injEq] at h
    rw [← h.1]
    exact ⟨rfl, rfl, rfl⟩
  | cons s rest ih =>
    intro st st1 out h
    unfold code_S_loop at h
    split at h
    · exact absurd h (by simp)
    · split at h
      · exact absurd h (by simp)
      · rename_i lis hl sta s1 hpr
        split at h
        · exact absurd h (by simp)
        · rename_i stb rest2 hrest
          simp only [Except.ok.injEq, Prod.mk.injEq] at h
          rw [← h.1]
          have h1 := hp _ _ _ _ hpr
          have h2 := ih _ _ _ hrest
          exact ⟨h2.1.trans h1.1, h2.2.1.trans h1.2.1, h2.2.2.trans h1.2.2⟩

/-- `m_process_S` leaves the dimensions and the significance map alone. -/
theorem m_process_S_same_plane {R : Type} [Sub R] (fuel : Nat) :
    ∀ (st : SPECK2D R) (set : SPECKSet2D) (st1 : SPECK2D R) (set1 : SPECKSet2D),
      m_process_S fuel st set = Except.ok (st1, set1) → same_plane st st1 := by
  induction fuel with
  | zero => intro st set st1 set1 h; exact absurd h (by simp [m_process_S])
  | succ fuel ih =>
    intro st set st1 set1 h
    rw [m_process_S_succ] at h
    split at h
    · exact absurd h (by simp)
    · rename_i sta seta hsig
      have h0 : same_plane st sta := by
        obtain ⟨hit, -, -, -, rfl, -⟩ := m_output_set_significance_ok hsig
        exact ⟨rfl, rfl, rfl⟩
      split at h
      · split at h
        · split at h
          · exact absurd h (by simp)
          · rename_i stb hpx
            simp only [Except.ok.injEq, Prod.mk.injEq] at h
            rw [← h.1]
            have h1 := m_output_pixel_sign_same_plane hpx
            exact ⟨h1.1.trans h0.1, h1.2.1.trans h0.2.1, h1.2.2.trans h0.2.2⟩
        · simp only [Except.ok.injEq, Prod.mk.injEq] at h
          rw [← h.1]
          exact h0
      · split at h
        · exact absurd h (by simp)
        · rename_i stb out hloop
          simp only [Except.ok.injEq, Prod.mk.injEq] at h
          rw [← h.1]
          have h1 := code_S_loop_same_plane _ ih _ _ _ _ hloop
          exact ⟨h1.1.trans h0.1, h1.2.1.trans h0.2.1, h1.2.2.trans h0.2.2⟩

/-- When the loop of `m_code_S` returns, every element of `subsets` has been
processed, on the same plane, and its processing returned. -/
theorem code_S_loop_processes {R : Type}
    (process : SPECK2D R → SPECKSet2D → Except Err (SPECK2D R × SPECKSet2D))
    (hp : ∀ st s st1 s1, process st s = Except.ok (st1, s1) → same_plane st st1)
    (subsets : List SPECKSet2D) :
    ∀ (st st1 : SPECK2D R) (out : List SPECKSet2D),
      code_S_loop process st subsets = Except.ok (st1, out) →
      ∀ t, t ∈ subsets → ∃ stm r, same_plane st stm ∧ process stm t = Except.ok r := by
  induction subsets with
  | nil => intro st st1 out _ t ht; simp at ht
  | cons s rest ih =>
    intro st st1 out h t ht
    unfold code_S_loop at h
    split at h
    · exact absurd h (by simp)
    · split at h
      · exact absurd h (by simp)
      · rename_i lis hl sta s1 hpr
        split at h
        · exact absurd h (by simp)
        · rename_i stb rest2 hrest
          rcases List.mem_cons.1 ht with rfl | hmem
          · refine ⟨_, _, ?_, hpr⟩
            exact ⟨rfl, rfl, rfl⟩
          · obtain ⟨stm, r, hsame, hr⟩ := ih _ _ _ hrest t hmem
            have h1 := hp _ _ _ _ hpr
            exact ⟨stm, r, ⟨hsame.1.trans h1.1, hsame.2.1.trans h1.2.1,
              hsame.2.2.trans h1.2.2⟩, hr⟩

/-- The top-left child of a set is one of its children. -/
theorem top_left_mem_partition (set : SPECKSet2D) :
    ({ type := SPECKSetType.TypeS
       part_level := set.part_level + 1
       start_x := set.start_x
       start_y := set.start_y
       length_x := set.length_x - set.length_x / 2
       length_y := set.length_y - set.length_y / 2 } : SPECKSet2D) ∈ m_partition_S set := by
  simp [m_partition_S]

/-- A set in which the scan finds no marked cell is never finished by
`m_process_S`: whatever the fuel, the call does not return.  The set is
partitioned, its top-left child is again a set without a marked cell, and so
on without end (or until a LIS level is missing). -/
theorem m_process_S_insignificant_no_return {R : Type} [Sub R] (fuel : Nat) :
    ∀ (st : SPECK2D R) (set : SPECKSet2D),
      scan_rows st.m_significance_map st.m_dim_x set.start_x set.length_x
        set.start_y set.length_y = Except.ok false →
      ∀ r, m_process_S fuel st set ≠ Except.ok r := by
  induction fuel with
  | zero => intro st set _ r h; exact absurd h (by simp [m_process_S])
  | succ fuel ih =>
    intro st set hscan r h
    rw [m_process_S_succ] at h
    split at h
    · exact absurd h (by simp)
    · rename_i sta seta hsig
      obtain ⟨hit, hscan1, -, -, hst, hset⟩ := m_output_set_significance_ok hsig
      have hhit : hit = false := by
        rw [hscan] at hscan1
        simp only [Except.ok.injEq] at hscan1
        exact hscan1.symm
      subst hhit
      have hins : seta.signif = Significance.Insig := by rw [hset]; rfl
      have hsame : same_plane st sta := by rw [hst]; exact ⟨rfl, rfl, rfl⟩
      simp only [hins, reduceCtorEq, or_self, if_false] at h
      split at h
      · exact absurd h (by simp)
      · rename_i stb out hloop
        obtain ⟨stm, r1, hsm, hr1⟩ :=
          code_S_loop_processes _ (m_process_S_same_plane fuel) _ _ _ _ hloop _
            (top_left_mem_partition seta)
        refine ih stm _ ?_ r1 hr1
        have hgeo : seta.start_x = set.start_x ∧ seta.start_y = set.start_y ∧
            seta.length_x = set.length_x ∧ seta.length_y = set.length_y := by
          rw [hset]; exact ⟨rfl, rfl, rfl, rfl⟩
        rw [hsm.2.2, hsm.1, hsame.2.2, hsame.1]
        simp only [hgeo.1, hgeo.2.1, hgeo.2.2.1, hgeo.2.2.2]
        rw [scan_rows_false_iff] at hscan ⊢
        intro j hj i hi
        exact hscan j (by omega) i (by omega)

/-- C1 (fails on the code): the four children that `m_partition_S` produces
for the 3x3 set at the origin do not cover it exactly. The cell (2, 2) of the
parent lies in two children, the lower-left one (which keeps the full
`length_x` of the parent) and the lower-right one. -/
theorem m_partition_S_odd_3x3_not_exact :
    (example_set 0 0 3 3 0).length_x % 2 = 1 ∧ (example_set 0 0 3 3 0).length_y % 2 = 1 ∧
    (example_set 0 0 3 3 0).contains 2 2 ∧
    ((m_partition_S (example_set 0 0 3 3 0)).filter
      (fun c => decide (c.contains 2 2))).length = 2 ∧
    ¬ covers_exactly (example_set 0 0 3 3 0) (m_partition_S (example_set 0 0 3 3 0)) := by
  refine ⟨by decide, by decide, by decide, by decide, ?_⟩
  intro h
  have h22 := h 2 2
  revert h22
  decide

/-- C2 (fails on the code): on the 2x2 plane whose four cells are all marked,
the 2x2 root set is found significant and is not a pixel, yet `m_process_S`
returns right after the significance test: no child is appended to the LIS,
the LSP stays empty and the set is not marked garbage. -/
theorem m_process_S_significant_2x2_not_coded (fuel : Nat) :
    ∃ st1 set1,
      m_process_S (fuel + 1)
        (example_plane 2 2 [true, true, true, true] [[example_set 0 0 2 2 0], []])
        (example_set 0 0 2 2 0) = Except.ok (st1, set1) ∧
      set1.signif = Significance.Sig ∧ set1.is_pixel = false ∧
      st1.m_LIS = [[example_set 0 0 2 2 0], []] ∧ st1.m_LSP = [] ∧
      set1.garbage = false :=
  ⟨{ example_plane 2 2 [true, true, true, true] [[example_set 0 0 2 2 0], []] with
      cout := [Output.set_significance true] },
   { example_set 0 0 2 2 0 with signif := Significance.Sig },
   m_process_S_significant_set fuel rfl rfl rfl, rfl, rfl, rfl, rfl, rfl⟩

/-- C3 (fails on the code): on the 2x2 plane without a marked cell, the 2x2
root set is found insignificant, and `m_process_S` does not leave it alone: it
enters `m_code_S`, which copies the lower-right child into LIS level 1 and
recurses. The call never returns, whatever the fuel; with fuel 3 the run
stops at the push of a grandchild into LIS level 2, which does not exist. -/
theorem m_process_S_insignificant_2x2_is_coded :
    (∃ st1 set1,
      m_output_set_significance
        (example_plane 2 2 [false, false, false, false] [[example_set 0 0 2 2 0], []])
        (example_set 0 0 2 2 0) = Except.ok (st1, set1) ∧
      set1.signif = Significance.Insig) ∧
    (∀ fuel r,
      m_process_S fuel
        (example_plane 2 2 [false, false, false, false] [[example_set 0 0 2 2 0], []])
        (example_set 0 0 2 2 0) ≠ Except.ok r) ∧
    m_process_S 3
        (example_plane 2 2 [false, false, false, false] [[example_set 0 0 2 2 0], []])
        (example_set 0 0 2 2 0) = Except.error Err.outOfRange :=
  ⟨⟨_, _, rfl, rfl⟩,
   fun fuel r => m_process_S_insignificant_no_return fuel
     (example_plane 2 2 [false, false, false, false] [[example_set 0 0 2 2 0], []])
     (example_set 0 0 2 2 0) rfl r,
   rfl⟩

/-- C4 (fails on the code): on the 4x4 plane whose cells are all marked, the
pixel at (3, 3) is found significant, but `m_process_S` does not get as far as
the LSP: `m_output_pixel_sign` indexes the sign array at 3 * 4 * 3 = 36,
outside its 16 entries. -/
theorem m_process_S_pixel_3_3_out_of_range (fuel : Nat) :
    (∃ st1 set1,
      m_output_set_significance
        (example_plane 4 4 (List.replicate 16 true) [[], [], [example_set 3 3 1 1 2]])
        (example_set 3 3 1 1 2) = Except.ok (st1, set1) ∧
      set1.signif = Significance.Sig ∧ set1.is_pixel = true) ∧
    m_process_S (fuel + 1)
        (example_plane 4 4 (List.replicate 16 true) [[], [], [example_set 3 3 1 1 2]])
        (example_set 3 3 1 1 2) = Except.error Err.outOfRange :=
  ⟨⟨_, _, rfl, rfl, rfl⟩, rfl⟩

/-- C5 (fails on the code): on the 2x2 plane, `m_output_pixel_sign` on the
pixel at (1, 1) subtracts the threshold 8 from the coefficient at index
1 * 2 * 1 = 2 and leaves the coefficient at the row-major index 1 * 2 + 1 = 3
as it was. -/
theorem m_output_pixel_sign_pixel_1_1_wrong_index :
    ∃ st1,
      m_output_pixel_sign
        (example_plane 2 2 [true, true, true, true] [[], [example_set 1 1 1 1 1]])
        (example_set 1 1 1 1 1) = Except.ok st1 ∧
      st1.m_coeff_buf = [10, 10, 10 - 8, 10] ∧
      st1.m_coeff_buf[1 * 2 + 1]? = some 10 ∧
      st1.m_coeff_buf[1 * 2 * 1]? = some (10 - 8) :=
  ⟨_, rfl, rfl, rfl, rfl⟩

/-- C6 (fails on the code): `m_code_S` on the 2x2 root of the 2x2 plane whose
cells are all marked returns with three pixels in the LSP, and none of the
copies it pushed into the LIS is marked garbage: the flag is set on the
elements of the local vector `subsets` only. -/
theorem m_code_S_2x2_LIS_entries_not_garbage :
    ∃ st1 subsets,
      m_code_S 1
        (example_plane 2 2 [true, true, true, true] [[example_set 0 0 2 2 0], []])
        (example_set 0 0 2 2 0) = Except.ok (st1, subsets) ∧
      st1.m_LSP.map (fun p => (p.start_x, p.start_y, p.part_level)) =
        [(1, 1, 1), (1, 0, 1), (0, 0, 1)] ∧
      (∀ p ∈ st1.m_LSP, ∃ e ∈ st1.m_LIS.getD p.part_level [],
        e.start_x = p.start_x ∧ e.start_y = p.start_y ∧ e.part_level = p.part_level ∧
        e.garbage = false) ∧
      (∀ level ∈ st1.m_LIS, ∀ e ∈ level, e.garbage = false) ∧
      subsets.map (fun s => s.garbage) = [true, false, true, true] := by
  refine ⟨_, _, rfl, rfl, ?_, ?_, rfl⟩
  · decide
  · decide

end SPECK2D

end speck

namespace speck

namespace SPECK3D

/-- The budget that `assign_bit_budget` stores: the request itself when it is
a multiple of 8, else the wrapped sum `budget + 8 - budget % 8`. -/
theorem assign_bit_budget_m_budget (st : SPECK3D) (budget : Nat) :
    (assign_bit_budget st budget).m_budget =
      if budget % 8 = 0 then budget
      else ((budget + 8) % 2 ^ 64 + 2 ^ 64 - budget % 8 % 2 ^ 64) % 2 ^ 64 := by
  unfold assign_bit_budget size_t_sub size_t_add
  by_cases h : budget % 8 = 0 <;> simp [h]

/-- C9 (as stated, fails): the request `2 ^ 64 - 1` is a 64-bit `size_t`, and
the budget stored for it is 0, which is below the request. -/
theorem assign_bit_budget_wraps :
    2 ^ 64 - 1 < 2 ^ 64 ∧
    (assign_bit_budget {} (2 ^ 64 - 1)).m_budget = 0 ∧
    ¬ (2 ^ 64 - 1 ≤ (assign_bit_budget {} (2 ^ 64 - 1)).m_budget) := by
  decide

/-- C9 (amended): for every request `b` of at most `2 ^ 64 - 8`, the budget
that `assign_bit_budget` stores is `b` rounded up to the next byte boundary:
a multiple of 8, at least `b`, below `b + 8`, and `b` itself when `b` is a
multiple of 8. -/
theorem assign_bit_budget_rounds_up (st : SPECK3D) (b : Nat) (hb : b ≤ 2 ^ 64 - 8) :
    (assign_bit_budget st b).m_budget % 8 = 0 ∧
    b ≤ (assign_bit_budget st b).m_budget ∧
    (assign_bit_budget st b).m_budget < b + 8 ∧
    (b % 8 = 0 → (assign_bit_budget st b).m_budget = b) := by
  rw [assign_bit_budget_m_budget]
  norm_num at hb ⊢
  split <;> omega

/-- C9 (amended), at the request 13: the stored budget is 16. -/
theorem assign_bit_budget_rounds_up_witness :
    13 ≤ 2 ^ 64 - 8 ∧
    ((assign_bit_budget {} 13).m_budget % 8 = 0 ∧
     13 ≤ (assign_bit_budget {} 13).m_budget ∧
     (assign_bit_budget {} 13).m_budget < 13 + 8 ∧
     (13 % 8 = 0 → (assign_bit_budget {} 13).m_budget = 13)) :=
  ⟨by decide, assign_bit_budget_rounds_up {} 13 (by decide)⟩

/-- What one call of `m_output_set_significance` does to the object: one bit
more in the bit buffer, everything else as before. -/
theorem m_output_set_significance_fst (st : SPECK3D) (set : SPECKSet3D) :
    (m_output_set_significance st set).1 =
      { st with m_bit_buffer := st.m_bit_buffer ++ [decide (set.signif = Significance.Sig)] } := by
  unfold m_output_set_significance
  simp only
  split <;> rfl

/-- The value `m_output_set_significance` returns: 1 exactly when the buffer,
with the new bit, has reached the budget. -/
theorem m_output_set_significance_snd (st : SPECK3D) (set : SPECKSet3D) :
    (m_output_set_significance st set).2 =
      if st.m_bit_buffer.length + 1 ≥ st.m_budget then 1 else 0 := by
  unfold m_output_set_significance
  simp only [List.length_append, List.length_singleton]
  split <;> rfl

/-- A run that starts below the budget stays within it: after every call of
the run the buffer holds at most `m_budget` bits, and the budget is the one
the run started with. -/
theorem output_run_le (sets : List SPECKSet3D) :
    ∀ st : SPECK3D, st.m_bit_buffer.length < st.m_budget →
      ∀ s ∈ output_run st sets,
        s.m_bit_buffer.length ≤ st.m_budget ∧ s.m_budget = st.m_budget := by
  induction sets with
  | nil => intro st _ s hs; simp [output_run] at hs
  | cons x rest ih =>
    intro st hlt s hs
    have h1 := m_output_set_significance_fst st x
    have h2 := m_output_set_significance_snd st x
    unfold output_run at hs
    rcases hres : m_output_set_significance st x with ⟨st1, rc⟩
    rw [hres] at hs h1 h2
    simp only at hs h1 h2
    have hlen : st1.m_bit_buffer.length = st.m_bit_buffer.length + 1 := by
      rw [h1]; simp
    have hbud : st1.m_budget = st.m_budget := by rw [h1]
    by_cases hrc : rc = 1
    · simp only [hrc, if_true, List.mem_singleton] at hs
      subst hs
      exact ⟨by omega, hbud⟩
    · simp only [hrc, if_false, List.mem_cons] at hs
      rcases hs with rfl | hs
      · exact ⟨by omega, hbud⟩
      · have hnot : ¬ (st.m_bit_buffer.length + 1 ≥ st.m_budget) := by
          intro hge
          rw [if_pos hge] at h2
          exact hrc h2
        have := ih st1 (by omega) s hs
        exact ⟨by omega, by omega⟩

/-- C7 (as stated, fails): with the budget 0 installed and an empty bit
buffer, the first call of `m_output_set_significance` pushes a bit before it
reports that the budget is reached: the buffer holds 1 bit, the budget is 0. -/
theorem output_run_budget_zero_exceeds :
    (assign_bit_budget {} 0).m_bit_buffer = [] ∧
    (assign_bit_budget {} 0).m_budget = 0 ∧
    (m_output_set_significance (assign_bit_budget {} 0) {}).2 = 1 ∧
    ∃ s ∈ output_run (assign_bit_budget {} 0) [{}],
      ¬ (s.m_bit_buffer.length ≤ (assign_bit_budget {} 0).m_budget) := by
  decide

/-- C7 (amended): when the budget stored by `assign_bit_budget` is at least 1
and the run starts from an empty bit buffer, the bit buffer never holds more
bits than the stored budget, after any call of the run. -/
theorem output_run_within_budget (st : SPECK3D) (b : Nat) (sets : List SPECKSet3D)
    (hempty : st.m_bit_buffer = [])
    (hpos : 1 ≤ (assign_bit_budget st b).m_budget) :
    ∀ s ∈ output_run (assign_bit_budget st b) sets,
      s.m_bit_buffer.length ≤ (assign_bit_budget st b).m_budget := by
  intro s hs
  have hbuf : (assign_bit_budget st b).m_bit_buffer = [] := by
    unfold assign_bit_budget
    simp only
    split <;> exact hempty
  exact (output_run_le sets (assign_bit_budget st b) (by rw [hbuf]; exact hpos) s hs).1

/-- C7 (amended), for the request 13 (stored budget 16) and twenty sets: the
run makes 16 calls and the buffer ends with 16 bits. -/
theorem output_run_within_budget_witness :
    ({} : SPECK3D).m_bit_buffer = [] ∧ 1 ≤ (assign_bit_budget {} 13).m_budget ∧
    (output_run (assign_bit_budget {} 13) (List.replicate 20 {})).length = 16 ∧
    ∀ s ∈ output_run (assign_bit_budget {} 13) (List.replicate 20 {}),
      s.m_bit_buffer.length ≤ (assign_bit_budget {} 13).m_budget :=
  ⟨rfl, by decide, by decide,
   output_run_within_budget {} 13 (List.replicate 20 {}) rfl (by decide)⟩

/-- C8 (as stated, fails): in decode mode with `m_bit_idx` at the budget, both
queries return 1 and leave `signif` as it was; a set that was `Sig` before
the query is `Sig`, not `Insig`, after it. -/
theorem decide_significance_exhausted_keeps_Sig :
    ∃ st1 set1 sigs1 st2 set2 sigs2,
      m_decide_setS_significance
        { m_encode_mode := false, m_budget := 8, m_bit_idx := 8,
          m_bit_buffer := List.replicate 8 true }
        { signif := Significance.Sig } [] = Except.ok (st1, set1, sigs1, 1) ∧
      m_decide_setI_significance
        { m_encode_mode := false, m_budget := 8, m_bit_idx := 8,
          m_bit_buffer := List.replicate 8 true }
        { signif := Significance.Sig } [] = Except.ok (st2, set2, sigs2, 1) ∧
      set1.signif = Significance.Sig ∧ set1.signif ≠ Significance.Insig ∧
      set2.signif = Significance.Sig ∧ set2.signif ≠ Significance.Insig :=
  ⟨_, _, _, _, _, _, rfl, rfl, rfl, by decide, rfl, by decide⟩

/-- C8 (amended): in decode mode, whenever `m_bit_idx` has reached the budget
or the size of the bit buffer, both significance queries return 1 and change
nothing: the object (so `m_bit_idx` and the bit buffer), the set (so its
`signif`) and `sigs` are as before. -/
theorem decide_significance_exhausted (st : SPECK3D) (set : SPECKSet3D)
    (sigsS sigsI : List Significance)
    (hmode : st.m_encode_mode = false)
    (h : st.m_bit_idx ≥ st.m_budget ∨ st.m_bit_idx ≥ st.m_bit_buffer.length) :
    m_decide_setS_significance st set sigsS = Except.ok (st, set, sigsS, 1) ∧
    m_decide_setI_significance st set sigsI = Except.ok (st, set, sigsI, 1) := by
  unfold m_decide_setS_significance m_decide_setI_significance decode_significance
  simp [hmode, h]

/-- C8 (amended), at a decoder whose 8-bit buffer has been read to the end. -/
theorem decide_significance_exhausted_witness :
    (({ m_encode_mode := false, m_budget := 8, m_bit_idx := 8,
        m_bit_buffer := List.replicate 8 true } : SPECK3D).m_encode_mode = false) ∧
    m_decide_setS_significance
      { m_encode_mode := false, m_budget := 8, m_bit_idx := 8,
        m_bit_buffer := List.replicate 8 true }
      { length_x := 2, length_y := 2, length_z := 2 } (List.replicate 8 Significance.Sig) =
      Except.ok ({ m_encode_mode := false, m_budget := 8, m_bit_idx := 8,
                   m_bit_buffer := List.replicate 8 true },
                 { length_x := 2, length_y := 2, length_z := 2 },
                 List.replicate 8 Significance.Sig, 1) ∧
    m_decide_setI_significance
      { m_encode_mode := false, m_budget := 8, m_bit_idx := 8,
        m_bit_buffer := List.replicate 8 true }
      { length_x := 2, length_y := 2, length_z := 2 } (List.replicate 7 Significance.Sig) =
      Except.ok ({ m_encode_mode := false, m_budget := 8, m_bit_idx := 8,
                   m_bit_buffer := List.replicate 8 true },
                 { length_x := 2, length_y := 2, length_z := 2 },
                 List.replicate 7 Significance.Sig, 1) :=
  ⟨rfl, decide_significance_exhausted _ _ _ _ rfl (Or.inl (by decide))⟩

end SPECK3D

end speck

namespace SPERR3D_OMP_C

open sperr

/-- A copy that fits returns the buffer with the bytes in place: the part
before `loc`, the bytes, and the part after them. -/
theorem write_at_fits (buf : vec8_type) (loc : Nat) (bytes : vec8_type)
    (h : loc + bytes.length ≤ buf.length) :
    write_at buf loc bytes =
      Except.ok (buf.take loc ++ bytes ++ buf.drop (loc + bytes.length)) := by
  unfold write_at
  rw [if_pos h]

/-- A copy that fits does not change the length of the buffer. -/
theorem write_at_length {buf out : vec8_type} {loc : Nat} {bytes : vec8_type}
    (h : write_at buf loc bytes = Except.ok out) : out.length = buf.length := by
  unfold write_at at h
  split at h
  · simp only [Except.ok.injEq] at h
    subst h
    simp only [List.length_append, List.length_take, List.length_drop]
    omega
  · exact absurd h (by simp)

/-- The four bytes of a `uint32_t`. -/
theorem u32_bytes_length (v : Nat) : (u32_bytes v).length = 4 := rfl

/-- The loop that stores the stream lengths succeeds when every size fits a
`uint32_t` and the header has room; it keeps the length of the header and
leaves `loc` after the last length. -/
theorem write_lengths_fits (streams : List vec8_type)
    (hsmall : ∀ s ∈ streams, s.length ≤ 2 ^ 32 - 1) :
    ∀ (header : vec8_type) (loc : Nat), loc + 4 * streams.length ≤ header.length →
      ∃ out, write_lengths header loc streams = Except.ok (out, loc + 4 * streams.length) ∧
        out.length = header.length := by
  induction streams with
  | nil => intro header loc _; exact ⟨header, rfl, rfl⟩
  | cons s rest ih =>
    intro header loc h
    have hs : s.length ≤ 2 ^ 32 - 1 := hsmall s (List.mem_cons_self s rest)
    have ih := ih (fun t ht => hsmall t (List.mem_cons_of_mem s ht))
    simp only [List.length_cons] at h
    have hfit : loc + (u32_bytes s.length).length ≤ header.length := by
      rw [u32_bytes_length]; omega
    have hw := write_at_fits header loc (u32_bytes s.length) hfit
    have hlen := write_at_length hw
    obtain ⟨out, hout, hol⟩ := ih
      (header.take loc ++ u32_bytes s.length ++ header.drop (loc + (u32_bytes s.length).length))
      (loc + 4) (by rw [hlen]; omega)
    refine ⟨out, ?_, by rw [hol, hlen]⟩
    unfold write_lengths
    rw [if_neg (not_not.2 hs), hw]
    simp only [List.length_cons]
    rw [hout]
    congr 2
    omega

/-- When the number of encoded streams equals the chunk count and the size of
every stream fits a `uint32_t`, `m_generate_header` returns a header of
`m_header_magic + 4 * K` bytes. -/
theorem m_generate_header_length
    (chunk_volume : dims_type → dims_type → List chunk_type)
    (cfg : BuildConfig) (st : SPERR3D_OMP_C)
    (hK : (chunk_volume st.m_dims st.m_chunk_dims).length = st.m_encoded_streams.length)
    (hsmall : ∀ s ∈ st.m_encoded_streams, s.length ≤ 2 ^ 32 - 1) :
    ∃ header, m_generate_header chunk_volume cfg st = Except.ok header ∧
      header.length = 26 + 4 * st.m_encoded_streams.length := by
  unfold m_generate_header
  simp only [hK, ne_eq, not_true_eq_false, if_false, m_header_magic]
  have h1 := write_at_fits (List.replicate (26 + st.m_encoded_streams.length * 4) 0) 0
    [cfg.SPERR_VERSION_MAJOR % 256] (by simp; omega)
  have l1 := write_at_length h1
  rw [h1]
  simp only
  have h2 := write_at_fits _ 1
    [pack_8_booleans [cfg.USE_ZSTD, true, cfg.QZ_TERM, false, false, false, false, false]]
    (by rw [l1]; simp; omega)
  have l2 := write_at_length h2
  rw [h2]
  simp only
  have h3 := write_at_fits _ 2
    (u32_bytes (st.m_dims 0) ++ u32_bytes (st.m_dims 1) ++ u32_bytes (st.m_dims 2) ++
      u32_bytes (st.m_chunk_dims 0) ++ u32_bytes (st.m_chunk_dims 1) ++
      u32_bytes (st.m_chunk_dims 2))
    (by rw [l2, l1]; simp [u32_bytes_length])
  have l3 := write_at_length h3
  rw [h3]
  simp only
  obtain ⟨out, hout, hol⟩ := write_lengths_fits st.m_encoded_streams hsmall _ (2 + 24)
    (by rw [l3, l2, l1]; simp; omega)
  rw [hout]
  have e : 2 + 24 + 4 * st.m_encoded_streams.length = 26 + st.m_encoded_streams.length * 4 := by
    omega
  simp only [e, ne_eq, not_true_eq_false, if_false]
  refine ⟨out, rfl, ?_⟩
  rw [hol, l3, l2, l1, List.length_replicate]

/-- The accumulation of `get_encoded_bitstream`: the start value plus the sum
of the stream sizes. -/
theorem foldl_stream_sizes (streams : List vec8_type) :
    ∀ n : Nat, streams.foldl (fun a b => a + b.length) n =
      n + (streams.map List.length).sum := by
  induction streams with
  | nil => intro n; simp
  | cons s rest ih =>
    intro n
    simp only [List.foldl_cons, List.map_cons, List.sum_cons]
    rw [ih]
    omega

/-- The copy loop of `get_encoded_bitstream`, started right behind `pre` on a
buffer with room for exactly the streams, returns `pre` followed by the
streams, one after the other in list order. -/
theorem copy_streams_fills (streams : List vec8_type) :
    ∀ pre : vec8_type,
      copy_streams (pre ++ List.replicate (streams.map List.length).sum 0) pre.length streams =
        Except.ok (pre ++ streams.flatten) := by
  induction streams with
  | nil => intro pre; simp [copy_streams]
  | cons s rest ih =>
    intro pre
    unfold copy_streams
    have hfit : pre.length + s.length ≤
        (pre ++ List.replicate ((s :: rest).map List.length).sum 0).length := by
      simp
    rw [write_at_fits _ _ _ hfit]
    simp only
    have e : List.take pre.length (pre ++ List.replicate ((s :: rest).map List.length).sum 0) ++ s ++
        List.drop (pre.length + s.length)
          (pre ++ List.replicate ((s :: rest).map List.length).sum 0) =
        (pre ++ s) ++ List.replicate (rest.map List.length).sum 0 := by
      rw [List.take_left, List.drop_append_eq_append_drop]
      simp [List.drop_replicate, List.drop_eq_nil_of_le]
    rw [e]
    have := ih (pre ++ s)
    rw [List.length_append] at this
    rw [this]
    simp

/-- The bytes of stream `i` inside the concatenation of all streams: they
start at the sum of the sizes of the streams before it. -/
theorem flatten_drop_take (streams : List vec8_type) :
    ∀ (i : Nat) (s : vec8_type), streams[i]? = some s →
      ((streams.flatten).drop ((streams.take i).map List.length).sum).take s.length = s := by
  induction streams with
  | nil => intro i s h; simp at h
  | cons x rest ih =>
    intro i s h
    cases i with
    | zero =>
      simp only [List.getElem?_cons_zero, Option.some.injEq] at h
      subst h
      simp
    | succ i =>
      simp only [List.getElem?_cons_succ] at h
      simp only [List.take_succ_cons, List.map_cons, List.sum_cons, List.flatten_cons]
      rw [List.drop_append_eq_append_drop]
      have hx : List.drop (x.length + ((rest.take i).map List.length).sum) x = [] :=
        List.drop_eq_nil_of_le (by omega)
      rw [hx, List.nil_append]
      have e : x.length + ((rest.take i).map List.length).sum - x.length =
          ((rest.take i).map List.length).sum := by omega
      rw [e]
      exact ih i s h

/-- The streams before stream `i`, and stream `i` itself, end before stream
`j` starts, for `i < j`. -/
theorem sum_take_le (streams : List vec8_type) :
    ∀ (i j : Nat) (s : vec8_type), i < j → streams[i]? = some s →
      ((streams.take i).map List.length).sum + s.length ≤
        ((streams.take j).map List.length).sum := by
  induction streams with
  | nil => intro i j s _ h; simp at h
  | cons x rest ih =>
    intro i j s hij h
    obtain ⟨j, rfl⟩ : ∃ k, j = k + 1 := ⟨j - 1, by omega⟩
    cases i with
    | zero =>
      simp only [List.getElem?_cons_zero, Option.some.injEq] at h
      subst h
      simp
    | succ i =>
      simp only [List.getElem?_cons_succ] at h
      simp only [List.take_succ_cons, List.map_cons, List.sum_cons]
      have := ih i j s (by omega) h
      omega

/-- The loop that stores the stream lengths stops at the assertion when a
stream is larger than a `uint32_t` can say, if the header has room. -/
theorem write_lengths_too_large (streams : List vec8_type)
    (hlarge : ∃ s ∈ streams, ¬ (s.length ≤ 2 ^ 32 - 1)) :
    ∀ (header : vec8_type) (loc : Nat), loc + 4 * streams.length ≤ header.length →
      write_lengths header loc streams = Except.error speck.Err.assertFailed := by
  induction streams with
  | nil => obtain ⟨s, hs, -⟩ := hlarge; simp at hs
  | cons x rest ih =>
    intro header loc h
    simp only [List.length_cons] at h
    unfold write_lengths
    by_cases hx : x.length ≤ 2 ^ 32 - 1
    · rw [if_neg (not_not.2 hx)]
      have hfit : loc + (u32_bytes x.length).length ≤ header.length := by
        rw [u32_bytes_length]; omega
      have hw := write_at_fits header loc (u32_bytes x.length) hfit
      have hlen := write_at_length hw
      rw [hw]
      simp only
      refine ih ?_ _ _ (by rw [hlen]; omega)
      obtain ⟨s, hs, hbig⟩ := hlarge
      rcases List.mem_cons.1 hs with rfl | hmem
      · exact absurd hx hbig
      · exact ⟨s, hmem, hbig⟩
    · rw [if_pos hx]

/-- When the number of encoded streams equals the chunk count and some stream
is larger than `2 ^ 32 - 1` bytes, `get_encoded_bitstream` stops at the
assertion of `m_generate_header` and returns nothing. -/
theorem get_encoded_bitstream_too_large
    (chunk_volume : dims_type → dims_type → List chunk_type)
    (cfg : BuildConfig) (st : SPERR3D_OMP_C)
    (hK : (chunk_volume st.m_dims st.m_chunk_dims).length = st.m_encoded_streams.length)
    (hlarge : ∃ s ∈ st.m_encoded_streams, ¬ (s.length ≤ 2 ^ 32 - 1)) :
    get_encoded_bitstream chunk_volume cfg st = Except.error speck.Err.assertFailed := by
  have hgen : m_generate_header chunk_volume cfg st = Except.error speck.Err.assertFailed := by
    unfold m_generate_header
    simp only [hK, ne_eq, not_true_eq_false, if_false, m_header_magic]
    have h1 := write_at_fits (List.replicate (26 + st.m_encoded_streams.length * 4) 0) 0
      [cfg.SPERR_VERSION_MAJOR % 256] (by simp; omega)
    have l1 := write_at_length h1
    rw [h1]
    simp only
    have h2 := write_at_fits _ 1
      [pack_8_booleans [cfg.USE_ZSTD, true, cfg.QZ_TERM, false, false, false, false, false]]
      (by rw [l1]; simp; omega)
    have l2 := write_at_length h2
    rw [h2]
    simp only
    have h3 := write_at_fits _ 2
      (u32_bytes (st.m_dims 0) ++ u32_bytes (st.m_dims 1) ++ u32_bytes (st.m_dims 2) ++
        u32_bytes (st.m_chunk_dims 0) ++ u32_bytes (st.m_chunk_dims 1) ++
        u32_bytes (st.m_chunk_dims 2))
      (by rw [l2, l1]; simp [u32_bytes_length])
    have l3 := write_at_length h3
    rw [h3]
    simp only
    rw [write_lengths_too_large st.m_encoded_streams hlarge _ (2 + 24)
      (by rw [l3, l2, l1]; simp; omega)]
  unfold get_encoded_bitstream
  rw [hgen]

/-- C10 (as stated, fails): one chunk, so `K = 1`, and one encoded stream of
`2 ^ 32` bytes. The number of streams equals the chunk count, yet
`get_encoded_bitstream` does not return the header followed by the stream:
the assertion on the stream size in `m_generate_header` fails. -/
theorem get_encoded_bitstream_stream_too_large :
    ([List.replicate (2 ^ 32) 0] : List vec8_type).length =
      (chunk_volume ![1, 1, 1] ![1, 1, 1]).length ∧
    get_encoded_bitstream chunk_volume {}
      { m_dims := ![1, 1, 1], m_chunk_dims := ![1, 1, 1],
        m_encoded_streams := [List.replicate (2 ^ 32) 0] } =
      Except.error speck.Err.assertFailed :=
  ⟨by decide,
   get_encoded_bitstream_too_large chunk_volume {}
     { m_dims := ![1, 1, 1], m_chunk_dims := ![1, 1, 1],
       m_encoded_streams := [List.replicate (2 ^ 32) 0] } (by decide)
     ⟨List.replicate (2 ^ 32) 0, List.mem_singleton.2 rfl, by
       rw [List.length_replicate]; decide⟩⟩

/-- C10 (amended): whenever the number of encoded streams equals the chunk
count `K` and no stream is larger than `2 ^ 32 - 1` bytes,
`get_encoded_bitstream` returns the header followed by the chunk streams
concatenated in chunk-index order. The header has `26 + 4 * K` bytes, the
result has `26 + 4 * K` plus the sum of the stream lengths, the bytes of
stream `i` start at offset `26 + 4 * K` plus the lengths of the streams
before it, and they end before those of stream `j` start, for `i < j`. -/
theorem get_encoded_bitstream_layout
    (chunk_volume : dims_type → dims_type → List chunk_type)
    (cfg : BuildConfig) (st : SPERR3D_OMP_C)
    (hK : st.m_encoded_streams.length = (chunk_volume st.m_dims st.m_chunk_dims).length)
    (hsmall : ∀ s ∈ st.m_encoded_streams, s.length ≤ 2 ^ 32 - 1) :
    ∃ header buf,
      m_generate_header chunk_volume cfg st = Except.ok header ∧
      header.length = 26 + 4 * (chunk_volume st.m_dims st.m_chunk_dims).length ∧
      get_encoded_bitstream chunk_volume cfg st = Except.ok buf ∧
      buf = header ++ st.m_encoded_streams.flatten ∧
      buf.length = (26 + 4 * (chunk_volume st.m_dims st.m_chunk_dims).length) +
        (st.m_encoded_streams.map List.length).sum ∧
      (∀ (i : Nat) (s : vec8_type), st.m_encoded_streams[i]? = some s →
        (buf.drop ((26 + 4 * (chunk_volume st.m_dims st.m_chunk_dims).length) +
          ((st.m_encoded_streams.take i).map List.length).sum)).take s.length = s) ∧
      (∀ (i j : Nat) (s : vec8_type), i < j → st.m_encoded_streams[i]? = some s →
        (26 + 4 * (chunk_volume st.m_dims st.m_chunk_dims).length) +
            ((st.m_encoded_streams.take i).map List.length).sum + s.length ≤
          (26 + 4 * (chunk_volume st.m_dims st.m_chunk_dims).length) +
            ((st.m_encoded_streams.take j).map List.length).sum) := by
  obtain ⟨header, hh, hl⟩ := m_generate_header_length chunk_volume cfg st hK.symm hsmall
  rw [← hK]
  refine ⟨header, header ++ st.m_encoded_streams.flatten, hh, hl, ?_, rfl, ?_, ?_, ?_⟩
  · unfold get_encoded_bitstream
    rw [hh]
    have hne : header.isEmpty = false := by
      cases header with
      | nil => simp only [List.length_nil] at hl; omega
      | cons a t => rfl
    simp only [hne, Bool.false_eq_true, if_false, foldl_stream_sizes]
    have hfit : 0 + header.length ≤
        (List.replicate (header.length + (st.m_encoded_streams.map List.length).sum) 0).length := by
      simp
    rw [write_at_fits _ _ _ hfit]
    simp only
    have e : List.take 0 (List.replicate
          (header.length + (st.m_encoded_streams.map List.length).sum) 0) ++ header ++
        List.drop (0 + header.length) (List.replicate
          (header.length + (st.m_encoded_streams.map List.length).sum) 0) =
        header ++ List.replicate (st.m_encoded_streams.map List.length).sum 0 := by
      simp [List.drop_replicate]
    rw [e]
    exact copy_streams_fills st.m_encoded_streams header
  · rw [List.length_append, hl, List.length_flatten]
  · intro i s hs
    rw [← hl, List.drop_append_eq_append_drop]
    have hx : List.drop (header.length + ((st.m_encoded_streams.take i).map List.length).sum)
        header = [] := List.drop_eq_nil_of_le (by omega)
    rw [hx, List.nil_append]
    have e : header.length + ((st.m_encoded_streams.take i).map List.length).sum - header.length =
        ((st.m_encoded_streams.take i).map List.length).sum := by omega
    rw [e]
    exact flatten_drop_take st.m_encoded_streams i s hs
  · intro i j s hij hs
    have := sum_take_le st.m_encoded_streams i j s hij hs
    omega

/-- C10 (amended), on a 5x300x2 volume cut into two chunks of 5x200x2 and
5x100x2 with streams of 3 and 2 bytes: the 34 header bytes, then the 3 bytes
of chunk 0, then the 2 bytes of chunk 1. -/
theorem get_encoded_bitstream_layout_witness :
    ([[1, 2, 3], [4, 5]] : List vec8_type).length =
      (chunk_volume ![5, 300, 2] ![5, 200, 2]).length ∧
    (∀ s ∈ ([[1, 2, 3], [4, 5]] : List vec8_type), s.length ≤ 2 ^ 32 - 1) ∧
    get_encoded_bitstream chunk_volume { SPERR_VERSION_MAJOR := 3 }
        { m_dims := ![5, 300, 2], m_chunk_dims := ![5, 200, 2],
          m_encoded_streams := [[1, 2, 3], [4, 5]] } =
      Except.ok [3, 2, 5, 0, 0, 0, 44, 1, 0, 0, 2, 0, 0, 0, 5, 0, 0, 0, 200, 0, 0, 0, 2, 0, 0, 0,
        3, 0, 0, 0, 2, 0, 0, 0, 1, 2, 3, 4, 5] ∧
    ∃ header buf,
      m_generate_header chunk_volume { SPERR_VERSION_MAJOR := 3 }
        { m_dims := ![5, 300, 2], m_chunk_dims := ![5, 200, 2],
          m_encoded_streams := [[1, 2, 3], [4, 5]] } = Except.ok header ∧
      header.length = 26 + 4 * (chunk_volume ![5, 300, 2] ![5, 200, 2]).length ∧
      get_encoded_bitstream chunk_volume { SPERR_VERSION_MAJOR := 3 }
        { m_dims := ![5, 300, 2], m_chunk_dims := ![5, 200, 2],
          m_encoded_streams := [[1, 2, 3], [4, 5]] } = Except.ok buf ∧
      buf = header ++ ([[1, 2, 3], [4, 5]] : List vec8_type).flatten ∧
      buf.length = (26 + 4 * (chunk_volume ![5, 300, 2] ![5, 200, 2]).length) +
        (([[1, 2, 3], [4, 5]] : List vec8_type).map List.length).sum ∧
      (∀ (i : Nat) (s : vec8_type), ([[1, 2, 3], [4, 5]] : List vec8_type)[i]? = some s →
        (buf.drop ((26 + 4 * (chunk_volume ![5, 300, 2] ![5, 200, 2]).length) +
          ((([[1, 2, 3], [4, 5]] : List vec8_type).take i).map List.length).sum)).take
            s.length = s) ∧
      (∀ (i j : Nat) (s : vec8_type), i < j →
        ([[1, 2, 3], [4, 5]] : List vec8_type)[i]? = some s →
        (26 + 4 * (chunk_volume ![5, 300, 2] ![5, 200, 2]).length) +
            ((([[1, 2, 3], [4, 5]] : List vec8_type).take i).map List.length).sum + s.length ≤
          (26 + 4 * (chunk_volume ![5, 300, 2] ![5, 200, 2]).length) +
            ((([[1, 2, 3], [4, 5]] : List vec8_type).take j).map List.length).sum) :=
  ⟨by decide, by decide, rfl,
   get_encoded_bitstream_layout chunk_volume { SPERR_VERSION_MAJOR := 3 }
     { m_dims := ![5, 300, 2], m_chunk_dims := ![5, 200, 2],
       m_encoded_streams := [[1, 2, 3], [4, 5]] } (by decide) (by decide)⟩

end SPERR3D_OMP_C

namespace SPERR3D_OMP_C

open sperr

/-- Reading back the four bytes of a `uint32_t`: the value, truncated to 32
bits. -/
theorem read_u32_le_u32_bytes (pre post : vec8_type) (v : Nat) :
    read_u32_le (pre ++ u32_bytes v ++ post) pre.length = some (v % 2 ^ 32) := by
  have h0 : (pre ++ u32_bytes v ++ post)[pre.length]? = some (v % 2 ^ 32 % 256) := by
    rw [List.append_assoc, List.getElem?_append_right (le_refl _)]
    simp [u32_bytes]
  have h1 : (pre ++ u32_bytes v ++ post)[pre.length + 1]? =
      some (v % 2 ^ 32 / 2 ^ 8 % 256) := by
    rw [List.append_assoc, List.getElem?_append_right (by omega)]
    simp [u32_bytes]
  have h2 : (pre ++ u32_bytes v ++ post)[pre.length + 2]? =
      some (v % 2 ^ 32 / 2 ^ 16 % 256) := by
    rw [List.append_assoc, List.getElem?_append_right (by omega)]
    simp [u32_bytes]
  have h3 : (pre ++ u32_bytes v ++ post)[pre.length + 3]? =
      some (v % 2 ^ 32 / 2 ^ 24 % 256) := by
    rw [List.append_assoc, List.getElem?_append_right (by omega)]
    simp [u32_bytes]
  unfold read_u32_le
  rw [h0, h1, h2, h3]
  simp only [Option.some.injEq]
  have hlt : v % 2 ^ 32 < 2 ^ 32 := Nat.mod_lt _ (by norm_num)
  generalize v % 2 ^ 32 = w at hlt
  norm_num at hlt ⊢
  omega

/-- A copy right behind `pre` into a buffer `pre ++ fill`: the bytes take the
place of the first bytes of `fill`. -/
theorem write_at_append (pre fill bytes : vec8_type) (h : bytes.length ≤ fill.length) :
    write_at (pre ++ fill) pre.length bytes =
      Except.ok (pre ++ bytes ++ fill.drop bytes.length) := by
  rw [write_at_fits _ _ _ (by rw [List.length_append]; omega)]
  congr 1
  rw [List.take_left, List.drop_append_eq_append_drop]
  have h0 : List.drop (pre.length + bytes.length) pre = [] :=
    List.drop_eq_nil_of_le (by omega)
  have e : pre.length + bytes.length - pre.length = bytes.length := by omega
  rw [h0, e, List.nil_append]

/-- The bytes that the length loop of `m_generate_header` stores: four per
stream, in stream order. -/
theorem write_lengths_content (streams : List vec8_type)
    (hsmall : ∀ s ∈ streams, s.length ≤ 2 ^ 32 - 1) :
    ∀ pre : vec8_type,
      write_lengths (pre ++ List.replicate (4 * streams.length) 0) pre.length streams =
        Except.ok (pre ++ streams.flatMap (fun s => u32_bytes s.length),
          pre.length + 4 * streams.length) := by
  induction streams with
  | nil => intro pre; simp [write_lengths]
  | cons s rest ih =>
    intro pre
    have hs : s.length ≤ 2 ^ 32 - 1 := hsmall s (List.mem_cons_self s rest)
    have ih := ih (fun t ht => hsmall t (List.mem_cons_of_mem s ht)) (pre ++ u32_bytes s.length)
    unfold write_lengths
    rw [if_neg (not_not.2 hs),
      write_at_append pre _ (u32_bytes s.length) (by simp [u32_bytes_length])]
    simp only
    have e : List.drop (u32_bytes s.length).length
        (List.replicate (4 * (s :: rest).length) 0) = List.replicate (4 * rest.length) 0 := by
      rw [List.drop_replicate, u32_bytes_length, List.length_cons]
      have e0 : 4 * (rest.length + 1) - 4 = 4 * rest.length := by omega
      rw [e0]
    have e2 : pre.length + 4 = (pre ++ u32_bytes s.length).length := by
      rw [List.length_append, u32_bytes_length]
    rw [e, e2, ih]
    simp only [List.length_append, u32_bytes_length, List.length_cons, List.flatMap_cons,
      List.append_assoc, Except.ok.injEq, Prod.mk.injEq, true_and]
    omega

/-- The header that `m_generate_header` returns when the number of encoded
streams equals the chunk count and every stream size fits a `uint32_t`:
version, flags, the six dimensions and the stream lengths, each as four
bytes. -/
theorem m_generate_header_content
    (chunk_volume : dims_type → dims_type → List chunk_type)
    (cfg : BuildConfig) (st : SPERR3D_OMP_C)
    (hK : (chunk_volume st.m_dims st.m_chunk_dims).length = st.m_encoded_streams.length)
    (hsmall : ∀ s ∈ st.m_encoded_streams, s.length ≤ 2 ^ 32 - 1) :
    m_generate_header chunk_volume cfg st =
      Except.ok
        ([cfg.SPERR_VERSION_MAJOR % 256,
          pack_8_booleans [cfg.USE_ZSTD, true, cfg.QZ_TERM, false, false, false, false, false]] ++
         (u32_bytes (st.m_dims 0) ++ u32_bytes (st.m_dims 1) ++ u32_bytes (st.m_dims 2) ++
          u32_bytes (st.m_chunk_dims 0) ++ u32_bytes (st.m_chunk_dims 1) ++
          u32_bytes (st.m_chunk_dims 2)) ++
         st.m_encoded_streams.flatMap (fun s => u32_bytes s.length)) := by
  unfold m_generate_header
  simp only [hK, ne_eq, not_true_eq_false, if_false, m_header_magic]
  generalize hv : cfg.SPERR_VERSION_MAJOR % 256 = ver
  generalize hf :
    pack_8_booleans [cfg.USE_ZSTD, true, cfg.QZ_TERM, false, false, false, false, false] = flags
  generalize hd : u32_bytes (st.m_dims 0) ++ u32_bytes (st.m_dims 1) ++ u32_bytes (st.m_dims 2) ++
    u32_bytes (st.m_chunk_dims 0) ++ u32_bytes (st.m_chunk_dims 1) ++
    u32_bytes (st.m_chunk_dims 2) = vcdim
  have hdl : vcdim.length = 24 := by
    rw [← hd]; simp [u32_bytes_length]
  have h1 : write_at (List.replicate (26 + st.m_encoded_streams.length * 4) 0) 0 [ver] =
      Except.ok (ver :: List.replicate (25 + st.m_encoded_streams.length * 4) 0) := by
    have h := write_at_append [] (List.replicate (26 + st.m_encoded_streams.length * 4) 0) [ver]
      (by simp; omega)
    simp only [List.nil_append, List.length_nil, List.length_singleton,
      List.drop_replicate] at h
    have e : 26 + st.m_encoded_streams.length * 4 - 1 = 25 + st.m_encoded_streams.length * 4 := by
      omega
    rw [e] at h
    exact h
  rw [h1]
  simp only
  have h2 : write_at (ver :: List.replicate (25 + st.m_encoded_streams.length * 4) 0) 1 [flags] =
      Except.ok (ver :: flags :: List.replicate (24 + st.m_encoded_streams.length * 4) 0) := by
    have h := write_at_append [ver] (List.replicate (25 + st.m_encoded_streams.length * 4) 0)
      [flags] (by simp; omega)
    simp only [List.length_singleton, List.drop_replicate] at h
    have e : 25 + st.m_encoded_streams.length * 4 - 1 = 24 + st.m_encoded_streams.length * 4 := by
      omega
    rw [e] at h
    exact h
  rw [h2]
  simp only
  have h3 : write_at (ver :: flags :: List.replicate (24 + st.m_encoded_streams.length * 4) 0) 2
      vcdim =
      Except.ok ([ver, flags] ++ vcdim ++
        List.replicate (4 * st.m_encoded_streams.length) 0) := by
    have h := write_at_append [ver, flags]
      (List.replicate (24 + st.m_encoded_streams.length * 4) 0) vcdim (by simp; omega)
    simp only [List.drop_replicate, hdl] at h
    have e : 24 + st.m_encoded_streams.length * 4 - 24 = 4 * st.m_encoded_streams.length := by
      omega
    rw [e] at h
    exact h
  rw [h3]
  simp only
  have e5 : 2 + 24 = ([ver, flags] ++ vcdim).length := by
    rw [List.length_append, hdl]; rfl
  rw [e5, write_lengths_content st.m_encoded_streams hsmall ([ver, flags] ++ vcdim)]
  simp only [List.length_append, hdl, List.length_cons, List.length_singleton, List.length_nil]
  rw [if_neg (by omega)]

/-- The length bytes of `n` streams take `4 * n` bytes. -/
theorem length_bytes_length (streams : List vec8_type) :
    (streams.flatMap (fun s => u32_bytes s.length)).length = 4 * streams.length := by
  induction streams with
  | nil => rfl
  | cons s rest ih =>
    rw [List.flatMap_cons, List.length_append, ih, u32_bytes_length, List.length_cons]
    omega

/-- Reading the length field of chunk `i` behind a prefix `pre`: the size of
stream `i`, truncated to 32 bits. -/
theorem read_length_field (pre : vec8_type) (streams : List vec8_type) (i : Nat)
    (s : vec8_type) (hs : streams[i]? = some s) :
    read_u32_le (pre ++ streams.flatMap (fun s => u32_bytes s.length)) (pre.length + 4 * i) =
      some (s.length % 2 ^ 32) := by
  have hi : i < streams.length := by
    rcases Nat.lt_or_ge i streams.length with h | h
    · exact h
    · rw [List.getElem?_eq_none h] at hs; exact absurd hs (by simp)
  have hget : streams[i] = s := by
    rw [List.getElem?_eq_getElem hi] at hs
    exact Option.some.inj hs
  have hsplit : streams = streams.take i ++ s :: streams.drop (i + 1) := by
    rw [← hget, ← List.drop_eq_getElem_cons hi, List.take_append_drop]
  have hpre : (pre ++ (streams.take i).flatMap (fun s => u32_bytes s.length)).length =
      pre.length + 4 * i := by
    rw [List.length_append, length_bytes_length, List.length_take, Nat.min_eq_left (le_of_lt hi)]
  have hall : pre ++ streams.flatMap (fun s => u32_bytes s.length) =
      (pre ++ (streams.take i).flatMap (fun s => u32_bytes s.length)) ++ u32_bytes s.length ++
        (streams.drop (i + 1)).flatMap (fun s => u32_bytes s.length) := by
    conv_lhs => rw [hsplit]
    rw [List.flatMap_append, List.flatMap_cons]
    simp only [List.append_assoc]
  rw [hall, ← hpre]
  exact read_u32_le_u32_bytes _ _ _

/-- C11 (as stated, fails): one chunk, one encoded stream of 1 byte (shorter
than `2 ^ 32`), volume and chunk dimension `2 ^ 32` along x. The header has
26 + 4 bytes, but the `Dx` and `Cx` fields read back as 0, not `2 ^ 32`: the
dimensions are stored through `static_cast<uint32_t>`. -/
theorem header_round_trip_large_dims :
    ([[7]] : List vec8_type).length = (chunk_volume ![2 ^ 32, 1, 1] ![2 ^ 32, 1, 1]).length ∧
    (∀ s ∈ ([[7]] : List vec8_type), s.length < 2 ^ 32) ∧
    ∃ header,
      m_generate_header chunk_volume {}
        { m_dims := ![2 ^ 32, 1, 1], m_chunk_dims := ![2 ^ 32, 1, 1],
          m_encoded_streams := [[7]] } = Except.ok header ∧
      header.length = 26 + 4 * 1 ∧
      parse_header header 1 =
        ([some 0, some 1, some 1], [some 0, some 1, some 1], [some 1]) ∧
      (parse_header header 1).1 ≠ [some (2 ^ 32), some 1, some 1] := by
  refine ⟨by decide, by decide, _, rfl, rfl, rfl, by decide⟩

/-- C11 (amended): when the number of encoded streams equals the chunk count
`K`, every stream is shorter than `2 ^ 32` bytes and the three volume
dimensions and the three chunk dimensions are below `2 ^ 32`, the header
produced by `m_generate_header` has `26 + 4 * K` bytes, and reading it
according to the container layout yields the volume dimensions, the chunk
dimensions and, for each chunk, the byte length of its encoded stream. -/
theorem header_round_trip
    (chunk_volume : dims_type → dims_type → List chunk_type)
    (cfg : BuildConfig) (st : SPERR3D_OMP_C)
    (hK : st.m_encoded_streams.length = (chunk_volume st.m_dims st.m_chunk_dims).length)
    (hsmall : ∀ s ∈ st.m_encoded_streams, s.length < 2 ^ 32)
    (hdims : ∀ i, st.m_dims i < 2 ^ 32 ∧ st.m_chunk_dims i < 2 ^ 32) :
    ∃ header,
      m_generate_header chunk_volume cfg st = Except.ok header ∧
      header.length = 26 + 4 * (chunk_volume st.m_dims st.m_chunk_dims).length ∧
      parse_header header (chunk_volume st.m_dims st.m_chunk_dims).length =
        ([some (st.m_dims 0), some (st.m_dims 1), some (st.m_dims 2)],
         [some (st.m_chunk_dims 0), some (st.m_chunk_dims 1), some (st.m_chunk_dims 2)],
         st.m_encoded_streams.map (fun s => some s.length)) := by
  have hsmall1 : ∀ s ∈ st.m_encoded_streams, s.length ≤ 2 ^ 32 - 1 := by
    intro s hs
    have := hsmall s hs
    omega
  have hc := m_generate_header_content chunk_volume cfg st hK.symm hsmall1
  obtain ⟨header, hh, hl⟩ := m_generate_header_length chunk_volume cfg st hK.symm hsmall1
  rw [← hK]
  refine ⟨header, hh, hl, ?_⟩
  rw [hh] at hc
  simp only [Except.ok.injEq] at hc
  generalize hv : cfg.SPERR_VERSION_MAJOR % 256 = ver at hc
  generalize hf :
    pack_8_booleans [cfg.USE_ZSTD, true, cfg.QZ_TERM, false, false, false, false, false] =
      flags at hc
  have m0 := Nat.mod_eq_of_lt (hdims 0).1
  have m1 := Nat.mod_eq_of_lt (hdims 1).1
  have m2 := Nat.mod_eq_of_lt (hdims 2).1
  have c0 := Nat.mod_eq_of_lt (hdims 0).2
  have c1 := Nat.mod_eq_of_lt (hdims 1).2
  have c2 := Nat.mod_eq_of_lt (hdims 2).2
  have r0 : read_u32_le header 2 = some (st.m_dims 0) := by
    have h := read_u32_le_u32_bytes [ver, flags] (u32_bytes (st.m_dims 1) ++
      u32_bytes (st.m_dims 2) ++ u32_bytes (st.m_chunk_dims 0) ++
      u32_bytes (st.m_chunk_dims 1) ++ u32_bytes (st.m_chunk_dims 2) ++
      st.m_encoded_streams.flatMap (fun s => u32_bytes s.length)) (st.m_dims 0)
    rw [m0] at h
    rw [← h, hc]
    simp only [List.append_assoc, List.length_cons, List.length_nil]
  have r1 : read_u32_le header 6 = some (st.m_dims 1) := by
    have h := read_u32_le_u32_bytes ([ver, flags] ++ u32_bytes (st.m_dims 0))
      (u32_bytes (st.m_dims 2) ++ u32_bytes (st.m_chunk_dims 0) ++
      u32_bytes (st.m_chunk_dims 1) ++ u32_bytes (st.m_chunk_dims 2) ++
      st.m_encoded_streams.flatMap (fun s => u32_bytes s.length)) (st.m_dims 1)
    rw [m1] at h
    rw [← h, hc]
    simp only [List.append_assoc, List.length_append, List.length_cons, List.length_nil,
      u32_bytes_length]
  have r2 : read_u32_le header 10 = some (st.m_dims 2) := by
    have h := read_u32_le_u32_bytes ([ver, flags] ++ u32_bytes (st.m_dims 0) ++
      u32_bytes (st.m_dims 1))
      (u32_bytes (st.m_chunk_dims 0) ++
      u32_bytes (st.m_chunk_dims 1) ++ u32_bytes (st.m_chunk_dims 2) ++
      st.m_encoded_streams.flatMap (fun s => u32_bytes s.length)) (st.m_dims 2)
    rw [m2] at h
    rw [← h, hc]
    simp only [List.append_assoc, List.length_append, List.length_cons, List.length_nil,
      u32_bytes_length]
  have r3 : read_u32_le header 14 = some (st.m_chunk_dims 0) := by
    have h := read_u32_le_u32_bytes ([ver, flags] ++ u32_bytes (st.m_dims 0) ++
      u32_bytes (st.m_dims 1) ++ u32_bytes (st.m_dims 2))
      (u32_bytes (st.m_chunk_dims 1) ++ u32_bytes (st.m_chunk_dims 2) ++
      st.m_encoded_streams.flatMap (fun s => u32_bytes s.length)) (st.m_chunk_dims 0)
    rw [c0] at h
    rw [← h, hc]
    simp only [List.append_assoc, List.length_append, List.length_cons, List.length_nil,
      u32_bytes_length]
  have r4 : read_u32_le header 18 = some (st.m_chunk_dims 1) := by
    have h := read_u32_le_u32_bytes ([ver, flags] ++ u32_bytes (st.m_dims 0) ++
      u32_bytes (st.m_dims 1) ++ u32_bytes (st.m_dims 2) ++ u32_bytes (st.m_chunk_dims 0))
      (u32_bytes (st.m_chunk_dims 2) ++
      st.m_encoded_streams.flatMap (fun s => u32_bytes s.length)) (st.m_chunk_dims 1)
    rw [c1] at h
    rw [← h, hc]
    simp only [List.append_assoc, List.length_append, List.length_cons, List.length_nil,
      u32_bytes_length]
  have r5 : read_u32_le header 22 = some (st.m_chunk_dims 2) := by
    have h := read_u32_le_u32_bytes ([ver, flags] ++ u32_bytes (st.m_dims 0) ++
      u32_bytes (st.m_dims 1) ++ u32_bytes (st.m_dims 2) ++ u32_bytes (st.m_chunk_dims 0) ++
      u32_bytes (st.m_chunk_dims 1))
      (st.m_encoded_streams.flatMap (fun s => u32_bytes s.length)) (st.m_chunk_dims 2)
    rw [c2] at h
    rw [← h, hc]
    simp only [List.append_assoc, List.length_append, List.length_cons, List.length_nil,
      u32_bytes_length]
  unfold parse_header
  rw [r0, r1, r2, r3, r4, r5]
  refine Prod.ext rfl (Prod.ext rfl ?_)
  simp only
  apply List.ext_getElem?
  intro i
  rcases Nat.lt_or_ge i st.m_encoded_streams.length with hi | hi
  · have hs : st.m_encoded_streams[i]? = some st.m_encoded_streams[i] :=
      List.getElem?_eq_getElem hi
    have h := read_length_field ([ver, flags] ++
      (u32_bytes (st.m_dims 0) ++ u32_bytes (st.m_dims 1) ++ u32_bytes (st.m_dims 2) ++
        u32_bytes (st.m_chunk_dims 0) ++ u32_bytes (st.m_chunk_dims 1) ++
        u32_bytes (st.m_chunk_dims 2))) st.m_encoded_streams i _ hs
    rw [← hc] at h
    have hlen : st.m_encoded_streams[i].length % 2 ^ 32 = st.m_encoded_streams[i].length :=
      Nat.mod_eq_of_lt (hsmall _ (List.getElem_mem hi))
    rw [hlen] at h
    simp only [List.length_append, List.length_cons, List.length_nil, u32_bytes_length] at h
    simp only [List.getElem?_map, List.getElem?_range hi, hs, Option.map_some']
    rw [← h]
  · simp [List.getElem?_eq_none, hi]

/-- C11 (amended), on a 5x300x2 volume cut into two chunks with streams of 3
and 2 bytes. -/
theorem header_round_trip_witness :
    ([[1, 2, 3], [4, 5]] : List vec8_type).length =
      (chunk_volume ![5, 300, 2] ![5, 200, 2]).length ∧
    (∀ s ∈ ([[1, 2, 3], [4, 5]] : List vec8_type), s.length < 2 ^ 32) ∧
    (∀ i, (![5, 300, 2] : dims_type) i < 2 ^ 32 ∧ (![5, 200, 2] : dims_type) i < 2 ^ 32) ∧
    ∃ header,
      m_generate_header chunk_volume { SPERR_VERSION_MAJOR := 3 }
        { m_dims := ![5, 300, 2], m_chunk_dims := ![5, 200, 2],
          m_encoded_streams := [[1, 2, 3], [4, 5]] } = Except.ok header ∧
      header.length = 26 + 4 * (chunk_volume ![5, 300, 2] ![5, 200, 2]).length ∧
      parse_header header (chunk_volume ![5, 300, 2] ![5, 200, 2]).length =
        ([some ((![5, 300, 2] : dims_type) 0), some ((![5, 300, 2] : dims_type) 1),
          some ((![5, 300, 2] : dims_type) 2)],
         [some ((![5, 200, 2] : dims_type) 0), some ((![5, 200, 2] : dims_type) 1),
          some ((![5, 200, 2] : dims_type) 2)],
         ([[1, 2, 3], [4, 5]] : List vec8_type).map (fun s => some s.length)) :=
  ⟨by decide, by decide, by decide,
   header_round_trip chunk_volume { SPERR_VERSION_MAJOR := 3 }
     { m_dims := ![5, 300, 2], m_chunk_dims := ![5, 200, 2],
       m_encoded_streams := [[1, 2, 3], [4, 5]] } (by decide) (by decide) (by decide)⟩

end SPERR3D_OMP_C

namespace SPERR3D_OMP_C

open sperr

/-- The test `std::any_of(..., eq0)` on a `dims_type`. -/
theorem any_eq0_iff (d : dims_type) :
    (List.ofFn d).any (fun v => v == 0) = true ↔ ∃ i, d i = 0 := by
  simp only [List.any_eq_true, List.mem_ofFn, beq_iff_eq]
  constructor
  · rintro ⟨v, ⟨i, hi⟩, hv⟩
    exact ⟨i, hi.trans hv⟩
  · rintro ⟨i, hi⟩
    exact ⟨d i, ⟨i, rfl⟩, hi⟩

/-- C13: `set_bpp` returns `InvalidParam` exactly when `bpp < 0` or `bpp > 64`;
otherwise it returns `SetBPPBeforeDims` exactly when some volume dimension or
some chunk dimension is 0; and whenever it returns one of the two errors the
object is unchanged. -/
theorem set_bpp_errors (chunk_volume : dims_type → dims_type → List chunk_type)
    (ops : double_ops) (st : SPERR3D_OMP_C) (bpp : double) :
    ((set_bpp chunk_volume ops st bpp).2 = RTNType.InvalidParam ↔
      (double.lt bpp (double.finite 0) = true ∨ double.lt (double.finite 64) bpp = true)) ∧
    (¬ (double.lt bpp (double.finite 0) = true ∨ double.lt (double.finite 64) bpp = true) →
      ((set_bpp chunk_volume ops st bpp).2 = RTNType.SetBPPBeforeDims ↔
        ((∃ i, st.m_dims i = 0) ∨ (∃ i, st.m_chunk_dims i = 0)))) ∧
    (((set_bpp chunk_volume ops st bpp).2 = RTNType.InvalidParam ∨
      (set_bpp chunk_volume ops st bpp).2 = RTNType.SetBPPBeforeDims) →
      (set_bpp chunk_volume ops st bpp).1 = st) := by
  unfold set_bpp
  by_cases hr : (double.lt bpp (double.finite 0) || double.lt (double.finite 64) bpp) = true
  · have hr1 : double.lt bpp (double.finite 0) = true ∨
        double.lt (double.finite 64) bpp = true := by
      simpa [Bool.or_eq_true] using hr
    rw [if_pos hr]
    exact ⟨⟨fun _ => hr1, fun _ => rfl⟩, fun h => absurd hr1 h, fun _ => rfl⟩
  · have hr1 : ¬ (double.lt bpp (double.finite 0) = true ∨
        double.lt (double.finite 64) bpp = true) := by
      simpa [Bool.or_eq_true] using hr
    rw [if_neg hr]
    by_cases hz : ((List.ofFn st.m_dims).any (fun v => v == 0) ||
        (List.ofFn st.m_chunk_dims).any (fun v => v == 0)) = true
    · have hz1 : (∃ i, st.m_dims i = 0) ∨ (∃ i, st.m_chunk_dims i = 0) := by
        rw [Bool.or_eq_true, any_eq0_iff, any_eq0_iff] at hz
        exact hz
      rw [if_pos hz]
      refine ⟨⟨fun h => absurd h (by simp), fun h => absurd h hr1⟩,
        fun _ => ⟨fun _ => hz1, fun _ => rfl⟩, fun _ => rfl⟩
    · have hz1 : ¬ ((∃ i, st.m_dims i = 0) ∨ (∃ i, st.m_chunk_dims i = 0)) := by
        rw [Bool.or_eq_true, any_eq0_iff, any_eq0_iff] at hz
        exact hz
      rw [if_neg hz]
      refine ⟨⟨fun h => absurd h (by simp), fun h => absurd h hr1⟩,
        fun _ => ⟨fun h => absurd h (by simp), fun h => absurd h hz1⟩, ?_⟩
      intro h
      rcases h with h | h <;> exact absurd h (by simp)

/-- C13, on an object fresh from the constructor (no `copy_data` yet):
`set_bpp(1.0)` returns `SetBPPBeforeDims` and leaves the object as it was,
and `set_bpp(65.0)` returns `InvalidParam` and leaves the object as it was. -/
theorem set_bpp_errors_witness :
    ((set_bpp chunk_volume example_ops {} (double.finite 1)).2 = RTNType.SetBPPBeforeDims ∧
     (set_bpp chunk_volume example_ops {} (double.finite 1)).1 = {}) ∧
    ((set_bpp chunk_volume example_ops {} (double.finite 65)).2 = RTNType.InvalidParam ∧
     (set_bpp chunk_volume example_ops {} (double.finite 65)).1 = {}) := by
  have h1 := set_bpp_errors chunk_volume example_ops {} (double.finite 1)
  have h65 := set_bpp_errors chunk_volume example_ops {} (double.finite 65)
  have n1 : ¬ (double.lt (double.finite 1) (double.finite 0) = true ∨
      double.lt (double.finite 64) (double.finite 1) = true) := by
    simp only [double.lt, decide_eq_true_eq]
    norm_num
  have p65 : double.lt (double.finite 65) (double.finite 0) = true ∨
      double.lt (double.finite 64) (double.finite 65) = true := by
    right
    simp only [double.lt, decide_eq_true_eq]
    norm_num
  have r1 := (h1.2.1 n1).2 (Or.inl ⟨0, rfl⟩)
  have r65 := h65.1.2 p65
  exact ⟨⟨r1, h1.2.2 (Or.inr r1)⟩, ⟨r65, h65.2.2 (Or.inl r65)⟩⟩

/-- What the loop over the three indices leaves in `m_chunk_dims`: at every
index the preferred chunk dimension, raised to at least 1 and then cut to the
volume dimension. -/
theorem clamp_chunk_dims_apply (chunk_dims vol_dims m_chunk_dims : dims_type) (i : Fin 3) :
    clamp_chunk_dims chunk_dims vol_dims (List.finRange 3) m_chunk_dims i =
      min (max 1 (chunk_dims i)) (vol_dims i) := by
  have h3 : List.finRange 3 = [0, 1, 2] := by decide
  rw [h3]
  simp only [clamp_chunk_dims]
  fin_cases i <;> simp [Function.update]

/-- C14 (as stated, fails): with the empty volume of dimensions (0, 1, 1), the
stated length 0 and the preferred chunk dimensions (1, 1, 1), `copy_data`
returns `Good` and stores the chunk dimension 0 along x, which is below 1. -/
theorem copy_data_zero_dim :
    (copy_data chunk_volume (fun (_ : List Nat) _ _ => []) {} [] 0
      ![0, 1, 1] ![1, 1, 1]).2 = RTNType.Good ∧
    (copy_data chunk_volume (fun (_ : List Nat) _ _ => []) {} [] 0
      ![0, 1, 1] ![1, 1, 1]).1.m_chunk_dims 0 = 0 ∧
    ¬ (1 ≤ (copy_data chunk_volume (fun (_ : List Nat) _ _ => []) {} [] 0
      ![0, 1, 1] ![1, 1, 1]).1.m_chunk_dims 0) := by
  refine ⟨by decide, ?_, ?_⟩
  · simp [copy_data, clamp_chunk_dims_apply]
  · simp [copy_data, clamp_chunk_dims_apply]

/-- C14 (amended): for every call of `copy_data` that returns `Good`, each
stored chunk dimension is `min (max 1 C[i]) D[i]`: it is at most `D[i]`, it is
at least 1 whenever `D[i]` is at least 1, and it is `C[i]` whenever
`1 <= C[i] <= D[i]`. The stored volume dimensions are `D`. -/
theorem copy_data_clamps {T : Type} (chunk_volume : dims_type → dims_type → List chunk_type)
    (gather_chunk : List T → dims_type → chunk_type → List double)
    (st : SPERR3D_OMP_C) (vol : List T) (len : Nat) (vol_dims chunk_dims : dims_type)
    (hgood : (copy_data chunk_volume gather_chunk st vol len vol_dims chunk_dims).2 =
      RTNType.Good) :
    (copy_data chunk_volume gather_chunk st vol len vol_dims chunk_dims).1.m_dims = vol_dims ∧
    ∀ i : Fin 3,
      (copy_data chunk_volume gather_chunk st vol len vol_dims chunk_dims).1.m_chunk_dims i =
        min (max 1 (chunk_dims i)) (vol_dims i) ∧
      (copy_data chunk_volume gather_chunk st vol len vol_dims chunk_dims).1.m_chunk_dims i ≤
        vol_dims i ∧
      (1 ≤ vol_dims i →
        1 ≤ (copy_data chunk_volume gather_chunk st vol len vol_dims chunk_dims).1.m_chunk_dims
          i) ∧
      (1 ≤ chunk_dims i → chunk_dims i ≤ vol_dims i →
        (copy_data chunk_volume gather_chunk st vol len vol_dims chunk_dims).1.m_chunk_dims i =
          chunk_dims i) := by
  unfold copy_data at hgood ⊢
  by_cases hlen : len ≠ (vol_dims 0 * vol_dims 1 * vol_dims 2) % 2 ^ 64
  · rw [if_pos hlen] at hgood
    exact absurd hgood (by simp)
  · rw [if_neg hlen]
    refine ⟨rfl, fun i => ?_⟩
    simp only [clamp_chunk_dims_apply]
    refine ⟨trivial, ?_, ?_, ?_⟩ <;> omega

/-- C14 (amended), on a 10x10x10 volume with the preferred chunk dimensions
(4, 0, 64): the stored chunk dimensions are (4, 1, 10). -/
theorem copy_data_clamps_witness :
    (copy_data chunk_volume (fun (_ : List Nat) _ _ => []) {} (List.replicate 1000 0) 1000
      ![10, 10, 10] ![4, 0, 64]).2 = RTNType.Good ∧
    ((copy_data chunk_volume (fun (_ : List Nat) _ _ => []) {} (List.replicate 1000 0) 1000
      ![10, 10, 10] ![4, 0, 64]).1.m_dims = ![10, 10, 10] ∧
    ∀ i : Fin 3,
      (copy_data chunk_volume (fun (_ : List Nat) _ _ => []) {} (List.replicate 1000 0) 1000
        ![10, 10, 10] ![4, 0, 64]).1.m_chunk_dims i =
        min (max 1 ((![4, 0, 64] : dims_type) i)) ((![10, 10, 10] : dims_type) i) ∧
      (copy_data chunk_volume (fun (_ : List Nat) _ _ => []) {} (List.replicate 1000 0) 1000
        ![10, 10, 10] ![4, 0, 64]).1.m_chunk_dims i ≤ (![10, 10, 10] : dims_type) i ∧
      (1 ≤ (![10, 10, 10] : dims_type) i →
        1 ≤ (copy_data chunk_volume (fun (_ : List Nat) _ _ => []) {} (List.replicate 1000 0)
          1000 ![10, 10, 10] ![4, 0, 64]).1.m_chunk_dims i) ∧
      (1 ≤ (![4, 0, 64] : dims_type) i →
        (![4, 0, 64] : dims_type) i ≤ (![10, 10, 10] : dims_type) i →
        (copy_data chunk_volume (fun (_ : List Nat) _ _ => []) {} (List.replicate 1000 0) 1000
          ![10, 10, 10] ![4, 0, 64]).1.m_chunk_dims i = (![4, 0, 64] : dims_type) i)) :=
  ⟨by decide,
   copy_data_clamps chunk_volume (fun (_ : List Nat) _ _ => []) {} (List.replicate 1000 0) 1000
     ![10, 10, 10] ![4, 0, 64] (by decide)⟩

/-- The result of `std::find_if` for the first status that is not `Good`:
the status at index `i`, when every status before it is `Good`. -/
theorem find_first_fail (rtns : List RTNType) :
    ∀ (i : Nat) (r : RTNType), rtns[i]? = some r → r ≠ RTNType.Good →
      (∀ j, j < i → rtns[j]? = some RTNType.Good) →
      rtns.find? (fun r => r != RTNType.Good) = some r := by
  induction rtns with
  | nil => intro i r h; simp at h
  | cons x rest ih =>
    intro i r h hr hbefore
    cases i with
    | zero =>
      simp only [List.getElem?_cons_zero, Option.some.injEq] at h
      subst h
      simp [List.find?_cons, hr]
    | succ i =>
      have hx : x = RTNType.Good := by
        have := hbefore 0 (by omega)
        simpa using this
      simp only [List.getElem?_cons_succ] at h
      rw [List.find?_cons, hx]
      simp only [bne_self_eq_false]
      refine ih i r h hr (fun j hj => ?_)
      have := hbefore (j + 1) (by omega)
      simpa using this

/-- The result of `std::find_if` when every status is `Good`: none. -/
theorem find_no_fail (rtns : List RTNType) (h : ∀ r ∈ rtns, r = RTNType.Good) :
    rtns.find? (fun r => r != RTNType.Good) = none := by
  rw [List.find?_eq_none]
  intro r hr
  simp [h r hr]

/-- The status found by `std::find_if` is not `Good`. -/
theorem find_fail_ne_good (rtns : List RTNType) (r : RTNType)
    (h : rtns.find? (fun r => r != RTNType.Good) = some r) : r ≠ RTNType.Good := by
  have := List.find?_some h
  simpa using this

/-- The loop of `compress` makes one entry per chunk, and entry `i` is what
the compressor step gives on chunk `i`, from the state the compressor has
after the chunks before it. -/
theorem run_compressors_spec {C : Type}
    (step : C → List double → Nat × Nat × Nat → double → C × RTNType × vec8_type)
    (bpp : double) (chunks : List (List double × chunk_type)) :
    ∀ fresh : C,
      (run_compressors step bpp fresh chunks).length = chunks.length ∧
      ∀ (i : Nat) (buf : List double) (chunk : chunk_type), chunks[i]? = some (buf, chunk) →
        (run_compressors step bpp fresh chunks)[i]? =
          some (step (compressor_before step bpp fresh chunks i) buf
            (chunk 1, chunk 3, chunk 5) bpp).2 := by
  induction chunks with
  | nil => intro fresh; exact ⟨rfl, fun i buf chunk h => absurd h (by simp)⟩
  | cons bc rest ih =>
    intro fresh
    obtain ⟨buf0, chunk0⟩ := bc
    have hrun : run_compressors step bpp fresh ((buf0, chunk0) :: rest) =
        (step fresh buf0 (chunk0 1, chunk0 3, chunk0 5) bpp).2 ::
          run_compressors step bpp (step fresh buf0 (chunk0 1, chunk0 3, chunk0 5) bpp).1
            rest := rfl
    obtain ⟨hlen, hget⟩ := ih (step fresh buf0 (chunk0 1, chunk0 3, chunk0 5) bpp).1
    refine ⟨by rw [hrun, List.length_cons, hlen, List.length_cons], ?_⟩
    intro i buf chunk h
    rw [hrun]
    cases i with
    | zero =>
      simp only [List.getElem?_cons_zero, Option.some.injEq, Prod.mk.injEq] at h
      obtain ⟨rfl, rfl⟩ := h
      simp only [compressor_before, List.take_zero, List.foldl_nil, List.getElem?_cons_zero]
    | succ i =>
      simp only [List.getElem?_cons_succ] at h ⊢
      rw [hget i buf chunk h]
      simp only [compressor_before, List.take_succ_cons, List.foldl_cons]

/-- C12: when the chunks are ready (as many non-empty chunk buffers as chunks,
and at least one thread), `compress` runs the compressor on every chunk in
index order: there is one result per chunk, and the result of chunk `i` is the
status and the stream that the compressor step gives on the buffer and the
dimensions of chunk `i`. `compress` stores the streams and fails fast on the
statuses of the chunks: if some chunk's status is not `Good`, it returns the
status of the lowest-indexed such chunk; if every status is `Good` but some
stream is empty, it returns `EmptyStream`; it returns `Good` exactly when
every status is `Good` and every stream is non-empty. -/
theorem compress_fails_fast {C : Type}
    (chunk_volume : dims_type → dims_type → List chunk_type)
    (step : C → List double → Nat × Nat × Nat → double → C × RTNType × vec8_type)
    (fresh : C) (st : SPERR3D_OMP_C)
    (hcount : st.m_chunk_buffers.length = (chunk_volume st.m_dims st.m_chunk_dims).length)
    (hfull : ∀ v ∈ st.m_chunk_buffers, v ≠ [])
    (hthreads : 1 ≤ st.m_num_threads) :
    ∃ (st1 : SPERR3D_OMP_C) (rtn : RTNType) (results : List (RTNType × vec8_type)),
      compress chunk_volume step fresh st = Except.ok (st1, rtn) ∧
      results.length = (chunk_volume st.m_dims st.m_chunk_dims).length ∧
      (∀ (i : Nat) (buf : List double) (chunk : chunk_type),
        st.m_chunk_buffers[i]? = some buf →
        (chunk_volume st.m_dims st.m_chunk_dims)[i]? = some chunk →
        results[i]? =
          some (step (compressor_before step st.m_bpp fresh
            (st.m_chunk_buffers.zip (chunk_volume st.m_dims st.m_chunk_dims)) i) buf
            (chunk 1, chunk 3, chunk 5) st.m_bpp).2) ∧
      st1.m_encoded_streams = results.map Prod.snd ∧
      (∀ (i : Nat) (r : RTNType),
        (results.map Prod.fst)[i]? = some r →
        r ≠ RTNType.Good →
        (∀ j, j < i → (results.map Prod.fst)[j]? = some RTNType.Good) →
        rtn = r) ∧
      ((∀ r ∈ results.map Prod.fst, r = RTNType.Good) →
        (∃ s ∈ results.map Prod.snd, s = []) → rtn = RTNType.EmptyStream) ∧
      (rtn = RTNType.Good ↔
        ((∀ r ∈ results.map Prod.fst, r = RTNType.Good) ∧
         ∀ s ∈ results.map Prod.snd, s ≠ [])) := by
  obtain ⟨hlen, hget⟩ := run_compressors_spec step st.m_bpp
    (st.m_chunk_buffers.zip (chunk_volume st.m_dims st.m_chunk_dims)) fresh
  have hlenK : (run_compressors step st.m_bpp fresh
      (st.m_chunk_buffers.zip (chunk_volume st.m_dims st.m_chunk_dims))).length =
      (chunk_volume st.m_dims st.m_chunk_dims).length := by
    rw [hlen, List.length_zip, hcount, Nat.min_self]
  have hpoint : ∀ (i : Nat) (buf : List double) (chunk : chunk_type),
      st.m_chunk_buffers[i]? = some buf →
      (chunk_volume st.m_dims st.m_chunk_dims)[i]? = some chunk →
      (run_compressors step st.m_bpp fresh
        (st.m_chunk_buffers.zip (chunk_volume st.m_dims st.m_chunk_dims)))[i]? =
        some (step (compressor_before step st.m_bpp fresh
          (st.m_chunk_buffers.zip (chunk_volume st.m_dims st.m_chunk_dims)) i) buf
          (chunk 1, chunk 3, chunk 5) st.m_bpp).2 := by
    intro i buf chunk hb hc
    exact hget i buf chunk (List.getElem?_zip_eq_some.2 ⟨hb, hc⟩)
  have hany : st.m_chunk_buffers.any (fun v => v.isEmpty) = false := by
    rw [List.any_eq_false]
    intro v hv
    simpa using hfull v hv
  have hthr : ¬ (st.m_num_threads = 0 ∧ 0 < (chunk_volume st.m_dims st.m_chunk_dims).length) := by
    omega
  unfold compress
  simp only [hcount, ne_eq, not_true_eq_false, if_false, hany, Bool.false_eq_true, hthr]
  revert hlenK hpoint
  generalize run_compressors step st.m_bpp fresh
    (st.m_chunk_buffers.zip (chunk_volume st.m_dims st.m_chunk_dims)) = results
  intro hlenK hpoint
  cases hfind : (results.map Prod.fst).find? (fun r => r != RTNType.Good) with
  | some fail =>
    have hne := find_fail_ne_good _ _ hfind
    refine ⟨_, _, results, rfl, hlenK, hpoint, rfl, ?_, ?_, ?_⟩
    · intro i r hi hr hbefore
      have := find_first_fail _ i r hi hr hbefore
      rw [hfind] at this
      exact Option.some.inj this
    · intro hall _
      rw [find_no_fail _ hall] at hfind
      exact absurd hfind (by simp)
    · constructor
      · intro h; exact absurd h hne
      · intro h
        rw [find_no_fail _ h.1] at hfind
        exact absurd hfind (by simp)
  | none =>
    have hall : ∀ r ∈ results.map Prod.fst, r = RTNType.Good := by
      intro r hr
      have := List.find?_eq_none.1 hfind r hr
      simpa using this
    by_cases hempty : (results.map Prod.snd).any (fun s => s.isEmpty) = true
    · simp only [hempty, if_true]
      have hex : ∃ s ∈ results.map Prod.snd, s = [] := by
        rw [List.any_eq_true] at hempty
        obtain ⟨s, hs, he⟩ := hempty
        exact ⟨s, hs, List.isEmpty_iff.1 he⟩
      refine ⟨_, _, results, rfl, hlenK, hpoint, rfl, ?_, ?_, ?_⟩
      · intro i r hi hr hbefore
        have := find_first_fail _ i r hi hr hbefore
        rw [hfind] at this
        exact absurd this (by simp)
      · intro _ _; rfl
      · constructor
        · intro h; exact absurd h (by simp)
        · intro h
          obtain ⟨s, hs, he⟩ := hex
          exact absurd he (h.2 s hs)
    · simp only [hempty, Bool.false_eq_true, if_false]
      have hnone : ∀ s ∈ results.map Prod.snd, s ≠ [] := by
        intro s hs he
        apply hempty
        rw [List.any_eq_true]
        exact ⟨s, hs, List.isEmpty_iff.2 he⟩
      refine ⟨_, _, results, rfl, hlenK, hpoint, rfl, ?_, ?_, ?_⟩
      · intro i r hi hr hbefore
        have := find_first_fail _ i r hi hr hbefore
        rw [hfind] at this
        exact absurd this (by simp)
      · intro _ hex
        obtain ⟨s, hs, he⟩ := hex
        exact absurd he (hnone s hs)
      · exact ⟨fun _ => ⟨hall, hnone⟩, fun _ => rfl⟩

/-- The per-chunk results of the example: `Good`, `InvalidParam`, `Good`. -/
theorem example_results :
    (run_compressors example_step example_orchestrator.m_bpp ()
      (example_orchestrator.m_chunk_buffers.zip
        (chunk_volume example_orchestrator.m_dims example_orchestrator.m_chunk_dims))).map
          Prod.fst = [RTNType.Good, RTNType.InvalidParam, RTNType.Good] := by
  have hz : example_orchestrator.m_chunk_buffers.zip
      (chunk_volume example_orchestrator.m_dims example_orchestrator.m_chunk_dims) =
      [([double.finite 1, double.finite 2], ![0, 2, 0, 1, 0, 1]),
       ([double.finite (-1), double.finite 0], ![2, 2, 0, 1, 0, 1]),
       ([double.finite 3, double.finite 4], ![4, 2, 0, 1, 0, 1])] := by
    decide
  rw [hz]
  simp only [run_compressors, example_step, double.lt, decide_eq_true_eq]
  norm_num

/-- C12, on the example orchestrator: three chunks, of which the second is
refused with `InvalidParam` while the first and the third give `Good` and a
stream of one byte; `compress` returns `InvalidParam`, the status of chunk 1,
and has stored the three streams. -/
theorem compress_fails_fast_witness :
    example_orchestrator.m_chunk_buffers.length =
      (chunk_volume example_orchestrator.m_dims example_orchestrator.m_chunk_dims).length ∧
    (∀ v ∈ example_orchestrator.m_chunk_buffers, v ≠ []) ∧
    1 ≤ example_orchestrator.m_num_threads ∧
    ∃ st1 : SPERR3D_OMP_C,
      compress chunk_volume example_step () example_orchestrator =
        Except.ok (st1, RTNType.InvalidParam) ∧
      st1.m_encoded_streams = [[2], [], [2]] := by
  refine ⟨by decide, by simp [example_orchestrator], by decide, ?_⟩
  obtain ⟨st1, rtn, results, hrun, hlen, hpoint, hstreams, hfail, -, -⟩ :=
    compress_fails_fast chunk_volume example_step () example_orchestrator (by decide)
      (by simp [example_orchestrator]) (by decide)
  have hc : chunk_volume example_orchestrator.m_dims example_orchestrator.m_chunk_dims =
      [![0, 2, 0, 1, 0, 1], ![2, 2, 0, 1, 0, 1], ![4, 2, 0, 1, 0, 1]] := by decide
  have r0 : results[0]? = some (RTNType.Good, [2]) := by
    rw [hpoint 0 [double.finite 1, double.finite 2] ![0, 2, 0, 1, 0, 1] rfl (by rw [hc]; rfl)]
    simp only [example_step, double.lt, decide_eq_true_eq]
    norm_num
  have r1 : results[1]? = some (RTNType.InvalidParam, []) := by
    rw [hpoint 1 [double.finite (-1), double.finite 0] ![2, 2, 0, 1, 0, 1] rfl
      (by rw [hc]; rfl)]
    simp only [example_step, double.lt, decide_eq_true_eq]
    norm_num
  have r2 : results[2]? = some (RTNType.Good, [2]) := by
    rw [hpoint 2 [double.finite 3, double.finite 4] ![4, 2, 0, 1, 0, 1] rfl (by rw [hc]; rfl)]
    simp only [example_step, double.lt, decide_eq_true_eq]
    norm_num
  have hlen3 : results.length = 3 := by rw [hlen, hc]; rfl
  have hres : results =
      [(RTNType.Good, [2]), (RTNType.InvalidParam, []), (RTNType.Good, [2])] := by
    apply List.ext_getElem?
    intro i
    rcases i with _ | _ | _ | i
    · exact r0
    · exact r1
    · exact r2
    · rw [List.getElem?_eq_none (by omega)]
      rfl
  have hrtn : rtn = RTNType.InvalidParam := by
    refine hfail 1 RTNType.InvalidParam (by rw [hres]; rfl) (by decide) (fun j hj => ?_)
    have hj0 : j = 0 := by omega
    rw [hj0, hres]
    rfl
  refine ⟨st1, by rw [hrun, hrtn], ?_⟩
  rw [hstreams, hres]
  rfl

end SPERR3D_OMP_C

namespace speck

namespace SPECK2D

/-- The list that `m_partition_S` returns, child by child, with the
half-lengths written out. -/
theorem m_partition_S_eq (set : SPECKSet2D) :
    m_partition_S set =
      [{ type := SPECKSetType.TypeS, part_level := set.part_level + 1,
         start_x := set.start_x + (set.length_x - set.length_x / 2),
         start_y := set.start_y + (set.length_x - set.length_x / 2),
         length_x := set.length_x - (set.length_x - set.length_x / 2),
         length_y := set.length_y - (set.length_y - set.length_y / 2) },
       { type := SPECKSetType.TypeS, part_level := set.part_level + 1,
         start_x := set.start_x,
         start_y := set.start_y + (set.length_x - set.length_x / 2),
         length_x := set.length_x,
         length_y := set.length_y - (set.length_y - set.length_y / 2) },
       { type := SPECKSetType.TypeS, part_level := set.part_level + 1,
         start_x := set.start_x + (set.length_x - set.length_x / 2),
         start_y := set.start_y,
         length_x := set.length_x - (set.length_x - set.length_x / 2),
         length_y := set.length_y - set.length_y / 2 },
       { type := SPECKSetType.TypeS, part_level := set.part_level + 1,
         start_x := set.start_x,
         start_y := set.start_y,
         length_x := set.length_x - set.length_x / 2,
         length_y := set.length_y - set.length_y / 2 }] := rfl

/-- C15 (as stated, fails): the child list of a pixel (the 1x1 set at the
origin) has four entries, and three of them have a zero-length dimension:
nothing is omitted. -/
theorem m_partition_S_pixel_keeps_empty_children :
    (m_partition_S (example_set 0 0 1 1 0)).length = 4 ∧
    ((m_partition_S (example_set 0 0 1 1 0)).filter
      (fun c => c.length_x == 0 || c.length_y == 0)).length = 3 ∧
    ¬ (∀ c ∈ m_partition_S (example_set 0 0 1 1 0), c.length_x ≠ 0 ∧ c.length_y ≠ 0) := by
  decide

/-- C15 (amended): for every 2D set, `m_partition_S` returns all four
children, whatever their lengths; the list is free of children with a
zero-length dimension exactly when the parent has `length_x >= 2` and
`length_y >= 2`. -/
theorem m_partition_S_four_children (set : SPECKSet2D) :
    (m_partition_S set).length = 4 ∧
    ((∀ c ∈ m_partition_S set, c.length_x ≠ 0 ∧ c.length_y ≠ 0) ↔
      (2 ≤ set.length_x ∧ 2 ≤ set.length_y)) := by
  rw [m_partition_S_eq]
  refine ⟨rfl, ?_⟩
  simp only [List.mem_cons, List.mem_singleton, List.not_mem_nil, or_false, forall_eq_or_imp,
    forall_eq]
  omega

/-- What `m_partition_S` gets right for every set: it emits four children,
each one level above the parent, and its last two children are the top-right
and the top-left quadrant of the specification; the top-left child starts at
the parent's start with the lengths `(lx - lx / 2, ly - ly / 2)`. -/
theorem m_partition_S_top_children (set : SPECKSet2D) :
    (m_partition_S set).length = 4 ∧
    (∀ c ∈ m_partition_S set, c.part_level = set.part_level + 1) ∧
    (m_partition_S set).drop 2 = (spec_quadrants set).drop 2 ∧
    (∃ c0 c1 c2 TL, m_partition_S set = [c0, c1, c2, TL] ∧
      TL.start_x = set.start_x ∧ TL.start_y = set.start_y ∧
      TL.length_x = set.length_x - set.length_x / 2 ∧
      TL.length_y = set.length_y - set.length_y / 2) := by
  rw [m_partition_S_eq]
  refine ⟨rfl, ?_, rfl, _, _, _, _, rfl, rfl, rfl, rfl, rfl⟩
  intro c hc
  simp only [List.mem_cons, List.mem_singleton, List.not_mem_nil, or_false] at hc
  rcases hc with rfl | rfl | rfl | rfl <;> rfl

/-- C16 (fails on the code): for the 4x2 set at the origin the first two
children that `m_partition_S` emits are not the lower-right and the lower-left
quadrant. The quadrants of the specification are, in order, (2,1) 2x1,
(0,1) 2x1, (2,0) 2x1, (0,0) 2x1; the code emits (2,2) 2x1, (0,2) 4x1, (2,0)
2x1, (0,0) 2x1. Its first two children start at `start_y + bigger_x = 2`, so
they hold no cell of the parent, and the row y = 1 of the parent, where the
lower quadrants belong, lies in no child. -/
theorem m_partition_S_4x2_lower_children_outside :
    (m_partition_S (example_set 0 0 4 2 0)).map
        (fun c => (c.start_x, c.start_y, c.length_x, c.length_y)) =
      [(2, 2, 2, 1), (0, 2, 4, 1), (2, 0, 2, 1), (0, 0, 2, 1)] ∧
    (spec_partition_S (example_set 0 0 4 2 0)).map
        (fun c => (c.start_x, c.start_y, c.length_x, c.length_y)) =
      [(2, 1, 2, 1), (0, 1, 2, 1), (2, 0, 2, 1), (0, 0, 2, 1)] ∧
    (m_partition_S (example_set 0 0 4 2 0)).take 2 ≠
      (spec_partition_S (example_set 0 0 4 2 0)).take 2 ∧
    (∀ c ∈ (m_partition_S (example_set 0 0 4 2 0)).take 2, ∀ x y : Nat,
      (example_set 0 0 4 2 0).contains x y → ¬ c.contains x y) ∧
    (∀ x : Nat, x < 4 → (example_set 0 0 4 2 0).contains x 1 ∧
      ∀ c ∈ m_partition_S (example_set 0 0 4 2 0), ¬ c.contains x 1) ∧
    covers_exactly (example_set 0 0 4 2 0) (spec_partition_S (example_set 0 0 4 2 0)) ∧
    ¬ covers_exactly (example_set 0 0 4 2 0) (m_partition_S (example_set 0 0 4 2 0)) := by
  have hspec : spec_partition_S (example_set 0 0 4 2 0) =
      [example_set 2 1 2 1 1, example_set 0 1 2 1 1, example_set 2 0 2 1 1,
        example_set 0 0 2 1 1] := by decide
  refine ⟨by decide, by decide, by decide, ?_, ?_, ?_, ?_⟩
  · intro c hc x y hxy hcxy
    have hc2 : c.start_y = 2 := by
      rw [m_partition_S_eq] at hc
      simp only [List.take_succ_cons, List.take_zero, List.mem_cons, List.mem_singleton,
        List.not_mem_nil, or_false] at hc
      rcases hc with rfl | rfl <;> rfl
    have h1 : y < 2 := hxy.2.2.2
    have h2 : c.start_y ≤ y := hcxy.2.2.1
    omega
  · intro x hx
    refine ⟨⟨Nat.zero_le _, by simpa [example_set] using hx, by decide, by decide⟩, ?_⟩
    intro c hc hcx
    rw [m_partition_S_eq] at hc
    simp only [List.mem_cons, List.mem_singleton, List.not_mem_nil, or_false] at hc
    rcases hc with rfl | rfl | rfl | rfl
    · exact absurd hcx.2.2.1 (by decide)
    · exact absurd hcx.2.2.1 (by decide)
    · exact absurd hcx.2.2.2 (by decide)
    · exact absurd hcx.2.2.2 (by decide)
  · intro x y
    by_cases hx : x < 4
    · by_cases hy : y < 2
      · interval_cases x <;> interval_cases y <;> decide
      · have hout : ¬ (example_set 0 0 4 2 0).contains x y := fun h => hy h.2.2.2
        rw [if_neg hout, List.length_eq_zero, List.filter_eq_nil_iff]
        intro c hc
        rw [hspec] at hc
        simp only [example_set, List.mem_cons, List.mem_singleton,
          List.not_mem_nil, or_false] at hc
        rcases hc with rfl | rfl | rfl | rfl <;>
          simp only [decide_eq_true_eq, SPECKSet2D.contains] <;> omega
    · have hout : ¬ (example_set 0 0 4 2 0).contains x y := fun h => hx h.2.1
      rw [if_neg hout, List.length_eq_zero, List.filter_eq_nil_iff]
      intro c hc
      rw [hspec] at hc
      simp only [example_set, List.mem_cons, List.mem_singleton,
        List.not_mem_nil, or_false] at hc
      rcases hc with rfl | rfl | rfl | rfl <;>
        simp only [decide_eq_true_eq, SPECKSet2D.contains] <;> omega
  · intro h
    have h01 := h 0 1
    revert h01
    decide

end SPECK2D

end speck

namespace speck

namespace SPECK2D

/-- The row-major index of a cell of the plane is inside a map with one entry
per cell. -/
theorem index_lt_of_inside {dim_x dim_y x y : Nat} (hx : x < dim_x) (hy : y < dim_y) :
    y * dim_x + x < dim_x * dim_y := by
  have h1 : y * dim_x + dim_x ≤ dim_y * dim_x := by
    have : (y + 1) * dim_x ≤ dim_y * dim_x := Nat.mul_le_mul_right _ hy
    rw [Nat.add_mul, Nat.one_mul] at this
    exact this
  rw [Nat.mul_comm dim_x dim_y]
  omega

/-- The inner loop, when every cell it may visit is inside the map: it
returns, and reports a hit exactly when one of the cells is marked. -/
theorem scan_row_spec (map : List Bool) (dim_x y : Nat) (n x : Nat)
    (hin : ∀ i, i < n → y * dim_x + (x + i) < map.length) :
    ∃ hit, scan_row map dim_x y x n = Except.ok hit ∧
      (hit = true ↔ ∃ i, i < n ∧ map[y * dim_x + (x + i)]? = some true) := by
  induction n generalizing x with
  | zero => exact ⟨false, rfl, by simp⟩
  | succ n ih =>
    have h0 := hin 0 (by omega)
    simp only [Nat.add_zero] at h0
    unfold scan_row
    rw [List.getElem?_eq_getElem h0]
    cases hb : map[y * dim_x + x] with
    | true =>
      refine ⟨true, rfl, fun _ => ⟨0, by omega, ?_⟩, fun _ => rfl⟩
      rw [Nat.add_zero, List.getElem?_eq_getElem h0, hb]
    | false =>
      obtain ⟨hit, hrun, hiff⟩ := ih (x + 1) (fun i hi => by
        have := hin (i + 1) (by omega)
        have e : x + 1 + i = x + (i + 1) := by omega
        rw [e]; exact this)
      refine ⟨hit, hrun, ?_⟩
      rw [hiff]
      constructor
      · rintro ⟨i, hi, hm⟩
        refine ⟨i + 1, by omega, ?_⟩
        have e : x + (i + 1) = x + 1 + i := by omega
        rw [e]; exact hm
      · rintro ⟨i, hi, hm⟩
        rcases Nat.eq_zero_or_pos i with rfl | hpos
        · rw [Nat.add_zero, List.getElem?_eq_getElem h0, hb] at hm
          exact absurd hm (by simp)
        · refine ⟨i - 1, by omega, ?_⟩
          have e : x + 1 + (i - 1) = x + i := by omega
          rw [e]; exact hm

/-- The two loops, when every cell of the rectangle is inside the map: they
return, and report a hit exactly when one of the cells is marked. -/
theorem scan_rows_spec (map : List Bool) (dim_x start_x length_x : Nat) (n y : Nat)
    (hin : ∀ j, j < n → ∀ i, i < length_x → (y + j) * dim_x + (start_x + i) < map.length) :
    ∃ hit, scan_rows map dim_x start_x length_x y n = Except.ok hit ∧
      (hit = true ↔ ∃ j, j < n ∧ ∃ i, i < length_x ∧
        map[(y + j) * dim_x + (start_x + i)]? = some true) := by
  induction n generalizing y with
  | zero => exact ⟨false, rfl, by simp⟩
  | succ n ih =>
    obtain ⟨hit0, hrow, hiff0⟩ := scan_row_spec map dim_x y length_x start_x (fun i hi => by
      have := hin 0 (by omega) i hi
      simpa using this)
    unfold scan_rows
    rw [hrow]
    cases hit0 with
    | true =>
      obtain ⟨i, hi, hm⟩ := hiff0.1 rfl
      exact ⟨true, rfl, fun _ => ⟨0, by omega, i, hi, by simpa using hm⟩, fun _ => rfl⟩
    | false =>
      obtain ⟨hit, hrun, hiff⟩ := ih (y + 1) (fun j hj i hi => by
        have := hin (j + 1) (by omega) i hi
        have e : y + 1 + j = y + (j + 1) := by omega
        rw [e]; exact this)
      refine ⟨hit, hrun, ?_⟩
      rw [hiff]
      constructor
      · rintro ⟨j, hj, i, hi, hm⟩
        refine ⟨j + 1, by omega, i, hi, ?_⟩
        have e : y + (j + 1) = y + 1 + j := by omega
        rw [e]; exact hm
      · rintro ⟨j, hj, i, hi, hm⟩
        rcases Nat.eq_zero_or_pos j with rfl | hpos
        · have : (false = true) := hiff0.2 ⟨i, hi, by simpa using hm⟩
          exact absurd this (by simp)
        · refine ⟨j - 1, by omega, i, hi, ?_⟩
          have e : y + 1 + (j - 1) = y + j := by omega
          rw [e]; exact hm

/-- The 2D significance test on an S-set inside the plane: it returns, and the
set is `Sig` exactly when a cell of its rectangle is marked at its row-major
index, and `Insig` otherwise. -/
theorem m_output_set_significance_spec {R : Type} (st : SPECK2D R) (set : SPECKSet2D)
    (htype : set.type = SPECKSetType.TypeS)
    (hmap : st.m_significance_map.length = st.m_dim_x * st.m_dim_y)
    (hin : set.inside st.m_dim_x st.m_dim_y) :
    ∃ st1 set1, m_output_set_significance st set = Except.ok (st1, set1) ∧
      (set1.signif = Significance.Sig ↔
        ∃ x y, set.contains x y ∧ st.m_significance_map[y * st.m_dim_x + x]? = some true) ∧
      (set1.signif ≠ Significance.Sig → set1.signif = Significance.Insig) := by
  obtain ⟨hit, hrun, hiff⟩ := scan_rows_spec st.m_significance_map st.m_dim_x set.start_x
    set.length_x set.length_y set.start_y (fun j hj i hi => by
      rw [hmap]
      exact index_lt_of_inside (by have := hin.1; omega) (by have := hin.2; omega))
  unfold m_output_set_significance
  rw [if_neg (not_not.2 htype), if_neg (not_not.2 hmap), hrun]
  refine ⟨_, _, rfl, ?_, ?_⟩
  · simp only
    constructor
    · intro h
      have hh : hit = true := by
        cases hit with
        | true => rfl
        | false => simp at h
      obtain ⟨j, hj, i, hi, hm⟩ := hiff.1 hh
      exact ⟨set.start_x + i, set.start_y + j,
        ⟨by omega, by omega, by omega, by omega⟩, hm⟩
    · rintro ⟨x, y, ⟨hx1, hx2, hy1, hy2⟩, hm⟩
      have hh : hit = true := hiff.2 ⟨y - set.start_y, by omega, x - set.start_x, by omega, by
        have e1 : set.start_y + (y - set.start_y) = y := by omega
        have e2 : set.start_x + (x - set.start_x) = x := by omega
        rw [e1, e2]; exact hm⟩
      rw [hh]; rfl
  · simp only
    cases hit with
    | true => intro h; exact absurd rfl h
    | false => intro _; rfl

end SPECK2D

end speck

namespace speck

namespace SPECK3D

/-- The row-major index of a cell of the volume is inside a map with one
entry per cell. -/
theorem volume_index_lt_of_inside {dim_x dim_y dim_z x y z : Nat} (hx : x < dim_x) (hy : y < dim_y)
    (hz : z < dim_z) : z * (dim_x * dim_y) + y * dim_x + x < dim_x * dim_y * dim_z := by
  have h2 := SPECK2D.index_lt_of_inside hx hy
  have h1 : z * (dim_x * dim_y) + dim_x * dim_y ≤ dim_z * (dim_x * dim_y) := by
    have : (z + 1) * (dim_x * dim_y) ≤ dim_z * (dim_x * dim_y) := Nat.mul_le_mul_right _ hz
    rw [Nat.add_mul, Nat.one_mul] at this
    exact this
  rw [Nat.mul_comm (dim_x * dim_y) dim_z]
  omega

/-- The innermost loop of the encoding branch, when every cell it visits is
inside the map: it returns, and has recorded something exactly when one of
the cells is marked. -/
theorem scan_x_spec (map : List Bool) (dim_x slice_size z y : Nat) (n x : Nat)
    (hin : ∀ i, i < n → z * slice_size + y * dim_x + (x + i) < map.length) :
    ∃ found, scan_x map dim_x slice_size z y x n = Except.ok found ∧
      (found ≠ [] ↔ ∃ i, i < n ∧ map[z * slice_size + y * dim_x + (x + i)]? = some true) := by
  induction n generalizing x with
  | zero => exact ⟨[], rfl, by simp⟩
  | succ n ih =>
    have h0 := hin 0 (by omega)
    simp only [Nat.add_zero] at h0
    obtain ⟨found, hrun, hiff⟩ := ih (x + 1) (fun i hi => by
      have := hin (i + 1) (by omega)
      have e : x + 1 + i = x + (i + 1) := by omega
      rw [e]; exact this)
    unfold scan_x
    rw [List.getElem?_eq_getElem h0, hrun]
    simp only
    cases hb : map[z * slice_size + y * dim_x + x] with
    | true =>
      refine ⟨x :: y :: z :: found, by simp, fun _ => ⟨0, by omega, ?_⟩, fun _ => by simp⟩
      rw [Nat.add_zero, List.getElem?_eq_getElem h0, hb]
    | false =>
      refine ⟨found, by simp, ?_⟩
      rw [hiff]
      constructor
      · rintro ⟨i, hi, hm⟩
        refine ⟨i + 1, by omega, ?_⟩
        have e : x + (i + 1) = x + 1 + i := by omega
        rw [e]; exact hm
      · rintro ⟨i, hi, hm⟩
        rcases Nat.eq_zero_or_pos i with rfl | hpos
        · rw [Nat.add_zero, List.getElem?_eq_getElem h0, hb] at hm
          exact absurd hm (by simp)
        · refine ⟨i - 1, by omega, ?_⟩
          have e : x + 1 + (i - 1) = x + i := by omega
          rw [e]; exact hm

/-- The middle loop of the encoding branch on rows inside the map. -/
theorem scan_y_spec (map : List Bool) (dim_x slice_size start_x length_x z : Nat) (n y : Nat)
    (hin : ∀ j, j < n → ∀ i, i < length_x →
      z * slice_size + (y + j) * dim_x + (start_x + i) < map.length) :
    ∃ found, scan_y map dim_x slice_size start_x length_x z y n = Except.ok found ∧
      (found ≠ [] ↔ ∃ j, j < n ∧ ∃ i, i < length_x ∧
        map[z * slice_size + (y + j) * dim_x + (start_x + i)]? = some true) := by
  induction n generalizing y with
  | zero => exact ⟨[], rfl, by simp⟩
  | succ n ih =>
    obtain ⟨row, hrow, hiff0⟩ := scan_x_spec map dim_x slice_size z y length_x start_x
      (fun i hi => by
        have := hin 0 (by omega) i hi
        simpa using this)
    obtain ⟨found, hrun, hiff⟩ := ih (y + 1) (fun j hj i hi => by
      have := hin (j + 1) (by omega) i hi
      have e : y + 1 + j = y + (j + 1) := by omega
      rw [e]; exact this)
    unfold scan_y
    rw [hrow, hrun]
    refine ⟨row ++ found, rfl, ?_⟩
    rw [Ne, List.append_eq_nil, not_and_or]
    constructor
    · rintro (h | h)
      · obtain ⟨i, hi, hm⟩ := hiff0.1 h
        exact ⟨0, by omega, i, hi, by simpa using hm⟩
      · obtain ⟨j, hj, i, hi, hm⟩ := hiff.1 h
        refine ⟨j + 1, by omega, i, hi, ?_⟩
        have e : y + (j + 1) = y + 1 + j := by omega
        rw [e]; exact hm
    · rintro ⟨j, hj, i, hi, hm⟩
      rcases Nat.eq_zero_or_pos j with rfl | hpos
      · exact Or.inl (hiff0.2 ⟨i, hi, by simpa using hm⟩)
      · refine Or.inr (hiff.2 ⟨j - 1, by omega, i, hi, ?_⟩)
        have e : y + 1 + (j - 1) = y + j := by omega
        rw [e]; exact hm

/-- The outer loop of the encoding branch on slices inside the map. -/
theorem scan_z_spec (map : List Bool) (dim_x slice_size start_x length_x start_y length_y : Nat)
    (n z : Nat)
    (hin : ∀ k, k < n → ∀ j, j < length_y → ∀ i, i < length_x →
      (z + k) * slice_size + (start_y + j) * dim_x + (start_x + i) < map.length) :
    ∃ found, scan_z map dim_x slice_size start_x length_x start_y length_y z n =
        Except.ok found ∧
      (found ≠ [] ↔ ∃ k, k < n ∧ ∃ j, j < length_y ∧ ∃ i, i < length_x ∧
        map[(z + k) * slice_size + (start_y + j) * dim_x + (start_x + i)]? = some true) := by
  induction n generalizing z with
  | zero => exact ⟨[], rfl, by simp⟩
  | succ n ih =>
    obtain ⟨slice, hslice, hiff0⟩ := scan_y_spec map dim_x slice_size start_x length_x z
      length_y start_y (fun j hj i hi => by
        have := hin 0 (by omega) j hj i hi
        simpa using this)
    obtain ⟨found, hrun, hiff⟩ := ih (z + 1) (fun k hk j hj i hi => by
      have := hin (k + 1) (by omega) j hj i hi
      have e : z + 1 + k = z + (k + 1) := by omega
      rw [e]; exact this)
    unfold scan_z
    rw [hslice, hrun]
    refine ⟨slice ++ found, rfl, ?_⟩
    rw [Ne, List.append_eq_nil, not_and_or]
    constructor
    · rintro (h | h)
      · obtain ⟨j, hj, i, hi, hm⟩ := hiff0.1 h
        exact ⟨0, by omega, j, hj, i, hi, by simpa using hm⟩
      · obtain ⟨k, hk, j, hj, i, hi, hm⟩ := hiff.1 h
        refine ⟨k + 1, by omega, j, hj, i, hi, ?_⟩
        have e : z + (k + 1) = z + 1 + k := by omega
        rw [e]; exact hm
    · rintro ⟨k, hk, j, hj, i, hi, hm⟩
      rcases Nat.eq_zero_or_pos k with rfl | hpos
      · exact Or.inl (hiff0.2 ⟨j, hj, i, hi, by simpa using hm⟩)
      · refine Or.inr (hiff.2 ⟨k - 1, by omega, j, hj, i, hi, ?_⟩)
        have e : z + 1 + (k - 1) = z + k := by omega
        rw [e]; exact hm

/-- The 3D significance decision in encode mode on a set inside the volume: it
returns 0 without touching the object, and the set is `Sig` exactly when a
cell of its cuboid is marked at its row-major index, and `Insig` otherwise. -/
theorem m_decide_setS_significance_spec (st : SPECK3D) (set : SPECKSet3D)
    (sigs : List Significance)
    (hmode : st.m_encode_mode = true)
    (hmap : st.m_significance_map.length = st.m_dim_x * st.m_dim_y * st.m_dim_z)
    (hin : set.inside st.m_dim_x st.m_dim_y st.m_dim_z) :
    ∃ set1 sigs1, m_decide_setS_significance st set sigs = Except.ok (st, set1, sigs1, 0) ∧
      (set1.signif = Significance.Sig ↔
        ∃ x y z, set.contains x y z ∧
          st.m_significance_map[z * (st.m_dim_x * st.m_dim_y) + y * st.m_dim_x + x]? =
            some true) ∧
      (set1.signif ≠ Significance.Sig → set1.signif = Significance.Insig) := by
  obtain ⟨found, hrun, hiff⟩ := scan_z_spec st.m_significance_map st.m_dim_x
    (st.m_dim_x * st.m_dim_y) set.start_x set.length_x set.start_y set.length_y
    set.length_z set.start_z (fun k hk j hj i hi => by
      rw [hmap]
      exact volume_index_lt_of_inside (by have := hin.1; omega) (by have := hin.2.1; omega)
        (by have := hin.2.2; omega))
  have hsig : (∃ x y z, set.contains x y z ∧
      st.m_significance_map[z * (st.m_dim_x * st.m_dim_y) + y * st.m_dim_x + x]? = some true) ↔
      found ≠ [] := by
    rw [hiff]
    constructor
    · rintro ⟨x, y, z, ⟨hx1, hx2, hy1, hy2, hz1, hz2⟩, hm⟩
      refine ⟨z - set.start_z, by omega, y - set.start_y, by omega, x - set.start_x, by omega, ?_⟩
      have e1 : set.start_z + (z - set.start_z) = z := by omega
      have e2 : set.start_y + (y - set.start_y) = y := by omega
      have e3 : set.start_x + (x - set.start_x) = x := by omega
      rw [e1, e2, e3]; exact hm
    · rintro ⟨k, hk, j, hj, i, hi, hm⟩
      exact ⟨set.start_x + i, set.start_y + j, set.start_z + k,
        ⟨by omega, by omega, by omega, by omega, by omega, by omega⟩, hm⟩
  unfold m_decide_setS_significance
  simp only [hmode, Bool.true_eq_false, if_false, hrun]
  cases found with
  | nil =>
    refine ⟨_, _, rfl, ?_, fun _ => rfl⟩
    rw [hsig]
    simp
  | cons a l =>
    refine ⟨_, _, rfl, ?_, fun h => absurd rfl h⟩
    rw [hsig]
    simp

end SPECK3D

end speck

namespace speck

/-- C17: in encode mode, for every set lying inside the grid, the significance
decided for the set is `Sig` if and only if at least one cell inside the set's
rectangle (2D, `SPECK2D::m_output_set_significance`, on an S-set) or cuboid
(3D, `SPECK3D::m_decide_setS_significance`) is marked in the significance map
at its row-major index, and `Insig` otherwise; an empty set is `Insig`. Both
methods return. The significance map has one entry per cell of the grid. -/
theorem significance_iff_marked_cell {R : Type}
    (st2 : SPECK2D R) (set2 : SPECKSet2D)
    (htype : set2.type = SPECKSetType.TypeS)
    (hmap2 : st2.m_significance_map.length = st2.m_dim_x * st2.m_dim_y)
    (hin2 : set2.inside st2.m_dim_x st2.m_dim_y)
    (st3 : SPECK3D) (set3 : SPECKSet3D) (sigs : List Significance)
    (hmode : st3.m_encode_mode = true)
    (hmap3 : st3.m_significance_map.length = st3.m_dim_x * st3.m_dim_y * st3.m_dim_z)
    (hin3 : set3.inside st3.m_dim_x st3.m_dim_y st3.m_dim_z) :
    (∃ st1 set1, SPECK2D.m_output_set_significance st2 set2 = Except.ok (st1, set1) ∧
      (set1.signif = Significance.Sig ↔
        ∃ x y, set2.contains x y ∧
          st2.m_significance_map[y * st2.m_dim_x + x]? = some true) ∧
      (set1.signif ≠ Significance.Sig → set1.signif = Significance.Insig) ∧
      ((set2.length_x = 0 ∨ set2.length_y = 0) → set1.signif = Significance.Insig)) ∧
    (∃ set1 sigs1,
      SPECK3D.m_decide_setS_significance st3 set3 sigs = Except.ok (st3, set1, sigs1, 0) ∧
      (set1.signif = Significance.Sig ↔
        ∃ x y z, set3.contains x y z ∧
          st3.m_significance_map[z * (st3.m_dim_x * st3.m_dim_y) + y * st3.m_dim_x + x]? =
            some true) ∧
      (set1.signif ≠ Significance.Sig → set1.signif = Significance.Insig) ∧
      (set3.is_empty = true → set1.signif = Significance.Insig)) := by
  obtain ⟨st1, set1, h2, hiff2, hins2⟩ :=
    SPECK2D.m_output_set_significance_spec st2 set2 htype hmap2 hin2
  obtain ⟨set1b, sigs1, h3, hiff3, hins3⟩ :=
    SPECK3D.m_decide_setS_significance_spec st3 set3 sigs hmode hmap3 hin3
  refine ⟨⟨st1, set1, h2, hiff2, hins2, ?_⟩, ⟨set1b, sigs1, h3, hiff3, hins3, ?_⟩⟩
  · intro hempty
    apply hins2
    intro hsig
    obtain ⟨x, y, ⟨hx1, hx2, hy1, hy2⟩, -⟩ := hiff2.1 hsig
    omega
  · intro hempty
    apply hins3
    intro hsig
    obtain ⟨x, y, z, ⟨hx1, hx2, hy1, hy2, hz1, hz2⟩, -⟩ := hiff3.1 hsig
    simp only [SPECKSet3D.is_empty, Bool.or_eq_true, beq_iff_eq] at hempty
    omega

/-- C17, on the 2x2 plane in which only the cell (1, 1) is marked, with its
2x2 root set, and on the 2x2x2 example volume with its 2x2x2 root set: both
sets are found significant. -/
theorem significance_iff_marked_cell_witness :
    (SPECK2D.example_set 0 0 2 2 0).type = SPECKSetType.TypeS ∧
    (SPECK2D.example_plane 2 2 [false, false, false, true] [[]]).m_significance_map.length =
      (SPECK2D.example_plane 2 2 [false, false, false, true] [[]]).m_dim_x *
        (SPECK2D.example_plane 2 2 [false, false, false, true] [[]]).m_dim_y ∧
    (SPECK2D.example_set 0 0 2 2 0).inside 2 2 ∧
    SPECK3D.example_volume.m_encode_mode = true ∧
    SPECK3D.example_volume.m_significance_map.length =
      SPECK3D.example_volume.m_dim_x * SPECK3D.example_volume.m_dim_y *
        SPECK3D.example_volume.m_dim_z ∧
    ({ length_x := 2, length_y := 2, length_z := 2 } : SPECKSet3D).inside 2 2 2 ∧
    (∃ st1 set1,
      SPECK2D.m_output_set_significance
        (SPECK2D.example_plane 2 2 [false, false, false, true] [[]])
        (SPECK2D.example_set 0 0 2 2 0) = Except.ok (st1, set1) ∧
      set1.signif = Significance.Sig) ∧
    (∃ set1 sigs1,
      SPECK3D.m_decide_setS_significance SPECK3D.example_volume
        { length_x := 2, length_y := 2, length_z := 2 } [] =
          Except.ok (SPECK3D.example_volume, set1, sigs1, 0) ∧
      set1.signif = Significance.Sig) := by
  have h := significance_iff_marked_cell
    (SPECK2D.example_plane 2 2 [false, false, false, true] [[]])
    (SPECK2D.example_set 0 0 2 2 0) rfl rfl ⟨by decide, by decide⟩
    SPECK3D.example_volume { length_x := 2, length_y := 2, length_z := 2 } [] rfl rfl
    ⟨by decide, by decide, by decide⟩
  obtain ⟨⟨st1, set1, h2, hiff2, -, -⟩, ⟨set1b, sigs1, h3, hiff3, -, -⟩⟩ := h
  refine ⟨rfl, rfl, ⟨by decide, by decide⟩, rfl, rfl, ⟨by decide, by decide, by decide⟩,
    ⟨st1, set1, h2, hiff2.2 ⟨1, 1, by decide, rfl⟩⟩,
    ⟨set1b, sigs1, h3, hiff3.2 ⟨1, 0, 1, ?_, rfl⟩⟩⟩
  simp [SPECKSet3D.contains]

end speck

namespace speck

namespace SPECK2D

/-- One round of the loop of `m_num_of_part_levels`. -/
theorem num_of_part_levels_loop_step (num_of_lev dim_x dim_y : Nat)
    (h : dim_x > 1 ∨ dim_y > 1) :
    num_of_part_levels_loop num_of_lev dim_x dim_y =
      num_of_part_levels_loop (num_of_lev + 1) (dim_x - dim_x / 2) (dim_y - dim_y / 2) := by
  rw [num_of_part_levels_loop, if_pos h]

/-- The loop of `m_num_of_part_levels` is over when both dimensions are at
most 1. -/
theorem num_of_part_levels_loop_done (num_of_lev dim_x dim_y : Nat)
    (h : ¬ (dim_x > 1 ∨ dim_y > 1)) :
    num_of_part_levels_loop num_of_lev dim_x dim_y = num_of_lev := by
  rw [num_of_part_levels_loop, if_neg h]

/-- The loop of `m_num_of_part_levels` adds to `num_of_lev` the number of
halvings (rounding up) that bring the larger dimension down to 1. -/
theorem num_of_part_levels_loop_eq (total : Nat) :
    ∀ num_of_lev dim_x dim_y : Nat, dim_x + dim_y = total →
      num_of_part_levels_loop num_of_lev dim_x dim_y =
        num_of_lev + Nat.clog 2 (max dim_x dim_y) := by
  induction total using Nat.strong_induction_on with
  | _ total ih =>
    intro num_of_lev dim_x dim_y htotal
    by_cases h : dim_x > 1 ∨ dim_y > 1
    · rw [num_of_part_levels_loop_step _ _ _ h,
        ih ((dim_x - dim_x / 2) + (dim_y - dim_y / 2)) (by omega) _ _ _ rfl]
      have hmax : 1 < max dim_x dim_y := by
        rcases h with h | h
        · exact lt_of_lt_of_le h (le_max_left _ _)
        · exact lt_of_lt_of_le h (le_max_right _ _)
      have hhalf : max (dim_x - dim_x / 2) (dim_y - dim_y / 2) =
          (max dim_x dim_y + 2 - 1) / 2 := by
        rcases le_total dim_x dim_y with hle | hle
        · rw [max_eq_right hle, max_eq_right (by omega)]
          omega
        · rw [max_eq_left hle, max_eq_left (by omega)]
          omega
      rw [hhalf, Nat.clog_of_two_le (le_refl 2) hmax]
      omega
    · rw [num_of_part_levels_loop_done _ _ _ h]
      have hmax : max dim_x dim_y ≤ 1 := by
        simp only [gt_iff_lt, not_or, not_lt] at h
        exact max_le h.1 h.2
      rw [Nat.clog_of_right_le_one hmax]
      rfl

/-- C21: for all plane dimensions `dim_x >= 1` and `dim_y >= 1`, the loop of
`m_num_of_part_levels` ends and the method returns
`1 + ceil(log2(max(dim_x, dim_y)))`, that is 1 plus the least `k` with
`2 ^ k >= max(dim_x, dim_y)`; for a 1x1 plane it returns 1. -/
theorem m_num_of_part_levels_eq {R : Type} (st : SPECK2D R)
    (_hx : 1 ≤ st.m_dim_x) (_hy : 1 ≤ st.m_dim_y) :
    m_num_of_part_levels st = 1 + Nat.clog 2 (max st.m_dim_x st.m_dim_y) ∧
    (∃ k, m_num_of_part_levels st = 1 + k ∧
      max st.m_dim_x st.m_dim_y ≤ 2 ^ k ∧
      ∀ j, max st.m_dim_x st.m_dim_y ≤ 2 ^ j → k ≤ j) ∧
    (st.m_dim_x = 1 → st.m_dim_y = 1 → m_num_of_part_levels st = 1) := by
  have hloop : m_num_of_part_levels st = 1 + Nat.clog 2 (max st.m_dim_x st.m_dim_y) :=
    num_of_part_levels_loop_eq _ 1 st.m_dim_x st.m_dim_y rfl
  refine ⟨hloop, ⟨Nat.clog 2 (max st.m_dim_x st.m_dim_y), hloop,
    Nat.le_pow_clog (by norm_num) _, fun j hj => (Nat.le_pow_iff_clog_le (by norm_num)).1 hj⟩,
    ?_⟩
  intro h1 h2
  rw [hloop, h1, h2, max_self, Nat.clog_of_right_le_one (le_refl 1)]

/-- C21, on a 5x3 plane: 1 + 3 levels, since 2 ^ 3 = 8 is the least power of
two that reaches 5. -/
theorem m_num_of_part_levels_eq_witness :
    1 ≤ (example_plane 5 3 [] []).m_dim_x ∧ 1 ≤ (example_plane 5 3 [] []).m_dim_y ∧
    m_num_of_part_levels (example_plane 5 3 [] []) = 4 ∧
    (m_num_of_part_levels (example_plane 5 3 [] []) =
      1 + Nat.clog 2 (max (example_plane 5 3 [] []).m_dim_x (example_plane 5 3 [] []).m_dim_y) ∧
    (∃ k, m_num_of_part_levels (example_plane 5 3 [] []) = 1 + k ∧
      max (example_plane 5 3 [] []).m_dim_x (example_plane 5 3 [] []).m_dim_y ≤ 2 ^ k ∧
      ∀ j, max (example_plane 5 3 [] []).m_dim_x (example_plane 5 3 [] []).m_dim_y ≤ 2 ^ j →
        k ≤ j) ∧
    ((example_plane 5 3 [] []).m_dim_x = 1 → (example_plane 5 3 [] []).m_dim_y = 1 →
      m_num_of_part_levels (example_plane 5 3 [] []) = 1)) := by
  have h := m_num_of_part_levels_eq (example_plane 5 3 [] []) (by decide) (by decide)
  refine ⟨by decide, by decide, ?_, h⟩
  obtain ⟨k, hk, hle, hleast⟩ := h.2.1
  have h3 : k ≤ 3 := hleast 3 (by decide)
  have hge : 3 ≤ k := by
    by_contra hlt
    have hk2 : k ≤ 2 := by omega
    have hpow : 2 ^ k ≤ 2 ^ 2 := Nat.pow_le_pow_right (by norm_num) hk2
    have h5 : max (example_plane 5 3 [] []).m_dim_x (example_plane 5 3 [] []).m_dim_y = 5 := by
      decide
    rw [h5] at hle
    omega
  omega

end SPECK2D

end speck

namespace speck

namespace SPECK3D

/-- One round of the loop on a level that exists: it returns, keeps the
number of levels and of counts, leaves every other level and count alone, and
cleans the level `i`. -/
theorem clean_level_spec (cap : Nat) (lis : List (List SPECKSet3D)) (cnt : List Nat) (i : Nat)
    (level : List SPECKSet3D) (garbage : Nat)
    (hl : lis[i]? = some level) (hc : cnt[i]? = some garbage) :
    ∃ lis1 cnt1, clean_level cap lis cnt i = Except.ok (lis1, cnt1) ∧
      lis1.length = lis.length ∧ cnt1.length = cnt.length ∧
      (∀ j, j ≠ i → lis1[j]? = lis[j]? ∧ cnt1[j]? = cnt[j]?) ∧
      level_cleaned cap level garbage lis1 cnt1 i := by
  have hil : i < lis.length := by
    rcases Nat.lt_or_ge i lis.length with h | h
    · exact h
    · rw [List.getElem?_eq_none h] at hl; exact absurd hl (by simp)
  have hic : i < cnt.length := by
    rcases Nat.lt_or_ge i cnt.length with h | h
    · exact h
    · rw [List.getElem?_eq_none h] at hc; exact absurd hc (by simp)
  unfold clean_level
  rw [hc, hl]
  simp only
  by_cases h1 : garbage > cap
  · by_cases h2 : garbage ≥ level.length / 2
    · rw [if_pos h1, if_pos h2]
      refine ⟨_, _, rfl, by simp, by simp, ?_, ?_⟩
      · intro j hj
        exact ⟨by rw [List.getElem?_set_ne (Ne.symm hj)],
          by rw [List.getElem?_set_ne (Ne.symm hj)]⟩
      · unfold level_cleaned
        rw [if_pos ⟨h1, h2⟩, List.getElem?_set_self hil, List.getElem?_set_self hic]
        exact ⟨rfl, rfl⟩
    · rw [if_pos h1, if_neg h2]
      refine ⟨_, _, rfl, rfl, rfl, fun _ _ => ⟨rfl, rfl⟩, ?_⟩
      unfold level_cleaned
      rw [if_neg (fun h => h2 h.2)]
      exact ⟨hl, hc⟩
  · rw [if_neg h1]
    refine ⟨_, _, rfl, rfl, rfl, fun _ _ => ⟨rfl, rfl⟩, ?_⟩
    unfold level_cleaned
    rw [if_neg (fun h => h1 h.1)]
    exact ⟨hl, hc⟩

/-- Whether a level counts as cleaned depends on that level and its count
only. -/
theorem level_cleaned_congr {cap : Nat} {level : List SPECKSet3D} {garbage : Nat}
    {lis1 lis2 : List (List SPECKSet3D)} {cnt1 cnt2 : List Nat} {i : Nat}
    (hl : lis2[i]? = lis1[i]?) (hc : cnt2[i]? = cnt1[i]?)
    (h : level_cleaned cap level garbage lis1 cnt1 i) :
    level_cleaned cap level garbage lis2 cnt2 i := by
  unfold level_cleaned at h ⊢
  rw [hl, hc]
  exact h

/-- The loop of `m_clean_LIS` over distinct levels that exist: it returns,
cleans each of these levels and leaves the others alone. -/
theorem clean_levels_spec (cap : Nat) (levels : List Nat) :
    ∀ (lis : List (List SPECKSet3D)) (cnt : List Nat),
      levels.Nodup → (∀ i ∈ levels, i < cnt.length) → cnt.length ≤ lis.length →
      ∃ lis1 cnt1, clean_levels cap levels lis cnt = Except.ok (lis1, cnt1) ∧
        lis1.length = lis.length ∧ cnt1.length = cnt.length ∧
        (∀ j, j ∉ levels → lis1[j]? = lis[j]? ∧ cnt1[j]? = cnt[j]?) ∧
        (∀ i ∈ levels, ∀ level garbage, lis[i]? = some level → cnt[i]? = some garbage →
          level_cleaned cap level garbage lis1 cnt1 i) := by
  induction levels with
  | nil =>
    intro lis cnt _ _ _
    exact ⟨lis, cnt, rfl, rfl, rfl, fun _ _ => ⟨rfl, rfl⟩, fun i hi => absurd hi (by simp)⟩
  | cons i rest ih =>
    intro lis cnt hnodup hlt hlen
    have hi : i < cnt.length := hlt i (List.mem_cons_self i rest)
    have hil : i < lis.length := by omega
    obtain ⟨lisa, cnta, hstep, hla, hca, hother, hclean⟩ :=
      clean_level_spec cap lis cnt i lis[i] cnt[i] (List.getElem?_eq_getElem hil)
        (List.getElem?_eq_getElem hi)
    have hnd := List.nodup_cons.1 hnodup
    obtain ⟨lis1, cnt1, hrun, hl1, hc1, hother1, hclean1⟩ := ih lisa cnta hnd.2
      (fun k hk => by rw [hca]; exact hlt k (List.mem_cons_of_mem i hk))
      (by rw [hca, hla]; exact hlen)
    refine ⟨lis1, cnt1, ?_, by rw [hl1, hla], by rw [hc1, hca], ?_, ?_⟩
    · unfold clean_levels
      rw [hstep]
      exact hrun
    · intro j hj
      have hji : j ≠ i := fun h => hj (h ▸ List.mem_cons_self i rest)
      have hjr : j ∉ rest := fun h => hj (List.mem_cons_of_mem i h)
      exact ⟨(hother1 j hjr).1.trans (hother j hji).1, (hother1 j hjr).2.trans (hother j hji).2⟩
    · intro k hk level garbage hlev hgar
      rcases List.mem_cons.1 hk with rfl | hkr
      · have e1 : lis[k] = level := by
          rw [List.getElem?_eq_getElem hil] at hlev; exact Option.some.inj hlev
        have e2 : cnt[k] = garbage := by
          rw [List.getElem?_eq_getElem hi] at hgar; exact Option.some.inj hgar
        rw [e1, e2] at hclean
        exact level_cleaned_congr (hother1 k hnd.1).1 (hother1 k hnd.1).2 hclean
      · have hki : k ≠ i := fun h => hnd.1 (h ▸ hkr)
        exact hclean1 k hkr level garbage ((hother k hki).1.trans hlev)
          ((hother k hki).2.trans hgar)

/-- C18 (as stated, fails): a level of 18 sets with the garbage count 9 and
the initial capacity 8. The count does not exceed half the length of the
level (9 is not greater than 18 / 2 = 9, nor than max(8, 9)), yet
`m_clean_LIS` compacts the level to its 9 live sets and resets the count. -/
theorem m_clean_LIS_compacts_at_half :
    ¬ (9 > max example_LIS.m_vec_init_capacity (18 / 2)) ∧
    example_LIS.m_LIS.map List.length = [18] ∧
    example_LIS.m_LIS_garbage_cnt = [9] ∧
    ∃ st1, m_clean_LIS example_LIS = Except.ok st1 ∧
      st1.m_LIS = [List.replicate 9 {}] ∧ st1.m_LIS_garbage_cnt = [0] :=
  ⟨by decide, by decide, rfl, _, rfl, by decide, rfl⟩

/-- C18 (amended): `m_clean_LIS` returns, and it compacts LIS level `i` if and
only if that level's garbage count exceeds the initial vector capacity and is
at least half the level's length (`size / 2`, rounded down): a compacted level
keeps exactly its sets that are not of type `Garbage` and its count is reset
to 0; every other level is left as it was with its count unchanged. -/
theorem m_clean_LIS_spec (st : SPECK3D)
    (hlen : st.m_LIS_garbage_cnt.length ≤ st.m_LIS.length) :
    ∃ st1, m_clean_LIS st = Except.ok st1 ∧
      st1.m_LIS.length = st.m_LIS.length ∧
      ∀ (i : Nat) (level : List SPECKSet3D) (garbage : Nat),
        st.m_LIS[i]? = some level → st.m_LIS_garbage_cnt[i]? = some garbage →
        ((garbage > st.m_vec_init_capacity ∧ garbage ≥ level.length / 2) →
          st1.m_LIS[i]? = some (level.filter (fun s => s.type != SetType.Garbage)) ∧
          st1.m_LIS_garbage_cnt[i]? = some 0) ∧
        (¬ (garbage > st.m_vec_init_capacity ∧ garbage ≥ level.length / 2) →
          st1.m_LIS[i]? = some level ∧ st1.m_LIS_garbage_cnt[i]? = some garbage) := by
  obtain ⟨lis1, cnt1, hrun, hl1, -, -, hclean⟩ :=
    clean_levels_spec st.m_vec_init_capacity (List.range st.m_LIS_garbage_cnt.length)
      st.m_LIS st.m_LIS_garbage_cnt (List.nodup_range _)
      (fun i hi => List.mem_range.1 hi) hlen
  unfold m_clean_LIS
  rw [hrun]
  refine ⟨_, rfl, hl1, ?_⟩
  intro i level garbage hlev hgar
  have hi : i < st.m_LIS_garbage_cnt.length := by
    rcases Nat.lt_or_ge i st.m_LIS_garbage_cnt.length with h | h
    · exact h
    · rw [List.getElem?_eq_none h] at hgar; exact absurd hgar (by simp)
  have h := hclean i (List.mem_range.2 hi) level garbage hlev hgar
  unfold level_cleaned at h
  constructor
  · intro hc
    rw [if_pos hc] at h
    exact h
  · intro hc
    rw [if_neg hc] at h
    exact h

/-- C18 (amended), on the example: the one level, with 9 of its 18 sets
counted as garbage and the capacity 8, is compacted. -/
theorem m_clean_LIS_spec_witness :
    example_LIS.m_LIS_garbage_cnt.length ≤ example_LIS.m_LIS.length ∧
    ∃ st1, m_clean_LIS example_LIS = Except.ok st1 ∧
      st1.m_LIS.length = example_LIS.m_LIS.length ∧
      ∀ (i : Nat) (level : List SPECKSet3D) (garbage : Nat),
        example_LIS.m_LIS[i]? = some level → example_LIS.m_LIS_garbage_cnt[i]? = some garbage →
        ((garbage > example_LIS.m_vec_init_capacity ∧ garbage ≥ level.length / 2) →
          st1.m_LIS[i]? = some (level.filter (fun s => s.type != SetType.Garbage)) ∧
          st1.m_LIS_garbage_cnt[i]? = some 0) ∧
        (¬ (garbage > example_LIS.m_vec_init_capacity ∧ garbage ≥ level.length / 2) →
          st1.m_LIS[i]? = some level ∧ st1.m_LIS_garbage_cnt[i]? = some garbage) :=
  ⟨by decide, m_clean_LIS_spec example_LIS (by decide)⟩

end SPECK3D

end speck

namespace speck

namespace SPECK2D

/-- The threshold that `speck2d` installs when it returns: 2 to the power
`long(std::log2(max_coeff))`, with the largest magnitude that `make_positive`
reports. -/
theorem speck2d_threshold (h : helpers) (st st1 : SPECK2D ℚ) (rc : Int)
    (hrun : speck2d h st = Except.ok (st1, rc)) :
    ∃ bits : Int,
      log2_to_long (h.make_positive st.m_coeff_buf (st.m_dim_x * st.m_dim_y)).2.2 =
        Except.ok bits ∧
      st1.m_threshold = (2 : ℚ) ^ bits := by
  unfold speck2d at hrun
  split at hrun
  · exact absurd hrun (by simp)
  · simp only at hrun
    split at hrun
    · exact absurd hrun (by simp)
    · rename_i bits hbits
      split at hrun
      · exact absurd hrun (by simp)
      · split at hrun
        · exact absurd hrun (by simp)
        · split at hrun
          · exact absurd hrun (by simp)
          · simp only [Except.ok.injEq, Prod.mk.injEq] at hrun
            refine ⟨bits, hbits, ?_⟩
            rw [← hrun.1]

/-- For a largest magnitude of at least 1, `long(std::log2(max_coeff))` is the
floor of the logarithm: the threshold 2 to that power is at most the
magnitude, which is below twice the threshold. -/
theorem log2_to_long_of_one_le (m : ℚ) (hm : 1 ≤ m) :
    ∃ bits : Int, log2_to_long m = Except.ok bits ∧
      (2 : ℚ) ^ bits ≤ m ∧ m < 2 * (2 : ℚ) ^ bits := by
  have hpos : 0 < m := lt_of_lt_of_le one_pos hm
  refine ⟨Int.log 2 m, ?_, ?_, ?_⟩
  · unfold log2_to_long
    rw [if_neg (not_le.2 hpos), if_pos hm]
  · have := Int.zpow_log_le_self (b := 2) (by norm_num) hpos
    simpa using this
  · have := Int.lt_zpow_succ_log_self (b := 2) (by norm_num) m
    rw [zpow_add_one₀ (by norm_num)] at this
    simp only [Nat.cast_ofNat] at this
    linarith

/-- For a largest magnitude below 1, `long(std::log2(max_coeff))` is the
ceiling of the logarithm: the threshold 2 to that power is at least the
magnitude. -/
theorem log2_to_long_of_lt_one (m : ℚ) (hpos : 0 < m) (hm : m < 1) :
    ∃ bits : Int, log2_to_long m = Except.ok bits ∧
      m ≤ (2 : ℚ) ^ bits ∧ (2 : ℚ) ^ bits < 2 * m := by
  refine ⟨Int.clog 2 m, ?_, ?_, ?_⟩
  · unfold log2_to_long
    rw [if_neg (not_le.2 hpos), if_neg (not_le.2 hm)]
  · have := Int.self_le_zpow_clog (b := 2) (by norm_num) m
    simpa using this
  · have := Int.zpow_pred_clog_lt_self (b := 2) (r := m) (by norm_num) hpos
    rw [zpow_sub_one₀ (by norm_num)] at this
    simp only [Nat.cast_ofNat] at this
    have h2 : (2 : ℚ) ^ Int.clog 2 m * 2⁻¹ < m := this
    linarith

/-- The value of `long(std::log2(0.3))`: -1, not the floor -2. -/
theorem log2_to_long_three_tenths : log2_to_long (3 / 10) = Except.ok (-1) := by
  unfold log2_to_long
  rw [if_neg (by norm_num), if_neg (by norm_num)]
  congr 1
  have h1 : Int.clog 2 (3 / 10 : ℚ) ≤ -1 :=
    (Int.le_zpow_iff_clog_le (b := 2) (by norm_num) (by norm_num)).1 (by norm_num)
  have h2 : -2 < Int.clog 2 (3 / 10 : ℚ) :=
    (Int.zpow_lt_iff_lt_clog (b := 2) (by norm_num) (by norm_num)).1 (by norm_num)
  omega

/-- The largest magnitude of the example plane is 3/10. -/
theorem example_small_plane_max :
    (example_helpers.make_positive example_small_plane.m_coeff_buf
      (example_small_plane.m_dim_x * example_small_plane.m_dim_y)).2.2 = 3 / 10 := by
  simp only [example_helpers, example_small_plane, List.map_cons, List.map_nil, List.foldl_cons,
    List.foldl_nil]
  norm_num [abs_of_nonneg, abs_of_neg]

/-- The 2x2 example plane has two partition levels. -/
theorem example_small_plane_levels : m_num_of_part_levels example_small_plane = 2 := by
  unfold m_num_of_part_levels
  rw [num_of_part_levels_loop_step _ _ _ (by decide),
    num_of_part_levels_loop_done _ _ _ (by decide)]

/-- C19 (fails on the code): on the 2x2 example plane, whose largest magnitude
is 0.3, `speck2d` returns with the threshold 2 ^ (-1) = 0.5, which is above
the largest magnitude; 2 ^ floor(log2(0.3)) would be 0.25. The conversion
`long(std::log2(max_coeff))` rounds -1.74 toward zero. -/
theorem speck2d_threshold_above_max :
    (example_helpers.make_positive example_small_plane.m_coeff_buf
      (example_small_plane.m_dim_x * example_small_plane.m_dim_y)).2.2 = 3 / 10 ∧
    ∃ st1, speck2d example_helpers example_small_plane = Except.ok (st1, 0) ∧
      st1.m_threshold = 1 / 2 ∧ ¬ (st1.m_threshold ≤ 3 / 10) := by
  refine ⟨example_small_plane_max, ?_⟩
  have hdims : example_small_plane.m_dim_x > 0 ∧ example_small_plane.m_dim_y > 0 := by
    decide
  have hx : example_helpers.calc_num_of_xform_levels
      (min example_small_plane.m_dim_x example_small_plane.m_dim_y) = 1 := rfl
  unfold speck2d
  rw [if_neg (not_not.2 hdims)]
  simp only [example_small_plane_max, log2_to_long_three_tenths, example_small_plane_levels, hx,
    one_ne_zero, if_false]
  refine ⟨_, rfl, ?_, ?_⟩
  · norm_num
  · norm_num

end SPECK2D

end speck

namespace speck

namespace SPECK2D

/-- C20 (fails on the code): on the 2x2 plane without a marked cell, with the
LIS sized by `m_num_of_part_levels` (two levels) and the 2x2 root set inside
the plane, the recursion `m_process_S` / `m_code_S` does not end: whatever the
fuel, `m_process_S` does not return. It pushes the lower-right child into LIS
level 1 and then the children of that child, whose `part_level` is 2, into
LIS level 2, which is not below the number of levels. -/
theorem m_process_S_recursion_leaves_LIS :
    m_num_of_part_levels
      (example_plane 2 2 [false, false, false, false] [[example_set 0 0 2 2 0], []]) = 2 ∧
    (example_plane 2 2 [false, false, false, false]
      [[example_set 0 0 2 2 0], []]).m_LIS.length = 2 ∧
    (example_set 0 0 2 2 0).inside 2 2 ∧
    (∀ fuel r,
      m_process_S fuel
        (example_plane 2 2 [false, false, false, false] [[example_set 0 0 2 2 0], []])
        (example_set 0 0 2 2 0) ≠ Except.ok r) ∧
    (∀ c ∈ m_partition_S (example_set 0 0 2 2 0), ∀ g ∈ m_partition_S c,
      g.part_level = 2 ∧
      push_LIS (example_plane 2 2 [false, false, false, false]
        [[example_set 0 0 2 2 0], []]).m_LIS g.part_level g = Except.error Err.outOfRange) ∧
    m_process_S 3
        (example_plane 2 2 [false, false, false, false] [[example_set 0 0 2 2 0], []])
        (example_set 0 0 2 2 0) = Except.error Err.outOfRange := by
  refine ⟨?_, rfl, ⟨by decide, by decide⟩, ?_, ?_, rfl⟩
  · unfold m_num_of_part_levels
    rw [num_of_part_levels_loop_step _ _ _ (by decide),
      num_of_part_levels_loop_done _ _ _ (by decide)]
  · intro fuel r
    exact m_process_S_insignificant_no_return fuel
      (example_plane 2 2 [false, false, false, false] [[example_set 0 0 2 2 0], []])
      (example_set 0 0 2 2 0) rfl r
  · intro c hc g hg
    rw [m_partition_S_eq] at hc
    simp only [List.mem_cons, List.mem_singleton, List.not_mem_nil, or_false] at hc
    rcases hc with rfl | rfl | rfl | rfl <;>
    · rw [m_partition_S_eq] at hg
      simp only [List.mem_cons, List.mem_singleton, List.not_mem_nil, or_false] at hg
      rcases hg with rfl | rfl | rfl | rfl <;> exact ⟨rfl, rfl⟩

end SPECK2D

end speck
